import Mathlib

/-!
# SAMURAI: the Cartesian (XYZ) variational driver

A shallow embedding of `VarDriverXYZ.cpp`.

* `real` is an arbitrary linearly ordered field `α` with a floor function; the
  definitions are executable at `α = ℚ`.  Floating-point rounding is not modelled.
* `int` is `Int`; signed overflow and out-of-range casts are undefined behaviour in
  the source and are outside the model.
* Everything the driver calls but does not define (the C math library, the Qt string
  conversions, the file readers, the map projection, the reference state, the spline
  library and the cost-function class) is a field of `Env`.
* `cout` is a list of the diagnostic messages that matter for control flow.
-/

namespace Samurai

/-! ## The environment of the driver -/

/-- The C math library (`<cmath>`) and the constant `Pi`. -/
structure Libm (α : Type) where
  sqrt : α → α
  exp : α → α
  log : α → α
  sin : α → α
  cos : α → α
  pow : α → α → α
  Pi : α

/-- The Qt conversions the driver uses: `QString::toFloat`, `QString::toInt`,
`QString::setNum` on a real and on an unsigned integer, and
`QTime::fromString(_, "hh:mm:ss")` (seconds since midnight, `none` when invalid). -/
structure QtConv (α : Type) where
  toFloat : String → α
  toInt : String → Int
  setNum : α → String
  setNumUInt : Int → String
  timeFromString : String → Option Int

/-- The type `QHash<QString, QString>`: `value` of an absent key is the empty string. -/
abbrev ConfigHash := String → String

/-- The method `QHash::insert`. -/
def ConfigHash.insert (h : ConfigHash) (key value : String) : ConfigHash :=
  fun k => if k = key then value else h k

/-- One entry of `frameVector`; `time` is the `QDateTime` in seconds since the epoch. -/
structure Frame (α : Type) where
  time : Int
  lat : α
  lon : α
  umean : α
  vmean : α

/-- The observation kinds of `MetObs::getObType()`; `other` is any kind the
`switch` of `preProcessMetObs` has no case for. -/
inductive ObType where
  | dropsonde | flightlevel | sfmr | qscat | ascat | AMV | lidar | radar | other
  deriving DecidableEq, Repr

/-- A raw instrument record: the values of the `MetObs` getters the driver reads. -/
structure MetObs (α : Type) where
  time : Int
  lat : α
  lon : α
  altitude : α
  obType : ObType
  cartesianUwind : α
  cartesianVwind : α
  verticalVelocity : α
  moistDensity : α
  airDensity : α
  qv : α
  temperature : α
  windSpeed : α
  azimuth : α
  elevation : α
  reflectivity : α
  radialVelocity : α
  spectrumWidth : α

/-- The value of `dataSuffix.value(suffix)` for a data file; `unknown` is the
`default` label of the `switch` (and the empty file name). -/
inductive DataKind where
  | frd | cls | sec | ten | swp | sfmr | wwind | eol | qscat | ascat | nopp | cimss | dwl
  | cen | unknown
  deriving DecidableEq, Repr

/-- A file of `./vardata`: its kind and the list its reader leaves in `metData`. -/
structure DataFile (α : Type) where
  kind : DataKind
  metData : List (MetObs α)

/-- The selector of `getReferenceVariable`. -/
inductive RefVar where
  | rhoaref | qvbhypref | tempref | rhoref
  deriving DecidableEq, Repr

/-- One line of `samurai_Background.in`. -/
structure BgRecord (α : Type) where
  time : Int
  lat : α
  lon : α
  alt : α
  u : α
  v : α
  w : α
  t : α
  qv : α
  rhoa : α

/-- One line of `samurai_Observations.in`, as `loadMetObs` reads it. -/
structure ObsLine (α : Type) where
  ob : α
  error : α
  xPos : α
  yPos : α
  zPos : α
  type : Int
  time : Int
  wgt : Nat → α

/-- Modelled from the spec: the `Observation` class is not part of the sources; it is
the tuple `(value, inverseError, x, y, z, typeTag, time, weight[7])` of the data model,
with `setError` storing the inverse of the error it is given. -/
structure Observation (α : Type) where
  ob : α
  inverseError : α
  cartesianX : α
  cartesianY : α
  altitude : α
  type : Int
  time : α
  weight : Nat → α

/-- The calls a `CostFunctionXYZ` instance has received after its construction. -/
inductive CostCall where
  | initializeCost | initState | minimize | updateBG | finalize
  deriving DecidableEq, Repr

/-- A `CostFunctionXYZ` instance, as far as the driver determines it: the arguments of
its constructor and of its `initialize`, and the calls made on it so far (latest
first). -/
structure CostFunctionXYZ (α : Type) where
  numObs : Int
  stateSize : Int
  configHash : ConfigHash
  bgU : List α
  obs : List α
  calls : List CostCall

/-- The diagnostic output of the driver that identifies the path taken. -/
inductive Msg where
  | xDimTooSmall | yDimTooSmall | zDimTooSmall
  | stateSizes (uStateSize bStateSize : Int)
  | refStateNotDefined
  | refTimeFound | refTimeError
  | bgOpenError | bgSplineFailed | bgTimeProblem (tci : Int) | bgEmptyMish | bgNoneLoaded
  | bgLoaded (numbgObs : Int)
  | obTimeProblem (fi : Int) | unknownDataType
  | numObservations (n : Int)
  | nothingProcessed | finishedPreprocessing (processedFiles : Int)
  | outerLoop (iter : Int)
  deriving DecidableEq, Repr

/-- Everything outside `VarDriverXYZ.cpp` that the driver reads or calls. -/
structure Env (α : Type) where
  libm : Libm α
  qt : QtConv α
  /-- Result of `parseXMLconfig(configuration)`: the resulting `configHash`, `none` on failure. -/
  parseXMLconfig : Option ConfigHash
  /-- The frames `readFrameCenters()` loads into `frameVector`. -/
  readFrameCenters : List (Frame α)
  /-- The entries of `./vardata`, in name order. -/
  dataFiles : List (DataFile α)
  /-- The projection `TransverseMercatorExact::Forward(lon0, lat, lon, x, y)`. -/
  tmForward : α → α → α → α × α
  getReferenceVariable : RefVar → α → α
  bhypTransform : α → α
  /-- The integer value of each `MetObs` observation-type enumerator. -/
  obTypeCode : ObType → Int
  /-- A default-constructed `Observation`. -/
  newObservation : Observation α
  /-- The records of `./samurai_Background.in`, `none` when it cannot be opened. -/
  bgstream : Option (List (BgRecord α))
  /-- The lines of `./samurai_Observations.in`. -/
  obstream : List (ObsLine α)
  /-- Result of `SplineD(x, n, y, wl, BC_ZERO_SECOND).ok()` for the knots `x`, the data
  `y` and the fourth constructor argument `wl`. -/
  splineOk : List α → List α → Int → Bool
  /-- Result of `solve(y)` followed by `evaluate(t)` on the spline built on the knots
  `x` with fourth constructor argument `wl`. -/
  splineEval : List α → Int → List α → α → α
  /-- The background array that the calls `initState`, `minimize` and `updateBG` (and
  `finalize`, where it follows) of a cost function leave behind. -/
  costUpdateBG : CostFunctionXYZ α → List α
  /-- The value that stands for a NaN where the program stores one in an array of
  `real`. An ordered field has no such element, so the model never compares it: every
  test of the source on a NaN is modelled by its IEEE result, which is false. -/
  nanReal : α

/-! ## The state of the driver -/

/-- The members of `VarDriverXYZ` (and of its base class) that the driver uses.
A pointer member is `none` until the `new` that sets it; `bgWeights` is `none`
again after its `delete[]`. -/
structure VarDriverXYZ (α : Type) where
  numVars : Int
  maxIter : Int
  configHash : ConfigHash
  imin : α
  imax : α
  iincr : α
  idim : Int
  jmin : α
  jmax : α
  jincr : α
  jdim : Int
  kmin : α
  kmax : α
  kincr : α
  kdim : Int
  bgU : Option (List α)
  bgWeights : Option (List α)
  jordanReference : Bool
  frameVector : List (Frame α)
  bgIn : List α
  bgObs : Option (List α)
  obVector : List (Observation α)
  obs : Option (List α)
  bgCostXYZ : Option (CostFunctionXYZ α)
  obCostXYZ : Option (CostFunctionXYZ α)
  cout : List Msg

/-- How a call of `initialize` ends: it returns a value, or the process exits. -/
inductive Outcome (α : Type) where
  | returned (value : Bool) (d : VarDriverXYZ α)
  | exited (code : Int) (d : VarDriverXYZ α)

/-- The driver state in which a call ends. -/
def Outcome.state {α : Type} : Outcome α → VarDriverXYZ α
  | .returned _ d => d
  | .exited _ d => d

/-- The value a call returns, `none` when the process exits instead. -/
def Outcome.value {α : Type} : Outcome α → Option Bool
  | .returned b _ => some b
  | .exited _ _ => none

/-- The exit status of the process, `none` when the call returns. -/
def Outcome.exitCode {α : Type} : Outcome α → Option Int
  | .returned _ _ => none
  | .exited c _ => some c

/-- The pair of arrays the interpolation loops accumulate into. -/
structure BgBuf (α : Type) where
  bgU : List α
  bgWeights : List α

section Model

variable {α : Type} [LinearOrderedField α] [FloorRing α]

/-- The cast `(int)x` of a real: truncation toward zero. -/
def truncToInt (x : α) : Int := if 0 ≤ x then Int.floor x else Int.ceil x

/-- The statement `a[i] += v` on an array. -/
def addAt (a : List α) (i : Int) (v : α) : List α :=
  if i < 0 then a else a.set i.toNat (a.getD i.toNat 0 + v)

/-- The statement `a[i] /= v` on an array. -/
def divAt (a : List α) (i : Int) (v : α) : List α :=
  if i < 0 then a else a.set i.toNat (a.getD i.toNat 0 / v)

/-- The statement `a[i] = v` on an array. -/
def setAt (a : List α) (i : Int) (v : α) : List α :=
  if i < 0 then a else a.set i.toNat v

/-- The read `a[i]` of an array. -/
def readAt (a : List α) (i : Int) : α :=
  if i < 0 then 0 else a.getD i.toNat 0

/-- The two values `-1, 1` of the loops `for (int mu = -1; mu <= 1; mu += 2)`. -/
def muValues : List Int := [-1, 1]

/-- The values `0, ..., dim-2` of the loops `for (int i = 0; i < (dim-1); i++)`. -/
def cellRange (dim : Int) : List Nat := List.range (dim - 1).toNat

/-- The mish coordinate `min + incr * (i + (0.5*sqrt(1./3.) * mu + 0.5))`. -/
def mishPos (m : Libm α) (min incr : α) (i : Nat) (mu : Int) : α :=
  min + incr * ((i : α) + (1 / 2 * m.sqrt (1 / 3) * (mu : α) + 1 / 2))

/-- The mish index `i*2 + (mu+1)/2` along one axis. -/
def mishIndex (i : Nat) (mu : Int) : Int := (i : Int) * 2 + (mu + 1) / 2

/-- The offset
`numVars*(idim-1)*2*(jdim-1)*2*bgK + numVars*(idim-1)*2*bgJ + numVars*bgI`. -/
def bIndex (d : VarDriverXYZ α) (bgI bgJ bgK : Int) : Int :=
  d.numVars * (d.idim - 1) * 2 * (d.jdim - 1) * 2 * bgK
    + d.numVars * (d.idim - 1) * 2 * bgJ + d.numVars * bgI

/-- The element `frameVector[fi]`; reading past the end is undefined in the source and
yields a zero frame here. -/
def frameAt (fv : List (Frame α)) (fi : Int) : Frame α :=
  fv.getD fi.toNat ⟨0, 0, 0, 0, 0⟩

/-- The time of `frameVector.front()`. -/
def startTime (fv : List (Frame α)) : Int := (fv.head?.map Frame.time).getD 0

/-- The time of `frameVector.back()`. -/
def endTime (fv : List (Frame α)) : Int := (fv.getLast?.map Frame.time).getD 0

/-- The constructor: `numVars = 7`, `maxIter = 1`, nothing allocated. -/
def VarDriverXYZ.new : VarDriverXYZ α where
  numVars := 7
  maxIter := 1
  configHash := fun _ => ""
  imin := 0
  imax := 0
  iincr := 0
  idim := 0
  jmin := 0
  jmax := 0
  jincr := 0
  jdim := 0
  kmin := 0
  kmax := 0
  kincr := 0
  kdim := 0
  bgU := none
  bgWeights := none
  jordanReference := false
  frameVector := []
  bgIn := []
  bgObs := none
  obVector := []
  obs := none
  bgCostXYZ := none
  obCostXYZ := none
  cout := []

/-! ## `loadBackgroundObs` -/

/-- The vectors `logheights, uBG, vBG, wBG, tBG, qBG, rBG` of the current column. -/
structure BgColumn (α : Type) where
  logheights : List α
  uBG : List α
  vBG : List α
  wBG : List α
  tBG : List α
  qBG : List α
  rBG : List α

/-- The seven `push_back` calls that add a level to the column. -/
def BgColumn.push (c : BgColumn α) (logZ rhou rhov rhow tprime qvprime rhoprime : α) :
    BgColumn α where
  logheights := c.logheights ++ [logZ]
  uBG := c.uBG ++ [rhou]
  vBG := c.vBG ++ [rhov]
  wBG := c.wBG ++ [rhow]
  tBG := c.tBG ++ [tprime]
  qBG := c.qBG ++ [qvprime]
  rBG := c.rBG ++ [rhoprime]

/-- The column after the seven `clear()` calls. -/
def BgColumn.clear : BgColumn α := ⟨[], [], [], [], [], [], []⟩

/-- The loop nest "Exponential interpolation in horizontal, b-Spline interpolation on
log height in vertical" of `loadBackgroundObs`, for the spline built on the column `c`
with fourth constructor argument `wl`. -/
def interpolateColumn (env : Env α) (d : VarDriverXYZ α) (wl : Int)
    (ROIsquare2 RSquare bgX bgY : α) (c : BgColumn α) (b : BgBuf α) : BgBuf α :=
  (cellRange d.kdim).foldl (fun b zi =>
    muValues.foldl (fun b zmu =>
      let zPos := mishPos env.libm d.kmin d.kincr zi zmu
      let logzPos := env.libm.log zPos
      (cellRange d.idim).foldl (fun b xi =>
        muValues.foldl (fun b xmu =>
          let xPos := mishPos env.libm d.imin d.iincr xi xmu
          if |xPos - bgX| > ROIsquare2 then b else
          (cellRange d.jdim).foldl (fun b yi =>
            muValues.foldl (fun b ymu =>
              let yPos := mishPos env.libm d.jmin d.jincr yi ymu
              if |yPos - bgY| > ROIsquare2 then b else
              let rSquare := (bgX - xPos) * (bgX - xPos) + (bgY - yPos) * (bgY - yPos)
              let bgI := mishIndex xi xmu
              let bgJ := mishIndex yi ymu
              let bgK := mishIndex zi zmu
              let bi := bIndex d bgI bgJ bgK
              if rSquare < RSquare then
                let weight := env.libm.exp (-rSquare / RSquare)
                if logzPos > c.logheights.headD 0 then
                  let ev := fun (data : List α) => env.splineEval c.logheights wl data logzPos
                  let u0 := addAt b.bgU bi (weight * ev c.uBG)
                  let u1 := addAt u0 (bi + 1) (weight * ev c.vBG)
                  let u2 := addAt u1 (bi + 2) (weight * ev c.wBG)
                  let u3 := addAt u2 (bi + 3) (weight * ev c.tBG)
                  let u4 := addAt u3 (bi + 4) (weight * ev c.qBG)
                  let u5 := addAt u4 (bi + 5) (weight * ev c.rBG)
                  { bgU := u5, bgWeights := addAt b.bgWeights bi weight }
                else
                  let u0 := addAt b.bgU bi (weight * c.uBG.headD 0)
                  let u1 := addAt u0 (bi + 1) (weight * c.vBG.headD 0)
                  let u2 := addAt u1 (bi + 2) (weight * c.wBG.headD 0)
                  let u3 := addAt u2 (bi + 3) (weight * c.tBG.headD 0)
                  let u4 := addAt u3 (bi + 4) (weight * c.qBG.headD 0)
                  let u5 := addAt u4 (bi + 5) (weight * c.rBG.headD 0)
                  { bgU := u5, bgWeights := addAt b.bgWeights bi weight }
              else b) b) b) b) b) b) b

/-- The locals of `loadBackgroundObs` that live across the iterations of its read loop,
with the members it changes. `bgX, bgY, bgZ` are indeterminate in the source until a
record passes the time test; they start at zero here. -/
structure BgLoad (α : Type) where
  bgX : α
  bgY : α
  bgZ : α
  col : BgColumn α
  bgIn : List α
  buf : BgBuf α
  cout : List Msg

/-- One iteration of `while (bgstream >> time >> lat >> ... >> rhoa)`. The Boolean is
`true` when the iteration leaves the function through `return -1`. -/
def loadBackgroundRecord (env : Env α) (d : VarDriverXYZ α) (st : BgLoad α)
    (r : BgRecord α) : Bool × BgLoad α :=
  let referenceLon := env.qt.toFloat (d.configHash "reflon")
  let ROI := env.qt.toFloat (d.configHash "backgroundroi")
  let RSquare := ROI * ROI
  let ROIsquare2 := ROI * env.libm.sqrt 2
  if r.time < startTime d.frameVector ∨ r.time > endTime d.frameVector then (false, st) else
  let tci := r.time - startTime d.frameVector
  if tci < 0 ∨ tci > (d.frameVector.length : Int) then
    (false, { st with cout := Msg.bgTimeProblem tci :: st.cout }) else
  let Um := (frameAt d.frameVector tci).umean
  let Vm := (frameAt d.frameVector tci).vmean
  let tc := env.tmForward referenceLon (frameAt d.frameVector tci).lat
    (frameAt d.frameVector tci).lon
  let met := env.tmForward referenceLon r.lat r.lon
  let bgX := (met.1 - tc.1) / 1000
  let bgY := (met.2 - tc.2) / 1000
  let heightm := r.alt
  let bgZ := heightm / 1000
  let st := { st with bgX := bgX, bgY := bgY, bgZ := bgZ }
  if bgX < d.imin - ROIsquare2 ∨ bgX > d.imax + ROIsquare2 ∨
      bgY < d.jmin - ROIsquare2 ∨ bgY > d.jmax + ROIsquare2 ∨ bgZ < d.kmin then
    (false, st) else
  let rhoBar := env.getReferenceVariable RefVar.rhoaref heightm
  let qBar := env.getReferenceVariable RefVar.qvbhypref heightm
  let tBar := env.getReferenceVariable RefVar.tempref heightm
  let rho := r.rhoa + r.rhoa * r.qv / 1000
  let rhou := rho * (r.u - Um)
  let rhov := rho * (r.v - Vm)
  let rhow := rho * r.w
  let tprime := r.t - tBar
  let qv := env.bhypTransform r.qv
  let qvprime := qv - qBar
  let rhoprime := (r.rhoa - rhoBar) * 100
  let logZ := env.libm.log bgZ
  let qr : α := 0
  let st := { st with bgIn := st.bgIn ++
    [bgX, bgY, logZ, (r.time : α), rhou, rhov, rhow, tprime, qvprime, rhoprime, qr] }
  if st.col.logheights.length = 0 then
    (false, { st with col := st.col.push logZ rhou rhov rhow tprime qvprime rhoprime })
  else if logZ > st.col.logheights.getLastD 0 then
    (false, { st with col := st.col.push logZ rhou rhov rhow tprime qvprime rhoprime })
  else if ¬ env.splineOk st.col.logheights st.col.uBG 0 then
    (true, { st with cout := Msg.bgSplineFailed :: st.cout })
  else
    (false, { st with
      buf := interpolateColumn env d 0 ROIsquare2 RSquare bgX bgY st.col st.buf
      col := BgColumn.clear.push (env.libm.log bgZ) rhou rhov rhow tprime qvprime
        rhoprime })

/-- The read loop of `loadBackgroundObs`; the Boolean is `true` when it ended in
`return -1`. -/
def loadBackgroundLoop (env : Env α) (d : VarDriverXYZ α) :
    BgLoad α → List (BgRecord α) → Bool × BgLoad α
  | st, [] => (false, st)
  | st, r :: rs =>
    match loadBackgroundRecord env d st r with
    | (true, st') => (true, st')
    | (false, st') => loadBackgroundLoop env d st' rs

/-- The loop nest "Check interpolation" of `loadBackgroundObs`: every mish point with a
non-zero weight is divided by it, and the weights are reset. -/
def checkInterpolation (d : VarDriverXYZ α) (b : BgBuf α × List Msg) : BgBuf α × List Msg :=
  (cellRange d.kdim).foldl (fun b zi =>
    muValues.foldl (fun b zmu =>
      (cellRange d.idim).foldl (fun b xi =>
        muValues.foldl (fun b xmu =>
          (cellRange d.jdim).foldl (fun b yi =>
            muValues.foldl (fun b ymu =>
              let bgI := mishIndex xi xmu
              let bgJ := mishIndex yi ymu
              let bgK := mishIndex zi zmu
              let bi := bIndex d bgI bgJ bgK
              let b := (List.range d.numVars.toNat).foldl (fun b (var : Nat) =>
                if readAt b.1.bgWeights bi ≠ 0 then
                  ({ b.1 with bgU := divAt b.1.bgU (bi + (var : Int)) (readAt b.1.bgWeights bi) },
                    b.2)
                else (b.1, Msg.bgEmptyMish :: b.2)) b
              ({ b.1 with bgWeights := setAt b.1.bgWeights bi 0 }, b.2)) b) b) b) b) b) b

/-- The method `loadBackgroundObs`. The first component is the returned value, `none`
when the process leaves through `exit(1)`. -/
def loadBackgroundObs (env : Env α) (d : VarDriverXYZ α) : Option Int × VarDriverXYZ α :=
  let ROI := env.qt.toFloat (d.configHash "backgroundroi")
  let RSquare := ROI * ROI
  let ROIsquare2 := ROI * env.libm.sqrt 2
  match env.bgstream with
  | none => (none, { d with cout := Msg.bgOpenError :: d.cout })
  | some records =>
    let r := loadBackgroundLoop env d
      ⟨0, 0, 0, BgColumn.clear, d.bgIn, ⟨d.bgU.getD [], d.bgWeights.getD []⟩, d.cout⟩ records
    let st := r.2
    if r.1 then
      (some (-1), { d with bgIn := st.bgIn, bgU := some st.buf.bgU,
                           bgWeights := some st.buf.bgWeights, cout := st.cout })
    else if ¬ env.splineOk st.col.logheights st.col.uBG 2 then
      (some (-1), { d with bgIn := st.bgIn, bgU := some st.buf.bgU,
                           bgWeights := some st.buf.bgWeights,
                           cout := Msg.bgSplineFailed :: st.cout })
    else
      let buf := interpolateColumn env d 2 ROIsquare2 RSquare st.bgX st.bgY st.col st.buf
      let numbgObs := (st.bgIn.length : Int) * 7 / 11
      if numbgObs > 0 then
        let c := checkInterpolation d (buf, st.cout)
        (some numbgObs, { d with bgIn := st.bgIn, bgU := some c.1.bgU,
                                 bgWeights := some c.1.bgWeights,
                                 cout := Msg.bgLoaded numbgObs :: c.2 })
      else
        (some 0, { d with bgIn := st.bgIn, bgU := some buf.bgU,
                          bgWeights := some buf.bgWeights,
                          cout := Msg.bgNoneLoaded :: st.cout })

/-! ## `adjustBackground` -/

/-- The locals `p`, `numbgObs` and the array `bgObs` of the record loop of
`adjustBackground`. -/
structure BgObsLoop (α : Type) where
  p : Int
  numbgObs : Int
  bgObs : List α

/-- One iteration of `for (int m=0; m < bgIn.size(); m+=11)` in `adjustBackground`. -/
def adjustBackgroundRecord (env : Env α) (d : VarDriverXYZ α) (st : BgObsLoop α)
    (m : Int) : BgObsLoop α :=
  let bgX := readAt d.bgIn m
  let bgY := readAt d.bgIn (m + 1)
  let bgZ := env.libm.exp (readAt d.bgIn (m + 2))
  let bgTime := readAt d.bgIn (m + 3)
  if bgX < d.imin ∨ bgX > d.imax ∨ bgY < d.jmin ∨ bgY > d.jmax ∨
      bgZ < d.kmin ∨ bgZ > d.kmax then
    { st with numbgObs := st.numbgObs - 7 }
  else
    (List.range d.numVars.toNat).foldl (fun st (n : Nat) =>
      let o0 := setAt st.bgObs st.p (readAt d.bgIn (m + 4 + (n : Int)))
      let o1 := setAt o0 (st.p + 1) 1
      let o2 := setAt o1 (st.p + 2) bgX
      let o3 := setAt o2 (st.p + 3) bgY
      let o4 := setAt o3 (st.p + 4) bgZ
      let o5 := setAt o4 (st.p + 5) (-1)
      let o6 := setAt o5 (st.p + 6) bgTime
      let o7 := setAt o6 (st.p + 7 + (n : Int)) 1
      { st with bgObs := o7, p := st.p + 14 }) st

/-- The values `0, 11, 22, ...` below `size` of the loop variable `m`. -/
def recordOffsets (size : Nat) : List Int :=
  (List.range ((size + 10) / 11)).map (fun (k : Nat) => 11 * (k : Int))

/-- The method `adjustBackground`. The cost function of the background pass is kept in
`bgCostXYZ` (with the calls made on it) although the source deletes it before
returning. -/
def adjustBackground (env : Env α) (d : VarDriverXYZ α) (bStateSize : Int) :
    VarDriverXYZ α :=
  let hfilter := env.qt.toFloat (d.configHash "xfilter")
  let ares := hfilter * d.iincr
  let bgres := env.qt.toFloat (d.configHash "backgroundroi")
  let bgfilter := env.qt.setNum (bgres / d.iincr)
  let config1 : ConfigHash :=
    if ares < bgres then (d.configHash.insert "xfilter" bgfilter).insert "yfilter" bgfilter
    else d.configHash
  let numbgObs : Int := (d.bgIn.length : Int) * 7 / 11
  let bgObs : List α := List.replicate (numbgObs * 14).toNat 0
  let st := (recordOffsets d.bgIn.length).foldl (adjustBackgroundRecord env d)
    ⟨0, numbgObs, bgObs⟩
  let cost : CostFunctionXYZ α :=
    ⟨st.numbgObs, bStateSize, config1, d.bgU.getD [], st.bgObs, [CostCall.initializeCost]⟩
  let afilter := env.qt.setNum hfilter
  let config2 : ConfigHash :=
    if ares < bgres then (config1.insert "xfilter" afilter).insert "yfilter" afilter
    else config1
  { d with
    configHash := config2
    bgU := some (env.costUpdateBG cost)
    bgObs := none
    bgCostXYZ := some { cost with calls := [CostCall.finalize, CostCall.updateBG,
      CostCall.minimize, CostCall.initState, CostCall.initializeCost] } }

/-! ## `preProcessMetObs` -/

/-- The setter `setWeight(w, i)`. -/
def Observation.setWeight (o : Observation α) (w : α) (i : Nat) : Observation α :=
  { o with weight := fun j => if j = i then w else o.weight j }

/-- The setter `setOb(v)`. -/
def Observation.setOb (o : Observation α) (v : α) : Observation α := { o with ob := v }

/-- The setter `setError(e)`, which stores the inverse error. -/
def Observation.setError (o : Observation α) (e : α) : Observation α :=
  { o with inverseError := 1 / e }

/-- The setter `setType(t)`. -/
def Observation.setType (o : Observation α) (t : Int) : Observation α := { o with type := t }

/-- The block `setWeight(1., i); setOb(v); setError(e); push_back(varOb);
setWeight(0., i);` that emits one single-variable observation. -/
def pushSingle (s : Observation α × List (Observation α)) (i : Nat) (v e : α) :
    Observation α × List (Observation α) :=
  let varOb := ((s.1.setWeight 1 i).setOb v).setError e
  (varOb.setWeight 0 i, s.2 ++ [varOb])

/-- The cases `MetObs::dropsonde` and `MetObs::flightlevel`, which differ only in the
error `wError` given to the vertical momentum. -/
def sondeObs (env : Env α) (metOb : MetObs α) (Um Vm rhoBar qBar tBar wError : α)
    (s : Observation α × List (Observation α)) : Observation α × List (Observation α) :=
  let u := metOb.cartesianUwind
  let v := metOb.cartesianVwind
  let w := metOb.verticalVelocity
  let rho := metOb.moistDensity
  let rhoa := metOb.airDensity
  let qv := metOb.qv
  let tempk := metOb.temperature
  let s := if u ≠ -999 ∧ rho ≠ -999 then
      pushSingle (pushSingle s 0 (rho * (u - Um)) 1) 1 (rho * (v - Vm)) 1
    else s
  let s := if w ≠ -999 ∧ rho ≠ -999 then pushSingle s 2 (rho * w) wError else s
  let s := if tempk ≠ -999 then pushSingle s 3 (tempk - tBar) 1 else s
  let s := if qv ≠ -999 then pushSingle s 4 (env.bhypTransform qv - qBar) (1 / 2) else s
  let s := if rhoa ≠ -999 then pushSingle s 5 ((rhoa - rhoBar) * 100) 1 else s
  s

/-- The cases `MetObs::qscat`, `MetObs::ascat` and `MetObs::AMV`, which differ only in
the error `err` of the two wind components. -/
def scatObs (metOb : MetObs α) (Um Vm err : α)
    (s : Observation α × List (Observation α)) : Observation α × List (Observation α) :=
  let u := metOb.cartesianUwind
  let v := metOb.cartesianVwind
  if u ≠ -999 then pushSingle (pushSingle s 0 (u - Um) err) 1 (v - Vm) err else s

/-- The block that pushes a Doppler observation with weights `uWgt, vWgt, wWgt` and
resets the three weights. -/
def pushDoppler (s : Observation α × List (Observation α)) (uWgt vWgt wWgt DopplerError
    Vdopp : α) : Observation α × List (Observation α) :=
  let varOb := ((s.1.setWeight uWgt 0).setWeight vWgt 1).setWeight wWgt 2
  let DopplerError := if DopplerError < 1 then 1 else DopplerError
  let varOb := (varOb.setError DopplerError).setOb Vdopp
  (((varOb.setWeight 0 0).setWeight 0 1).setWeight 0 2, s.2 ++ [varOb])

/-- The block of the case `MetObs::lidar` that pushes the Doppler observation when
`DopplerError` is not a finite number: the test `DopplerError < 1.0` is then false, the
value is not clamped, and the observation holds the inverse `inverseError` of it. -/
def pushDopplerUnclamped (s : Observation α × List (Observation α)) (uWgt vWgt wWgt
    inverseError Vdopp : α) : Observation α × List (Observation α) :=
  let varOb := ((s.1.setWeight uWgt 0).setWeight vWgt 1).setWeight wWgt 2
  let varOb : Observation α := { varOb with inverseError := inverseError }
  let varOb := varOb.setOb Vdopp
  (((varOb.setWeight 0 0).setWeight 0 1).setWeight 0 2, s.2 ++ [varOb])

/-- The case `MetObs::lidar`. The error is `spectrumWidth + log(50/db)`, clamped below
at 1 by `if (DopplerError < 1.0) DopplerError = 1.0;`. For `db < 0` the logarithm of the
negative quotient is a NaN, the test is false and the NaN is stored; for `db = 0` the
quotient and its logarithm are infinite, the test is false and the inverse of the error
is 0. -/
def lidarObs (env : Env α) (metOb : MetObs α) (Um Vm : α)
    (s : Observation α × List (Observation α)) : Observation α × List (Observation α) :=
  let m := env.libm
  let az := metOb.azimuth * m.Pi / 180
  let el := metOb.elevation * m.Pi / 180
  let uWgt := m.sin az * m.cos el
  let vWgt := m.cos az * m.cos el
  let wWgt := m.sin el
  let db := metOb.reflectivity
  let vr := metOb.radialVelocity
  let w_term : α := 0
  let Vdopp := vr - w_term * m.sin el - Um * m.sin az * m.cos el - Vm * m.cos az * m.cos el
  if db < 0 then pushDopplerUnclamped s uWgt vWgt wWgt env.nanReal Vdopp
  else if db = 0 then pushDopplerUnclamped s uWgt vWgt wWgt 0 Vdopp
  else
    let DopplerError := metOb.spectrumWidth + m.log (50 / db)
    pushDoppler s uWgt vWgt wWgt DopplerError Vdopp

/-- The blend of a rain value and a snow (ice) value by reflectivity: the snow value is
replaced by `(rain*WEIGHTR + snow*WEIGHTS)/(WEIGHTR + WEIGHTS)` for `20 < Z <= 30`
and by the rain value for `Z > 30`. -/
def blendByReflectivity (Z rain snow : α) : α :=
  if Z > 20 ∧ Z ≤ 30 then
    let WEIGHTR := (Z - 20) / 10
    let WEIGHTS := 1 - WEIGHTR
    (rain * WEIGHTR + snow * WEIGHTS) / (WEIGHTR + WEIGHTS)
  else if Z > 30 then rain
  else snow

/-- The blend of a rain value and an ice value by height across the melting layer
`hlow = 4800 .. hhi = 5800`. -/
def blendByHeight (H rain ice : α) : α :=
  let zeroC : α := 4800
  let hlow := zeroC
  let hhi := hlow + 1000
  let r := rain * (hhi - H) / 1000 + ice * (H - hlow) / 1000
  let r := if H < hlow then rain else r
  let r := if H > hhi then ice else r
  r

/-- The fall speed `w_term` of the case `MetObs::radar`. -/
def fallSpeed (env : Env α) (Z H : α) : α :=
  let m := env.libm
  let ZZ := m.pow 10 (Z * (1 / 10))
  let rho := env.getReferenceVariable RefVar.rhoref H
  let rhosfc := env.getReferenceVariable RefVar.rhoref 0
  let DCOR := m.pow (rhosfc / rho) (45 / 100)
  let VTS := -DCOR * (817 / 1000 * m.pow ZZ (63 / 1000))
  let VTR := -DCOR * (26 / 10 * m.pow ZZ (107 / 1000))
  let VTS := blendByReflectivity Z VTR VTS
  blendByHeight H VTR VTS

/-- The value `qr` gridded from a radar observation. -/
def griddedReflectivity (env : Env α) (gridref : String) (Z H rhoBar : α) : α :=
  let m := env.libm
  let ZZ := m.pow 10 (Z * (1 / 10))
  if gridref = "qr" then
    let rainmass := m.pow (ZZ / 14630) (6905 / 10000)
    let icemass := m.pow (ZZ / 670) (5587 / 10000)
    let icemass := blendByReflectivity Z rainmass icemass
    let precipmass := blendByHeight H rainmass icemass
    env.bhypTransform (precipmass / rhoBar)
  else if gridref = "dbz" then env.bhypTransform (Z + 35)
  else 0

/-- The loop nest "Do a Exponential & power weighted interpolation of the
reflectivity/qr in a grid box" of the case `MetObs::radar`. -/
def gridReflectivity (env : Env α) (d : VarDriverXYZ α) (ROIsquare2 RSquare ZZ qr
    obX obY obZ : α) (b : BgBuf α) : BgBuf α :=
  (cellRange d.kdim).foldl (fun b zi =>
    muValues.foldl (fun b zmu =>
      let zPos := mishPos env.libm d.kmin d.kincr zi zmu
      if |zPos - obZ| > ROIsquare2 then b else
      (cellRange d.idim).foldl (fun b xi =>
        muValues.foldl (fun b xmu =>
          let xPos := mishPos env.libm d.imin d.iincr xi xmu
          if |xPos - obX| > ROIsquare2 then b else
          (cellRange d.jdim).foldl (fun b yi =>
            muValues.foldl (fun b ymu =>
              let yPos := mishPos env.libm d.jmin d.jincr yi ymu
              if |yPos - obY| > ROIsquare2 then b else
              let rSquare := (obX - xPos) * (obX - xPos) + (obY - yPos) * (obY - yPos)
                + (obZ - zPos) * (obZ - zPos)
              let bgI := mishIndex xi xmu
              let bgJ := mishIndex yi ymu
              let bgK := mishIndex zi zmu
              let bi := bIndex d bgI bgJ bgK
              if rSquare < RSquare then
                let weight := ZZ * env.libm.exp (-rSquare / RSquare)
                { bgU := addAt b.bgU (bi + 6) (weight * qr),
                  bgWeights := addAt b.bgWeights bi weight }
              else b) b) b) b) b) b) b

/-- The case `MetObs::radar`: the Doppler observation and the gridding of the
reflectivity. -/
def radarObs (env : Env α) (d : VarDriverXYZ α) (metOb : MetObs α)
    (Um Vm rhoBar ROIsquare2 RSquare obX obY obZ : α)
    (s : Observation α × List (Observation α)) (b : BgBuf α) :
    (Observation α × List (Observation α)) × BgBuf α :=
  let m := env.libm
  let az := metOb.azimuth * m.Pi / 180
  let el := metOb.elevation * m.Pi / 180
  let uWgt := m.sin az * m.cos el
  let vWgt := m.cos az * m.cos el
  let wWgt := m.sin el
  let Z := metOb.reflectivity
  let H := metOb.altitude
  let ZZ := m.pow 10 (Z * (1 / 10))
  let w_term := fallSpeed env Z H
  let Vdopp := metOb.radialVelocity - w_term * m.sin el - Um * m.sin az * m.cos el
    - Vm * m.cos az * m.cos el
  let DopplerError := metOb.spectrumWidth + |wWgt| * 2
  let s := pushDoppler s uWgt vWgt wWgt DopplerError Vdopp
  let gridref := d.configHash "gridreflectivity"
  let qr := griddedReflectivity env gridref Z H rhoBar
  (s, gridReflectivity env d ROIsquare2 RSquare ZZ qr obX obY obZ b)

/-- The tests "Make sure the ob is in the domain" and "Restrict the horizontal domain
if we are using the R0 BC" (with its vertical counterpart): `false` when one of the
three `continue` statements is taken. -/
def obInDomain (d : VarDriverXYZ α) (obX obY obZ : α) : Bool :=
  if obX < d.imin ∨ obX > d.imax ∨ obY < d.jmin ∨ obY > d.jmax ∨
      obZ < d.kmin ∨ obZ > d.kmax then false
  else if d.configHash "horizontalbc" = "R0" ∧
      (obX < d.imin + d.iincr ∨ obX > d.imax - d.iincr ∨
       obY < d.jmin + d.jincr ∨ obY > d.jmax - d.jincr) then false
  else if d.configHash "verticalbc" = "R0" ∧
      (obZ < d.kmin + d.kincr ∨ obZ > d.kmax - d.kincr) then false
  else true

/-- The members and arrays that the observation loop of `preProcessMetObs` changes. -/
structure ObLoop (α : Type) where
  obVector : List (Observation α)
  buf : BgBuf α
  cout : List Msg

/-- The Cartesian position `(obX, obY, obZ)` of a record relative to the frame
`frameVector[fi]`. -/
def obPosition (env : Env α) (d : VarDriverXYZ α) (fi : Int) (metOb : MetObs α) :
    α × α × α :=
  let referenceLon := env.qt.toFloat (d.configHash "reflon")
  let tc := env.tmForward referenceLon (frameAt d.frameVector fi).lat
    (frameAt d.frameVector fi).lon
  let met := env.tmForward referenceLon metOb.lat metOb.lon
  let obX := (met.1 - tc.1) / 1000
  let obY := (met.2 - tc.2) / 1000
  let heightm := metOb.altitude
  let obZ := heightm / 1000
  (obX, obY, obZ)

/-- One iteration of the loop "Process the metObs into Observations". -/
def processMetOb (env : Env α) (d : VarDriverXYZ α) (st : ObLoop α) (metOb : MetObs α) :
    ObLoop α :=
  let ROI := 5 / 4 * env.qt.toFloat (d.configHash "xincr")
  let RSquare := ROI * ROI
  let ROIsquare2 := ROI * env.libm.sqrt 2
  let obTime := metOb.time
  if obTime < startTime d.frameVector ∨ obTime > endTime d.frameVector then st else
  let fi := obTime - startTime d.frameVector
  if fi < 0 ∨ fi > (d.frameVector.length : Int) then
    { st with cout := Msg.obTimeProblem fi :: st.cout } else
  let Um := (frameAt d.frameVector fi).umean
  let Vm := (frameAt d.frameVector fi).vmean
  let pos := obPosition env d fi metOb
  let obX := pos.1
  let obY := pos.2.1
  let heightm := metOb.altitude
  let obZ := pos.2.2
  if ¬ obInDomain d obX obY obZ then st else
  let varOb : Observation α := { env.newObservation with
    cartesianX := obX, cartesianY := obY, altitude := obZ, time := (obTime : α) }
  let rhoBar := env.getReferenceVariable RefVar.rhoaref heightm
  let qBar := env.getReferenceVariable RefVar.qvbhypref heightm
  let tBar := env.getReferenceVariable RefVar.tempref heightm
  let varOb := (((((((varOb.setWeight 0 0).setWeight 0 1).setWeight 0 2).setWeight 0 3
    ).setWeight 0 4).setWeight 0 5).setWeight 0 6).setType (env.obTypeCode metOb.obType)
  let s := (varOb, st.obVector)
  match metOb.obType with
  | ObType.dropsonde =>
    { st with obVector := (sondeObs env metOb Um Vm rhoBar qBar tBar (3 / 2) s).2 }
  | ObType.flightlevel =>
    { st with obVector := (sondeObs env metOb Um Vm rhoBar qBar tBar (1 / 4) s).2 }
  | ObType.sfmr =>
    { st with obVector :=
        st.obVector ++ [((varOb.setWeight 1 0).setOb metOb.windSpeed).setError 10] }
  | ObType.qscat => { st with obVector := (scatObs metOb Um Vm (5 / 2) s).2 }
  | ObType.ascat => { st with obVector := (scatObs metOb Um Vm (5 / 2) s).2 }
  | ObType.AMV => { st with obVector := (scatObs metOb Um Vm 10 s).2 }
  | ObType.lidar => { st with obVector := (lidarObs env metOb Um Vm s).2 }
  | ObType.radar =>
    let r := radarObs env d metOb Um Vm rhoBar ROIsquare2 RSquare obX obY obZ s st.buf
    { st with obVector := r.1.2, buf := r.2 }
  | ObType.other => st

/-- One iteration of the loop over the data files; the integer is `processedFiles`. -/
def processFile (env : Env α) (d : VarDriverXYZ α) (st : ObLoop α × Int)
    (file : DataFile α) : ObLoop α × Int :=
  match file.kind with
  | DataKind.cen => st
  | DataKind.unknown => ({ st.1 with cout := Msg.unknownDataType :: st.1.cout }, st.2)
  | _ =>
    let r := file.metData.foldl (processMetOb env d) st.1
    ({ r with cout := Msg.numObservations r.obVector.length :: r.cout }, st.2 + 1)

/-- The inner loops over `zi, zmu` of "Finish reflectivity interpolation" for the mish
column `(bgI, bgJ)`: the reflectivity is normalised by its weight and `maxrefHeight`
(the second component, initially `-1`) is the height of the last positive level. -/
def columnReflectivity (env : Env α) (d : VarDriverXYZ α) (bgI bgJ : Int) (b : BgBuf α) :
    BgBuf α × α :=
  (cellRange d.kdim).foldl (fun c zi =>
    muValues.foldl (fun c zmu =>
      let zPos := mishPos env.libm d.kmin d.kincr zi zmu
      let bgK := mishIndex zi zmu
      let bi := bIndex d bgI bgJ bgK
      let bgU := if readAt c.1.bgWeights bi ≠ 0 then
          divAt c.1.bgU (bi + 6) (readAt c.1.bgWeights bi)
        else c.1.bgU
      let maxrefHeight := if readAt bgU (bi + 6) > 0 then zPos else c.2
      ({ c.1 with bgU := bgU }, maxrefHeight)) c) (b, -1)

/-- The observation `varOb` that "Finish reflectivity interpolation" prepares: zero
vertical momentum at the reference time, with unit error. -/
def pseudoWOb (env : Env α) (d : VarDriverXYZ α) : Observation α :=
  let varOb : Observation α :=
    { env.newObservation with time := env.qt.toFloat (d.configHash "reftime") }
  let varOb := (((varOb.setWeight 0 0).setWeight 0 1).setWeight 1 2).setWeight 0 3
  let varOb := ((varOb.setWeight 0 4).setWeight 0 5).setWeight 0 6
  (varOb.setError 1).setOb 0

/-- The loop nest "Finish reflectivity interpolation" with its pseudo W
observations. -/
def finishReflectivity (env : Env α) (d : VarDriverXYZ α) (st : ObLoop α) : ObLoop α :=
  (cellRange d.idim).foldl (fun st xi =>
    muValues.foldl (fun st xmu =>
      let xPos := mishPos env.libm d.imin d.iincr xi xmu
      (cellRange d.jdim).foldl (fun st yi =>
        muValues.foldl (fun st ymu =>
          let yPos := mishPos env.libm d.jmin d.jincr yi ymu
          let c := columnReflectivity env d (mishIndex xi xmu) (mishIndex yi ymu) st.buf
          let maxrefHeight := c.2
          if maxrefHeight > 0 ∧ maxrefHeight < d.kmax ∧
              env.qt.toInt (d.configHash "use_dbz_pseudow") ≠ 0 then
            { st with buf := c.1, obVector := st.obVector ++
                [{ pseudoWOb env d with
                    cartesianX := xPos, cartesianY := yPos, altitude := maxrefHeight }] }
          else { st with buf := c.1 }) st) st) st) st

/-- One iteration of the loop "Load the observations into a vector": the fourteen
stores of observation number `m`. -/
def storeObservation (numVars : Int) (obs : List α) (m : Nat) (ob : Observation α) :
    List α :=
  let n : Int := (m : Int) * 14
  let obs := setAt obs n ob.ob
  let obs := setAt obs (n + 1) ob.inverseError
  let obs := setAt obs (n + 2) ob.cartesianX
  let obs := setAt obs (n + 3) ob.cartesianY
  let obs := setAt obs (n + 4) ob.altitude
  let obs := setAt obs (n + 5) (ob.type : α)
  let obs := setAt obs (n + 6) ob.time
  (List.range numVars.toNat).foldl (fun obs (var : Nat) =>
    setAt obs (n + 7 + (var : Int)) (ob.weight var)) obs

/-- The array `obs = new real[obVector.size()*14]` after the loop "Load the observations
into a vector". -/
def loadObsArray (numVars : Int) (obVector : List (Observation α)) : List α :=
  obVector.enum.foldl (fun obs mo => storeObservation numVars obs mo.1 mo.2)
    (List.replicate (obVector.length * 14) 0)

/-- The method `preProcessMetObs`. -/
def preProcessMetObs (env : Env α) (d : VarDriverXYZ α) : VarDriverXYZ α :=
  let r := env.dataFiles.foldl (processFile env d)
    (⟨d.obVector, ⟨d.bgU.getD [], d.bgWeights.getD []⟩, d.cout⟩, 0)
  let processedFiles := r.2
  let st := finishReflectivity env d r.1
  { d with
    obVector := st.obVector
    bgU := some st.buf.bgU
    bgWeights := some st.buf.bgWeights
    obs := some (loadObsArray d.numVars st.obVector)
    cout := (if processedFiles = 0 then Msg.nothingProcessed
      else Msg.finishedPreprocessing processedFiles) ::
      Msg.numObservations st.obVector.length :: st.cout }

/-! ## `loadMetObs` -/

/-- The observation that one line of `samurai_Observations.in` sets up. -/
def obsLineObservation (env : Env α) (numVars : Int) (l : ObsLine α) : Observation α :=
  (List.range numVars.toNat).foldl (fun o (var : Nat) => o.setWeight (l.wgt var) var)
    ({ env.newObservation with
        ob := l.ob, cartesianX := l.xPos, cartesianY := l.yPos, altitude := l.zPos,
        type := l.type, time := (l.time : α) }.setError (1 / l.error))

/-- The method `loadMetObs`, which returns `true`. -/
def loadMetObs (env : Env α) (d : VarDriverXYZ α) : Bool × VarDriverXYZ α :=
  let obVector := d.obVector ++ env.obstream.map (obsLineObservation env d.numVars)
  (true, { d with obVector := obVector, obs := some (loadObsArray d.numVars obVector) })

/-! ## `initialize`, `run` and `finalize` -/

/-- The block "Define the grid dimensions" of `initialize`. -/
def defineGrid (q : QtConv α) (d : VarDriverXYZ α) : VarDriverXYZ α :=
  let imin := q.toFloat (d.configHash "xmin")
  let imax := q.toFloat (d.configHash "xmax")
  let iincr := q.toFloat (d.configHash "xincr")
  let jmin := q.toFloat (d.configHash "ymin")
  let jmax := q.toFloat (d.configHash "ymax")
  let jincr := q.toFloat (d.configHash "yincr")
  let kmin := q.toFloat (d.configHash "zmin")
  let kmax := q.toFloat (d.configHash "zmax")
  let kincr := q.toFloat (d.configHash "zincr")
  { d with
    imin := imin, imax := imax, iincr := iincr
    idim := truncToInt ((imax - imin) / iincr) + 1
    jmin := jmin, jmax := jmax, jincr := jincr
    jdim := truncToInt ((jmax - jmin) / jincr) + 1
    kmin := kmin, kmax := kmax, kincr := kincr
    kdim := truncToInt ((kmax - kmin) / kincr) + 1 }

/-- The three tests "less than 4 gridpoints will cause a memory fault" of `initialize`:
the message of the first one that aborts, `none` when none does. -/
def stencilAbort (d : VarDriverXYZ α) : Option Msg :=
  if d.idim < 4 then some Msg.xDimTooSmall
  else if d.jdim < 4 then some Msg.yDimTooSmall
  else if d.kdim < 4 then some Msg.zDimTooSmall
  else none

/-- The block "Increase the internal size of the grid for the zero BC condition" of
`initialize`. -/
def increaseInternalGrid (d : VarDriverXYZ α) : VarDriverXYZ α :=
  let d := if d.configHash "horizontalbc" = "R0" then
      { d with
        imin := d.imin - d.iincr, imax := d.imax + d.iincr, idim := d.idim + 2
        jmin := d.jmin - d.jincr, jmax := d.jmax + d.jincr, jdim := d.jdim + 2 }
    else d
  if d.configHash "verticalbc" = "R0" then
    { d with kmin := d.kmin - d.kincr, kmax := d.kmax + d.kincr, kdim := d.kdim + 2 }
  else d

/-- The local `uStateSize = 8*(idim-1)*(jdim-1)*(kdim-1)*(numVars)` of `initialize`. -/
def uStateSize (d : VarDriverXYZ α) : Int :=
  8 * (d.idim - 1) * (d.jdim - 1) * (d.kdim - 1) * d.numVars

/-- The local `bStateSize = idim*jdim*kdim*numVars` of `initialize`. -/
def bStateSize (d : VarDriverXYZ α) : Int := d.idim * d.jdim * d.kdim * d.numVars

/-- The block "Load the BG into a empty vector" of `initialize`, after the two sizes
are printed. -/
def allocateBackground (d : VarDriverXYZ α) : VarDriverXYZ α :=
  { d with
    bgU := some (List.replicate (uStateSize d).toNat 0)
    bgWeights := some (List.replicate (uStateSize d).toNat 0)
    cout := Msg.stateSizes (uStateSize d) (bStateSize d) :: d.cout }

/-- The loop "Get the reference center" of `initialize`: the configuration with
`reflat`, `reflon` and `reftime` of the first frame whose time of day is `reftime`,
`none` when there is no such frame. -/
def findReference (q : QtConv α) (reftime : Option Int) (config : ConfigHash) :
    List (Frame α) → Option ConfigHash
  | [] => none
  | frame :: rest =>
    if reftime = some (frame.time % 86400) then
      some (((config.insert "reflat" (q.setNum frame.lat)).insert "reflon"
        (q.setNum frame.lon)).insert "reftime"
        (q.setNumUInt (frame.time / 86400 * 86400 + frame.time % 86400)))
    else findReference q reftime config rest

/-- The part of `initialize` from "Optionally load a set of background estimates" to
its end. -/
def initializeAnalysis (env : Env α) (d : VarDriverXYZ α) (bStateSize : Int) : Outcome α :=
  let loadBG := env.qt.toInt (d.configHash "load_background") ≠ 0
  let r : Option Int × VarDriverXYZ α :=
    if loadBG then loadBackgroundObs env d else (some 0, d)
  match r.1 with
  | none => Outcome.exited 1 r.2
  | some numbgObs =>
    let d := r.2
    let adjustBG := env.qt.toInt (d.configHash "adjust_background") ≠ 0
    let d := if adjustBG ∧ numbgObs ≠ 0 then adjustBackground env d bStateSize else d
    let preprocess := true
    let d := if preprocess then preProcessMetObs env d else (loadMetObs env d).2
    let d := { d with
      cout := Msg.numObservations d.obVector.length :: d.cout
      bgWeights := none }
    let cost : CostFunctionXYZ α :=
      ⟨d.obVector.length, bStateSize, d.configHash, d.bgU.getD [], d.obs.getD [],
        [CostCall.initializeCost]⟩
    Outcome.returned true { d with obCostXYZ := some cost }

/-- The part of `initialize` that follows the three stencil tests, up to "Get the
reference center". The loop that prints the reference profile has no effect on the
state and is left out. -/
def initializeState (env : Env α) (d : VarDriverXYZ α) : Outcome α :=
  let d := increaseInternalGrid d
  let bStateSize := bStateSize d
  let d := allocateBackground d
  if d.configHash "refstate" = "jordan" then
    let d := { d with jordanReference := true, frameVector := env.readFrameCenters }
    let reftime := env.qt.timeFromString (d.configHash "reftime")
    match findReference env.qt reftime d.configHash d.frameVector with
    | some config =>
      initializeAnalysis env
        { d with configHash := config, cout := Msg.refTimeFound :: d.cout } bStateSize
    | none => Outcome.returned false { d with cout := Msg.refTimeError :: d.cout }
  else Outcome.exited (-1) { d with cout := Msg.refStateNotDefined :: d.cout }

/-- The method `initialize` (the name is reserved in Lean). -/
def initializeDriver (env : Env α) (d : VarDriverXYZ α) : Outcome α :=
  match env.parseXMLconfig with
  | none => Outcome.returned false d
  | some config =>
    let d := defineGrid env.qt { d with configHash := config }
    match stencilAbort d with
    | some msg => Outcome.returned false { d with cout := msg :: d.cout }
    | none => initializeState env d

/-- The method `updateAnalysisParams`, which is empty. -/
def updateAnalysisParams (d : VarDriverXYZ α) : VarDriverXYZ α := d

/-- One iteration of the outer loop of `run`; `iter` is the counter after `iter++`. -/
def runIteration (env : Env α) (d : VarDriverXYZ α) (iter : Int) : VarDriverXYZ α :=
  let d := { d with cout := Msg.outerLoop iter :: d.cout }
  let d := match d.obCostXYZ with
    | some cost =>
      { d with
        obCostXYZ := some { cost with calls :=
          CostCall.updateBG :: CostCall.minimize :: CostCall.initState :: cost.calls }
        bgU := d.bgU.map (fun _ => env.costUpdateBG cost) }
    | none => d
  updateAnalysisParams d

/-- The method `run`. -/
def run (env : Env α) (d : VarDriverXYZ α) : Bool × VarDriverXYZ α :=
  (true, (List.range d.maxIter.toNat).foldl
    (fun d (i : Nat) => runIteration env d ((i : Int) + 1)) d)

/-- The method `finalize`. -/
def finalize (d : VarDriverXYZ α) : Bool × VarDriverXYZ α :=
  (true, { d with
    obCostXYZ := d.obCostXYZ.map (fun cost =>
      { cost with calls := CostCall.finalize :: cost.calls })
    obs := none
    bgU := none })

end Model

/-! ## Auxiliary definitions -/

section Auxiliary

variable {α : Type} [LinearOrderedField α] [FloorRing α]

/-- The driver state after the block "Define the grid dimensions" of `initialize`, for
the configuration `config` that `parseXMLconfig` produced. -/
def configuredGrid (env : Env α) (d : VarDriverXYZ α) (config : ConfigHash) :
    VarDriverXYZ α :=
  defineGrid env.qt { d with configHash := config }

/-- The driver state after the block "Increase the internal size of the grid for the
zero BC condition" of `initialize`. -/
def internalGrid (env : Env α) (d : VarDriverXYZ α) (config : ConfigHash) :
    VarDriverXYZ α :=
  increaseInternalGrid (configuredGrid env d config)

/-- The spatial condition of the data model for a position `(x, y, z)`: it lies within
the internal domain and, on every axis with the zero boundary condition `R0`, at least
one increment away from both ends of the internal domain. -/
def AssimilationDomain (d : VarDriverXYZ α) (x y z : α) : Prop :=
  (d.imin ≤ x ∧ x ≤ d.imax) ∧ (d.jmin ≤ y ∧ y ≤ d.jmax) ∧ (d.kmin ≤ z ∧ z ≤ d.kmax) ∧
  (d.configHash "horizontalbc" = "R0" →
    (d.imin + d.iincr ≤ x ∧ x ≤ d.imax - d.iincr) ∧
    (d.jmin + d.jincr ≤ y ∧ y ≤ d.jmax - d.jincr)) ∧
  (d.configHash "verticalbc" = "R0" → d.kmin + d.kincr ≤ z ∧ z ≤ d.kmax - d.kincr)

/-- The position `(obX, obY, obZ)` that the observation loop of `preProcessMetObs`
computes for a record, relative to the frame of its time. -/
def metObPosition (env : Env α) (d : VarDriverXYZ α) (metOb : MetObs α) : α × α × α :=
  obPosition env d (metOb.time - startTime d.frameVector) metOb

/-- The configuration after the loop "Get the reference center" of `initialize` (the
configuration `config` itself when no frame matches the reference time). -/
def referenceConfig (env : Env α) (config : ConfigHash) : ConfigHash :=
  (findReference env.qt (env.qt.timeFromString (config "reftime")) config
    env.readFrameCenters).getD config

/-- The driver state in which `initialize` reaches "Optionally load a set of background
estimates", for the configuration `config` that `parseXMLconfig` produced. -/
def referenceState (env : Env α) (d : VarDriverXYZ α) (config : ConfigHash) :
    VarDriverXYZ α :=
  { allocateBackground (internalGrid env d config) with
    jordanReference := true
    frameVector := env.readFrameCenters
    configHash := referenceConfig env config
    cout := Msg.refTimeFound :: (allocateBackground (internalGrid env d config)).cout }

/-- The grid members and `numVars` of two driver states agree. -/
def SameGrid (a b : VarDriverXYZ α) : Prop :=
  a.numVars = b.numVars ∧
  a.imin = b.imin ∧ a.imax = b.imax ∧ a.iincr = b.iincr ∧ a.idim = b.idim ∧
  a.jmin = b.jmin ∧ a.jmax = b.jmax ∧ a.jincr = b.jincr ∧ a.jdim = b.jdim ∧
  a.kmin = b.kmin ∧ a.kmax = b.kmax ∧ a.kincr = b.kincr ∧ a.kdim = b.kdim

/-- The state in which `initialize` calls `preProcessMetObs`, given the state `d` in
which it reaches "Optionally load a set of background estimates" and the value
`numbgObs` of the background load. -/
def analysisState (env : Env α) (d : VarDriverXYZ α) (numbgObs : Int) (bStateSize : Int) :
    VarDriverXYZ α :=
  if env.qt.toInt (d.configHash "adjust_background") ≠ 0 ∧ numbgObs ≠ 0 then
    adjustBackground env d bStateSize
  else d

/-- The state in which `initialize` returns `true`, given the state `p` in which it
calls `preProcessMetObs`. -/
def returnedState (env : Env α) (p : VarDriverXYZ α) (bStateSize : Int) :
    VarDriverXYZ α :=
  { preProcessMetObs env p with
    cout := Msg.numObservations (preProcessMetObs env p).obVector.length ::
      (preProcessMetObs env p).cout
    bgWeights := none
    obCostXYZ := some ⟨(preProcessMetObs env p).obVector.length, bStateSize,
      (preProcessMetObs env p).configHash, (preProcessMetObs env p).bgU.getD [],
      (preProcessMetObs env p).obs.getD [], [CostCall.initializeCost]⟩ }

/-- The fourteen fields of an observation tuple in the order of the data model:
value, inverse error, x, y, z, type tag, time and the seven projection weights. -/
def obTuple (ob : Observation α) : List α :=
  [ob.ob, ob.inverseError, ob.cartesianX, ob.cartesianY, ob.altitude, (ob.type : α),
   ob.time, ob.weight 0, ob.weight 1, ob.weight 2, ob.weight 3, ob.weight 4, ob.weight 5,
   ob.weight 6]

/-- An array that is zero outside the slots of the seventh variable. -/
def ZeroOutsideSlot6 (a : List α) : Prop := ∀ i : Nat, i % 7 ≠ 6 → a.getD i 0 = 0

/-- The loop state after the loop over the data files of `preProcessMetObs`. -/
def filesState (env : Env α) (d : VarDriverXYZ α) : ObLoop α :=
  (env.dataFiles.foldl (processFile env d)
    (⟨d.obVector, ⟨d.bgU.getD [], d.bgWeights.getD []⟩, d.cout⟩, 0)).1

/-! ### The transform pairs of `CostFunction3D` -/

/-- The boundary-condition tags of `CostFunction3D.h`. -/
inductive BoundaryConditionTypes where
  | R0 | R1T0 | R1T1 | R1T2 | R1T10 | R2T10 | R2T20 | R3 | PERIODIC
  deriving DecidableEq, Repr

/-- The members `iBCL, iBCR, jBCL, jBCR, kBCL, kBCR` of `CostFunction3D`: the tag of each
edge of each axis for each of the seven variables. -/
structure BoundaryTags where
  iBCL : Fin 7 → BoundaryConditionTypes
  iBCR : Fin 7 → BoundaryConditionTypes
  jBCL : Fin 7 → BoundaryConditionTypes
  jBCR : Fin 7 → BoundaryConditionTypes
  kBCL : Fin 7 → BoundaryConditionTypes
  kBCR : Fin 7 → BoundaryConditionTypes

/-- The inner product of two state vectors. -/
def innerProduct {n : Nat} (a b : Fin n → α) : α := ∑ i, a i * b i

/-- Modelled from the spec: `CostFunction3D.cpp` is not part of the sources. The
operator `synthesize` "evaluates a weighted sum of basis functions (using the cached
table) at each target point": `basis s t` is the cached value of the basis function of
source index `s` at target point `t`. -/
def synthesize {n m : Nat} (basis : Fin n → Fin m → α) (x : Fin n → α) : Fin m → α :=
  fun t => ∑ s, basis s t * x s

/-- Modelled from the spec: `CostFunction3D.cpp` is not part of the sources. The
operator `synthesizeTranspose` "scatters" a vector defined at the target points "back
into coefficient space using the same basis weights": a loop over the target points
that accumulates into every source index. -/
def synthesizeTranspose {n m : Nat} (basis : Fin n → Fin m → α) (y : Fin m → α) :
    Fin n → α :=
  (List.finRange m).foldl (fun acc t => fun s => acc s + basis s t * y t) (fun _ => 0)

/-- Modelled from the spec: the declared `SBtranspose(Bstate, Ustate)` is the synthesis
of the nodal state onto the quadrature points, with the basis table of the
boundary-condition tags `bc`. -/
def SBtranspose {nB nU : Nat} (lookup : BoundaryTags → Fin nB → Fin nU → α)
    (bc : BoundaryTags) (Bstate : Fin nB → α) : Fin nU → α :=
  synthesize (lookup bc) Bstate

/-- Modelled from the spec: the declared `SBtransform(Ustate, Bstate)` is the adjoint
scatter of a quadrature-space vector onto the nodes, with the same basis table. -/
def SBtransform {nB nU : Nat} (lookup : BoundaryTags → Fin nB → Fin nU → α)
    (bc : BoundaryTags) (Ustate : Fin nU → α) : Fin nB → α :=
  synthesizeTranspose (lookup bc) Ustate

/-- Modelled from the spec: the declared `SCtransform(Astate, Cstate)` is the synthesis
of the coefficient state, with the table of the boundary-condition tags `bc`. -/
def SCtransform {nA nC : Nat} (lookup : BoundaryTags → Fin nA → Fin nC → α)
    (bc : BoundaryTags) (Astate : Fin nA → α) : Fin nC → α :=
  synthesize (lookup bc) Astate

/-- Modelled from the spec: the declared `SCtranspose(Cstate, Astate)` is the adjoint
scatter back into coefficient space, with the same table. -/
def SCtranspose {nA nC : Nat} (lookup : BoundaryTags → Fin nA → Fin nC → α)
    (bc : BoundaryTags) (Cstate : Fin nC → α) : Fin nA → α :=
  synthesizeTranspose (lookup bc) Cstate

/-- The value that the observation loop of `preProcessMetObs` gives to the
single-variable tuple of variable index `i` (0 u momentum, 1 v momentum, 2 w momentum,
3 temperature, 4 moisture, 5 density) of a record: a perturbation from the frame motion
and the reference state, the wind of a scatterometer or AMV record not being multiplied
by the density. -/
def singleObValue (env : Env α) (d : VarDriverXYZ α) (metOb : MetObs α) (i : Nat) : α :=
  let fi := metOb.time - startTime d.frameVector
  let Um := (frameAt d.frameVector fi).umean
  let Vm := (frameAt d.frameVector fi).vmean
  let heightm := metOb.altitude
  let scat := metOb.obType = ObType.qscat ∨ metOb.obType = ObType.ascat ∨
    metOb.obType = ObType.AMV
  match i with
  | 0 => if scat then metOb.cartesianUwind - Um
    else metOb.moistDensity * (metOb.cartesianUwind - Um)
  | 1 => if scat then metOb.cartesianVwind - Vm
    else metOb.moistDensity * (metOb.cartesianVwind - Vm)
  | 2 => metOb.moistDensity * metOb.verticalVelocity
  | 3 => metOb.temperature - env.getReferenceVariable RefVar.tempref heightm
  | 4 => env.bhypTransform metOb.qv - env.getReferenceVariable RefVar.qvbhypref heightm
  | _ => (metOb.airDensity - env.getReferenceVariable RefVar.rhoaref heightm) * 100

/-- A tuple with the single weight 1 at a variable index below 6, whose value is the
one that `V` gives for that index. -/
def SingleWeight (V : Nat → α) (ob : Observation α) : Prop :=
  ∃ i, i < 6 ∧ ob.weight i = 1 ∧ (∀ j, j < 7 → j ≠ i → ob.weight j = 0) ∧ ob.ob = V i

/-- The state of a `switch` case: all seven weights of `varOb` are zero and the list is
`base` followed by single-weight tuples. -/
def SingleWeightState (V : Nat → α) (base : List (Observation α))
    (s : Observation α × List (Observation α)) : Prop :=
  (∀ j, j < 7 → s.1.weight j = 0) ∧
  ∃ l, s.2 = base ++ l ∧ ∀ ob ∈ l, SingleWeight V ob

/-- The density correction `DCOR` of the case `MetObs::radar` at the height `H`. -/
def densityCorrection (env : Env α) (H : α) : α :=
  env.libm.pow (env.getReferenceVariable RefVar.rhoref 0 /
    env.getReferenceVariable RefVar.rhoref H) (45 / 100)

/-- The rain fall speed `VTR` of the case `MetObs::radar` (Joss and Waldvogel). -/
def rainFallSpeed (env : Env α) (Z H : α) : α :=
  -densityCorrection env H * (26 / 10 * env.libm.pow (env.libm.pow 10 (Z * (1 / 10)))
    (107 / 1000))

/-- The snow fall speed, the initial `VTS` of the case `MetObs::radar` (Atlas et al.). -/
def snowFallSpeed (env : Env α) (Z H : α) : α :=
  -densityCorrection env H * (817 / 1000 * env.libm.pow (env.libm.pow 10 (Z * (1 / 10)))
    (63 / 1000))

/-- The rain mass of the reflectivity gridding (Gamache et al.). -/
def rainMass (env : Env α) (Z : α) : α :=
  env.libm.pow (env.libm.pow 10 (Z * (1 / 10)) / 14630) (6905 / 10000)

/-- The ice mass of the reflectivity gridding before the blend by reflectivity. -/
def iceMass (env : Env α) (Z : α) : α :=
  env.libm.pow (env.libm.pow 10 (Z * (1 / 10)) / 670) (5587 / 10000)

/-- The calls that `n` iterations of the outer loop of `run` make on the cost function,
latest first. -/
def iterationCalls : Nat → List CostCall
  | 0 => []
  | n + 1 => CostCall.updateBG :: CostCall.minimize :: CostCall.initState ::
      iterationCalls n

/-- The lines that `n` iterations of the outer loop of `run` print, latest first. -/
def iterationLines : Nat → List Msg
  | 0 => []
  | n + 1 => Msg.outerLoop ((n : Int) + 1) :: iterationLines n

/-- The state after the first `n` iterations of the outer loop of `run`. -/
def runLoop (env : Env α) (d : VarDriverXYZ α) (n : Nat) : VarDriverXYZ α :=
  (List.range n).foldl (fun d (i : Nat) => runIteration env d ((i : Int) + 1)) d

/-- The body of the loop `for (unsigned int n = 0; n < numVars; n++)` of
`adjustBackground`, for the record at the offset `m`. -/
def writeBgTuple (env : Env α) (d : VarDriverXYZ α) (m : Int) (st : BgObsLoop α)
    (n : Nat) : BgObsLoop α :=
  let o0 := setAt st.bgObs st.p (readAt d.bgIn (m + 4 + (n : Int)))
  let o1 := setAt o0 (st.p + 1) 1
  let o2 := setAt o1 (st.p + 2) (readAt d.bgIn m)
  let o3 := setAt o2 (st.p + 3) (readAt d.bgIn (m + 1))
  let o4 := setAt o3 (st.p + 4) (env.libm.exp (readAt d.bgIn (m + 2)))
  let o5 := setAt o4 (st.p + 5) (-1)
  let o6 := setAt o5 (st.p + 6) (readAt d.bgIn (m + 3))
  let o7 := setAt o6 (st.p + 7 + (n : Int)) 1
  { st with bgObs := o7, p := st.p + 14 }

/-- The domain test of `adjustBackground` on the record at the offset `m` of `bgIn`:
`true` when the record is kept. -/
def bgRecordInDomain (env : Env α) (d : VarDriverXYZ α) (m : Int) : Bool :=
  decide (¬ (readAt d.bgIn m < d.imin ∨ readAt d.bgIn m > d.imax ∨
    readAt d.bgIn (m + 1) < d.jmin ∨ readAt d.bgIn (m + 1) > d.jmax ∨
    env.libm.exp (readAt d.bgIn (m + 2)) < d.kmin ∨
    env.libm.exp (readAt d.bgIn (m + 2)) > d.kmax))

/-- The tuple `(value, inverseError, x, y, z, typeTag, time, weight[7])` of the state
variable `n` of the background record at the offset `m` of `bgIn`. -/
def bgTuple (env : Env α) (d : VarDriverXYZ α) (m : Int) (n : Nat) : List α :=
  [readAt d.bgIn (m + 4 + (n : Int)), 1, readAt d.bgIn m, readAt d.bgIn (m + 1),
    env.libm.exp (readAt d.bgIn (m + 2)), -1, readAt d.bgIn (m + 3)] ++
  (List.range 7).map (fun v => if v = n then 1 else 0)

/-- The offsets of the background records that pass the domain test of
`adjustBackground`, in the order of the loop. -/
def bgRecordsInDomain (env : Env α) (d : VarDriverXYZ α) : List Int :=
  (recordOffsets d.bgIn.length).filter (bgRecordInDomain env d)

/-- The error `DopplerError` that the cases `MetObs::radar` and `MetObs::lidar` compute
for a record before they clamp it at 1: the spectrum width plus `fabs(wWgt)*2` for a
radar, plus `log(50/db)` for a lidar. -/
def dopplerError (env : Env α) (metOb : MetObs α) : α :=
  match metOb.obType with
  | ObType.radar =>
    metOb.spectrumWidth + |env.libm.sin (metOb.elevation * env.libm.Pi / 180)| * 2
  | ObType.lidar => metOb.spectrumWidth + env.libm.log (50 / metOb.reflectivity)
  | _ => 0

/-- The locals `p = 0`, `numbgObs = bgIn.size()*7/11` and the zeroed array `bgObs` with
which the record loop of `adjustBackground` starts. -/
def adjustBackgroundStart (d : VarDriverXYZ α) : BgObsLoop α :=
  ⟨0, (d.bgIn.length : Int) * 7 / 11,
    List.replicate ((d.bgIn.length : Int) * 7 / 11 * 14).toNat 0⟩

/-- The locals of the record loop of `adjustBackground` after its first `k`
iterations. -/
def adjustBackgroundPrefix (env : Env α) (d : VarDriverXYZ α) (k : Nat) : BgObsLoop α :=
  ((recordOffsets d.bgIn.length).take k).foldl (adjustBackgroundRecord env d)
    (adjustBackgroundStart d)

/-- The loop nest of `gridReflectivity` with the three tests
`if (fabs(pos-ob) > ROIsquare2) continue;` removed: every mish point goes to the radius
test `rSquare < RSquare`. -/
def gridReflectivityNoPretest (env : Env α) (d : VarDriverXYZ α) (RSquare ZZ qr
    obX obY obZ : α) (b : BgBuf α) : BgBuf α :=
  (cellRange d.kdim).foldl (fun b zi =>
    muValues.foldl (fun b zmu =>
      let zPos := mishPos env.libm d.kmin d.kincr zi zmu
      (cellRange d.idim).foldl (fun b xi =>
        muValues.foldl (fun b xmu =>
          let xPos := mishPos env.libm d.imin d.iincr xi xmu
          (cellRange d.jdim).foldl (fun b yi =>
            muValues.foldl (fun b ymu =>
              let yPos := mishPos env.libm d.jmin d.jincr yi ymu
              let rSquare := (obX - xPos) * (obX - xPos) + (obY - yPos) * (obY - yPos)
                + (obZ - zPos) * (obZ - zPos)
              let bgI := mishIndex xi xmu
              let bgJ := mishIndex yi ymu
              let bgK := mishIndex zi zmu
              let bi := bIndex d bgI bgJ bgK
              if rSquare < RSquare then
                let weight := ZZ * env.libm.exp (-rSquare / RSquare)
                { bgU := addAt b.bgU (bi + 6) (weight * qr),
                  bgWeights := addAt b.bgWeights bi weight }
              else b) b) b) b) b) b) b

/-- The loop nest of `interpolateColumn` with the two tests
`if (fabs(pos-bg) > ROIsquare2) continue;` removed: every mish point goes to the radius
test `rSquare < RSquare`. -/
def interpolateColumnNoPretest (env : Env α) (d : VarDriverXYZ α) (wl : Int)
    (RSquare bgX bgY : α) (c : BgColumn α) (b : BgBuf α) : BgBuf α :=
  (cellRange d.kdim).foldl (fun b zi =>
    muValues.foldl (fun b zmu =>
      let zPos := mishPos env.libm d.kmin d.kincr zi zmu
      let logzPos := env.libm.log zPos
      (cellRange d.idim).foldl (fun b xi =>
        muValues.foldl (fun b xmu =>
          let xPos := mishPos env.libm d.imin d.iincr xi xmu
          (cellRange d.jdim).foldl (fun b yi =>
            muValues.foldl (fun b ymu =>
              let yPos := mishPos env.libm d.jmin d.jincr yi ymu
              let rSquare := (bgX - xPos) * (bgX - xPos) + (bgY - yPos) * (bgY - yPos)
              let bgI := mishIndex xi xmu
              let bgJ := mishIndex yi ymu
              let bgK := mishIndex zi zmu
              let bi := bIndex d bgI bgJ bgK
              if rSquare < RSquare then
                let weight := env.libm.exp (-rSquare / RSquare)
                if logzPos > c.logheights.headD 0 then
                  let ev := fun (data : List α) => env.splineEval c.logheights wl data logzPos
                  let u0 := addAt b.bgU bi (weight * ev c.uBG)
                  let u1 := addAt u0 (bi + 1) (weight * ev c.vBG)
                  let u2 := addAt u1 (bi + 2) (weight * ev c.wBG)
                  let u3 := addAt u2 (bi + 3) (weight * ev c.tBG)
                  let u4 := addAt u3 (bi + 4) (weight * ev c.qBG)
                  let u5 := addAt u4 (bi + 5) (weight * ev c.rBG)
                  { bgU := u5, bgWeights := addAt b.bgWeights bi weight }
                else
                  let u0 := addAt b.bgU bi (weight * c.uBG.headD 0)
                  let u1 := addAt u0 (bi + 1) (weight * c.vBG.headD 0)
                  let u2 := addAt u1 (bi + 2) (weight * c.wBG.headD 0)
                  let u3 := addAt u2 (bi + 3) (weight * c.tBG.headD 0)
                  let u4 := addAt u3 (bi + 4) (weight * c.qBG.headD 0)
                  let u5 := addAt u4 (bi + 5) (weight * c.rBG.headD 0)
                  { bgU := u5, bgWeights := addAt b.bgWeights bi weight }
              else b) b) b) b) b) b) b

/-- The body of the loops over `zi, zmu` of "Finish reflectivity interpolation" for the
mish column `(bgI, bgJ)`: the pair is the arrays and `maxrefHeight`. -/
def columnLevel (env : Env α) (d : VarDriverXYZ α) (bgI bgJ : Int) (c : BgBuf α × α)
    (zi : Nat) (zmu : Int) : BgBuf α × α :=
  let zPos := mishPos env.libm d.kmin d.kincr zi zmu
  let bgK := mishIndex zi zmu
  let bi := bIndex d bgI bgJ bgK
  let bgU := if readAt c.1.bgWeights bi ≠ 0 then
      divAt c.1.bgU (bi + 6) (readAt c.1.bgWeights bi)
    else c.1.bgU
  let maxrefHeight := if readAt bgU (bi + 6) > 0 then zPos else c.2
  ({ c.1 with bgU := bgU }, maxrefHeight)

/-- The body of the loops over `xi, xmu, yi, ymu` of "Finish reflectivity
interpolation": the column is normalised and its pseudo observation is appended when
`maxrefHeight` passes the test. -/
def finishColumn (env : Env α) (d : VarDriverXYZ α) (st : ObLoop α) (xi : Nat) (xmu : Int)
    (yi : Nat) (ymu : Int) : ObLoop α :=
  let xPos := mishPos env.libm d.imin d.iincr xi xmu
  let yPos := mishPos env.libm d.jmin d.jincr yi ymu
  let c := columnReflectivity env d (mishIndex xi xmu) (mishIndex yi ymu) st.buf
  let maxrefHeight := c.2
  if maxrefHeight > 0 ∧ maxrefHeight < d.kmax ∧
      env.qt.toInt (d.configHash "use_dbz_pseudow") ≠ 0 then
    { st with buf := c.1, obVector := st.obVector ++
        [{ pseudoWOb env d with
            cartesianX := xPos, cartesianY := yPos, altitude := maxrefHeight }] }
  else { st with buf := c.1 }

/-- The reflectivity `bgU[bIndex + 6]` of a mish point after its division by the weight
`bgWeights[bIndex]`, when that is not zero. -/
def normalisedReflectivity (d : VarDriverXYZ α) (b : BgBuf α) (bgI bgJ bgK : Int) : α :=
  if readAt b.bgWeights (bIndex d bgI bgJ bgK) ≠ 0 then
    readAt b.bgU (bIndex d bgI bgJ bgK + 6) / readAt b.bgWeights (bIndex d bgI bgJ bgK)
  else readAt b.bgU (bIndex d bgI bgJ bgK + 6)

/-- The value of `zmu` at the level number `K` of a column, in the order of the
loops. -/
def levelMu (K : Nat) : Int := if K % 2 = 0 then -1 else 1

end Auxiliary

/-! ## A concrete environment

Rational stand-ins for the external functions, used only to run the model on concrete
inputs. The theorems that quantify over `Env` do not depend on them. -/

/-- The number written by a list of decimal digits. -/
def digitsValue (cs : List Char) : Nat :=
  cs.foldl (fun n c => 10 * n + (c.toNat - 48)) 0

/-- A stand-in for `QString::toFloat` on plain decimals such as `-12.5`. -/
def decimalToFloat (s : String) : ℚ :=
  let cs := s.toList
  let negative := cs.head? = some '-'
  let cs := if negative then cs.tail else cs
  let whole := cs.takeWhile (fun c => c ≠ '.')
  let frac := (cs.dropWhile (fun c => c ≠ '.')).tail
  let v : ℚ := (digitsValue whole : ℚ) + (digitsValue frac : ℚ) / (10 : ℚ) ^ frac.length
  if negative then -v else v

/-- A stand-in for `QString::toInt` on plain integers. -/
def decimalToInt (s : String) : Int :=
  let cs := s.toList
  if cs.head? = some '-' then -(digitsValue cs.tail : Int) else (digitsValue cs : Int)

/-- A stand-in for `QString::setNum` on a real: six digits after the point. -/
def decimalSetNum (x : ℚ) : String :=
  let scaled : Nat := (Int.floor (|x| * 1000000)).toNat
  let frac := Nat.toDigits 10 (scaled % 1000000)
  let body := Nat.toDigits 10 (scaled / 1000000) ++ ['.'] ++
    List.replicate (6 - frac.length) '0' ++ frac
  String.mk (if x < 0 then '-' :: body else body)

/-- A stand-in for `QString::setNum` on an unsigned integer. -/
def decimalSetNumUInt (n : Int) : String := String.mk (Nat.toDigits 10 n.toNat)

/-- A stand-in for `QTime::fromString(_, "hh:mm:ss")`. -/
def clockFromString (s : String) : Option Int :=
  match s.toList with
  | [h1, h0, ':', m1, m0, ':', s1, s0] =>
    some ((digitsValue [h1, h0] : Int) * 3600 + (digitsValue [m1, m0] : Int) * 60
      + (digitsValue [s1, s0] : Int))
  | _ => none

/-- The stand-in for the Qt conversions. -/
def demoQt : QtConv ℚ where
  toFloat := decimalToFloat
  toInt := decimalToInt
  setNum := decimalSetNum
  setNumUInt := decimalSetNumUInt
  timeFromString := clockFromString

/-- Three Newton steps for the square root, from the start value `(x+1)/2`. -/
def newtonSqrt (x : ℚ) : ℚ :=
  let step := fun (g : ℚ) => (g + x / g) / 2
  step (step (step ((x + 1) / 2)))

/-- A positive rational stand-in for the exponential. -/
def rationalExp (x : ℚ) : ℚ :=
  if x ≤ 0 then 1 / (1 - x + x * x / 2) else 1 + x + x * x / 2

/-- A rational stand-in for `pow`: exact for a natural exponent, linear in the base
otherwise. -/
def rationalPow (b e : ℚ) : ℚ :=
  if e.den = 1 ∧ 0 ≤ e.num then b ^ e.num.toNat else 1 + e * (b - 1)

/-- A rational stand-in for the sine: `2t/(1+t^2)` at `t = x/2`. -/
def rationalSin (x : ℚ) : ℚ := 2 * (x / 2) / (1 + x / 2 * (x / 2))

/-- A rational stand-in for the cosine: `(1-t^2)/(1+t^2)` at `t = x/2`; with
`rationalSin` it satisfies the Pythagorean identity exactly. -/
def rationalCos (x : ℚ) : ℚ := (1 - x / 2 * (x / 2)) / (1 + x / 2 * (x / 2))

/-- The stand-in for the C math library. -/
def demoLibm : Libm ℚ where
  sqrt := newtonSqrt
  exp := rationalExp
  log := fun x => 2 * (x - 1) / (x + 1)
  sin := rationalSin
  cos := rationalCos
  pow := rationalPow
  Pi := 355 / 113

/-- The configuration hash with the given entries. -/
def configOf (entries : List (String × String)) : ConfigHash :=
  fun key => (entries.lookup key).getD ""

/-- A concrete environment: the configuration, the data files, the background file and
the answer of every spline setup are given; the projection is linear (100 km per
degree), the reference state is constant, and a background cost function leaves the
background array as it is. -/
def demoEnv (entries : List (String × String)) (frames : List (Frame ℚ))
    (files : List (DataFile ℚ)) (background : Option (List (BgRecord ℚ)))
    (splineOk : Bool) : Env ℚ where
  libm := demoLibm
  qt := demoQt
  parseXMLconfig := some (configOf entries)
  readFrameCenters := frames
  dataFiles := files
  tmForward := fun lon0 lat lon => ((lon - lon0) * 100000, lat * 100000)
  getReferenceVariable := fun v _ =>
    match v with
    | RefVar.rhoaref => 1
    | RefVar.qvbhypref => 0
    | RefVar.tempref => 300
    | RefVar.rhoref => 1
  bhypTransform := fun qv =>
    1 / 2 * ((qv + 1 / 10000000) - 1 / 100000000000000 / (qv + 1 / 10000000))
  obTypeCode := fun t =>
    match t with
    | ObType.dropsonde => 0
    | ObType.flightlevel => 1
    | ObType.sfmr => 2
    | ObType.qscat => 3
    | ObType.ascat => 4
    | ObType.AMV => 5
    | ObType.lidar => 6
    | ObType.radar => 7
    | ObType.other => 8
  newObservation := ⟨-999, -999, -999, -999, -999, -1, -999, fun _ => -999⟩
  bgstream := background
  obstream := []
  splineOk := fun _ _ _ => splineOk
  splineEval := fun _ _ data _ => data.headD 0
  costUpdateBG := fun cost => cost.bgU
  nanReal := -1

/-- A configuration of a 4 x 4 x 4 grid on `[0, 3]` in each direction with the zero
boundary condition `R0` in the horizontal. -/
def demoEntries : List (String × String) :=
  [("xmin", "0"), ("xmax", "3"), ("xincr", "1"),
   ("ymin", "0"), ("ymax", "3"), ("yincr", "1"),
   ("zmin", "0"), ("zmax", "3"), ("zincr", "1"),
   ("horizontalbc", "R0"), ("verticalbc", "R1T0"),
   ("refstate", "jordan"), ("reftime", "00:00:00"),
   ("load_background", "0"), ("adjust_background", "0"),
   ("use_dbz_pseudow", "1"), ("gridreflectivity", "dbz"),
   ("xfilter", "2"), ("yfilter", "3"), ("backgroundroi", "5")]

/-- A single frame at the origin of the projection, at midnight. -/
def demoFrames : List (Frame ℚ) := [⟨0, 0, 0, 0, 0⟩]

/-- A radar gate of 30 dBZ at `x = 0`, `y = 0` (a corner of the usable domain of
`demoEntries`) and `z = 1` km, pointing horizontally north. -/
def demoRadarOb : MetObs ℚ where
  time := 0
  lat := 0
  lon := 0
  altitude := 1000
  obType := ObType.radar
  cartesianUwind := -999
  cartesianVwind := -999
  verticalVelocity := -999
  moistDensity := -999
  airDensity := -999
  qv := -999
  temperature := -999
  windSpeed := -999
  azimuth := 0
  elevation := 0
  reflectivity := 30
  radialVelocity := 10
  spectrumWidth := 1

/-- The configuration `demoEntries` with `xmax = 2`, which leaves three nodes in x. -/
def narrowEntries : List (String × String) := ("xmax", "2") :: demoEntries

/-- The environment of the configuration `narrowEntries`, without data. -/
def narrowEnv : Env ℚ := demoEnv narrowEntries demoFrames [] none true

/-- The radar gate `demoRadarOb` moved to `x = -0.5`, inside the guard band `[-1, 0)` of
the configuration `demoEntries`. -/
def guardBandOb : MetObs ℚ := { demoRadarOb with lon := -1 / 200 }

/-- The environment with the single radar gate `demoRadarOb` in one sweep file. -/
def radarEnv : Env ℚ :=
  demoEnv demoEntries demoFrames [⟨DataKind.swp, [demoRadarOb]⟩] none true

/-- The driver state with the internal grid of the configuration `demoEntries`. -/
def demoGrid : VarDriverXYZ ℚ := internalGrid radarEnv VarDriverXYZ.new (configOf demoEntries)

/-- An observation loop state with nothing in it. -/
def emptyObLoop : ObLoop ℚ := ⟨[], ⟨[], []⟩, []⟩

/-- The configuration `demoEntries` with the unknown reference state `none`. -/
def undefinedRefEntries : List (String × String) := ("refstate", "none") :: demoEntries

/-- The environment of the configuration `undefinedRefEntries`, without data. -/
def undefinedRefEnv : Env ℚ := demoEnv undefinedRefEntries demoFrames [] none true

/-- The state in which the run on `radarEnv` calls `preProcessMetObs`. -/
def radarStart : VarDriverXYZ ℚ := referenceState radarEnv VarDriverXYZ.new (configOf demoEntries)
/-- The background arrays of the run on `radarEnv` after the reflectivity of the gate
`demoRadarOb` is gridded. -/
def radarGridded : BgBuf ℚ :=
  gridReflectivity radarEnv radarStart
    (5 / 4 * radarEnv.qt.toFloat (radarStart.configHash "xincr") * radarEnv.libm.sqrt 2)
    (5 / 4 * radarEnv.qt.toFloat (radarStart.configHash "xincr") *
      (5 / 4 * radarEnv.qt.toFloat (radarStart.configHash "xincr")))
    (radarEnv.libm.pow 10 (demoRadarOb.reflectivity * (1 / 10)))
    (griddedReflectivity radarEnv (radarStart.configHash "gridreflectivity")
      demoRadarOb.reflectivity demoRadarOb.altitude
      (radarEnv.getReferenceVariable RefVar.rhoaref demoRadarOb.altitude))
    (metObPosition radarEnv radarStart demoRadarOb).1
    (metObPosition radarEnv radarStart demoRadarOb).2.1
    (metObPosition radarEnv radarStart demoRadarOb).2.2
    ⟨radarStart.bgU.getD [], radarStart.bgWeights.getD []⟩

/-- The configuration `demoEntries` with a background that is loaded and adjusted. -/
def backgroundEntries : List (String × String) :=
  ("load_background", "1") :: ("adjust_background", "1") :: demoEntries

/-- A background record at the centre of the domain, at the time of the frame. -/
def demoBgRecord : BgRecord ℚ := ⟨0, 3 / 200, 3 / 200, 1500, 5, 5, 0, 300, 10, 1⟩

/-- The environment with the one-record background file, in which every spline setup
fails. -/
def splineFailEnv : Env ℚ := demoEnv backgroundEntries demoFrames [] (some [demoBgRecord]) false

/-- A background record at `x = -0.5`, `y = 1`, `z = 1.5` km: inside the guard band
`[-1, 0)` of the configuration `demoEntries`. -/
def guardBgRecord : BgRecord ℚ := ⟨0, 1 / 100, -1 / 200, 1500, 5, 5, 0, 300, 10, 1⟩

/-- The environment with the one-record background file `guardBgRecord`, loaded and
adjusted. -/
def guardBackgroundEnv : Env ℚ :=
  demoEnv backgroundEntries demoFrames [] (some [guardBgRecord]) true

/-- The configuration `backgroundEntries` with `xfilter = 5`, the value of
`backgroundroi`. -/
def wideFilterEntries : List (String × String) := ("xfilter", "5") :: backgroundEntries

/-- The environment of the configuration `wideFilterEntries` with the one-record
background file `demoBgRecord`. -/
def wideFilterEnv : Env ℚ :=
  demoEnv wideFilterEntries demoFrames [] (some [demoBgRecord]) true

/-- A dropsonde record at the position of `demoRadarOb`, with every measurement
present. -/
def demoSondeOb : MetObs ℚ :=
  { demoRadarOb with
    obType := ObType.dropsonde
    cartesianUwind := 5
    cartesianVwind := 3
    verticalVelocity := 1
    moistDensity := 1
    airDensity := 1
    qv := 10
    temperature := 290 }

/-- A dropsonde record as `demoSondeOb` whose v wind component is missing. -/
def missingVSondeOb : MetObs ℚ := { demoSondeOb with cartesianVwind := -999 }

/-- Two frames at the origin of the projection, two seconds apart. -/
def gapFrames : List (Frame ℚ) := [⟨0, 0, 0, 0, 0⟩, ⟨2, 0, 0, 0, 0⟩]

/-- The state `radarStart` with the frames `gapFrames`. -/
def gapStart : VarDriverXYZ ℚ := { radarStart with frameVector := gapFrames }

/-- The dropsonde record `demoSondeOb` at the time of the last frame of `gapFrames`. -/
def lateSondeOb : MetObs ℚ := { demoSondeOb with time := 2 }

/-- The background record `demoBgRecord` at the time of the last frame of `gapFrames`. -/
def lateBgRecord : BgRecord ℚ := { demoBgRecord with time := 2 }

/-- The locals of `loadBackgroundObs` before its first record. -/
def emptyBgLoad : BgLoad ℚ := ⟨0, 0, 0, BgColumn.clear, [], ⟨[], []⟩, []⟩

/-- A column with the single level that the background record `demoBgRecord` gives. -/
def demoColumn : BgColumn ℚ := BgColumn.clear.push 0 5 5 0 0 10 0

/-- The zeroed background arrays of the state `radarStart`. -/
def radarBuf : BgBuf ℚ := ⟨radarStart.bgU.getD [], radarStart.bgWeights.getD []⟩

/-- The interpolation of the column of a record at `x = y = 1.5` with the radius of
influence `backgroundroi = -1`, as `loadBackgroundObs` calls it. -/
def negativeRoiInterpolation : BgBuf ℚ :=
  interpolateColumn radarEnv radarStart 2 (-1 * radarEnv.libm.sqrt 2) (-1 * -1)
    (3 / 2) (3 / 2) demoColumn radarBuf

/-- The interpolation `negativeRoiInterpolation` without the pre-tests. -/
def negativeRoiNoPretest : BgBuf ℚ :=
  interpolateColumnNoPretest radarEnv radarStart 2 (-1 * -1) (3 / 2) (3 / 2) demoColumn
    radarBuf

/-- A lidar record at the position of `demoRadarOb` with the negative power
`db = -10`. -/
def negativeDbLidarOb : MetObs ℚ :=
  { demoRadarOb with obType := ObType.lidar, reflectivity := -10 }

/-! ## Auxiliary lemmas -/

section Lemmas

set_option linter.unusedSectionVars false

variable {α : Type} [LinearOrderedField α] [FloorRing α]

/-- A property that holds initially and is kept by every step holds after a loop. -/
theorem foldl_invariant {β γ : Type} (P : β → Prop) (f : β → γ → β) (l : List γ) (b : β)
    (hb : P b) (hf : ∀ b x, P b → P (f b x)) : P (l.foldl f b) := by
  induction l generalizing b with
  | nil => exact hb
  | cons x xs ih => exact ih (f b x) (hf b x hb)

theorem addAt_length (a : List α) (i : Int) (v : α) : (addAt a i v).length = a.length := by
  unfold addAt; split <;> simp

theorem divAt_length (a : List α) (i : Int) (v : α) : (divAt a i v).length = a.length := by
  unfold divAt; split <;> simp

theorem setAt_length (a : List α) (i : Int) (v : α) : (setAt a i v).length = a.length := by
  unfold setAt; split <;> simp

theorem SameGrid.rfl (a : VarDriverXYZ α) : SameGrid a a := by
  simp [SameGrid]

theorem SameGrid.trans {a b c : VarDriverXYZ α} (h₁ : SameGrid a b) (h₂ : SameGrid b c) :
    SameGrid a c := by
  simp only [SameGrid] at *
  obtain ⟨a0, a1, a2, a3, a4, a5, a6, a7, a8, a9, a10, a11, a12⟩ := h₁
  obtain ⟨b0, b1, b2, b3, b4, b5, b6, b7, b8, b9, b10, b11, b12⟩ := h₂
  exact ⟨a0.trans b0, a1.trans b1, a2.trans b2, a3.trans b3, a4.trans b4, a5.trans b5,
    a6.trans b6, a7.trans b7, a8.trans b8, a9.trans b9, a10.trans b10, a11.trans b11,
    a12.trans b12⟩

theorem loadBackgroundObs_grid (env : Env α) (d : VarDriverXYZ α) :
    SameGrid (loadBackgroundObs env d).2 d := by
  unfold loadBackgroundObs
  dsimp only
  split
  · simp [SameGrid]
  · split
    · simp [SameGrid]
    · split
      · simp [SameGrid]
      · split <;> simp [SameGrid]

theorem adjustBackground_grid (env : Env α) (d : VarDriverXYZ α) (b : Int) :
    SameGrid (adjustBackground env d b) d := by
  simp [SameGrid, adjustBackground]

theorem preProcessMetObs_grid (env : Env α) (d : VarDriverXYZ α) :
    SameGrid (preProcessMetObs env d) d := by
  simp [SameGrid, preProcessMetObs]

theorem loadMetObs_grid (env : Env α) (d : VarDriverXYZ α) :
    SameGrid (loadMetObs env d).2 d := by
  simp [SameGrid, loadMetObs]

theorem loadBackgroundObs_configHash (env : Env α) (d : VarDriverXYZ α) :
    (loadBackgroundObs env d).2.configHash = d.configHash := by
  unfold loadBackgroundObs
  dsimp only
  split
  · rfl
  · split
    · rfl
    · split
      · rfl
      · split <;> rfl

/-- The two ways `initializeAnalysis` ends: `exit(1)` when a background is requested and
its file cannot be opened, and `return true` otherwise. -/
theorem initializeAnalysis_cases (env : Env α) (d : VarDriverXYZ α) (b : Int) :
    (env.qt.toInt (d.configHash "load_background") ≠ 0 ∧
      (loadBackgroundObs env d).1 = none ∧
      initializeAnalysis env d b = Outcome.exited 1 (loadBackgroundObs env d).2) ∨
    (env.qt.toInt (d.configHash "load_background") ≠ 0 ∧
      ∃ n, (loadBackgroundObs env d).1 = some n ∧
      initializeAnalysis env d b = Outcome.returned true
        (returnedState env (analysisState env (loadBackgroundObs env d).2 n b) b)) ∨
    (env.qt.toInt (d.configHash "load_background") = 0 ∧
      initializeAnalysis env d b = Outcome.returned true
        (returnedState env (analysisState env d 0 b) b)) := by
  by_cases hl : env.qt.toInt (d.configHash "load_background") = 0
  · right; right
    refine ⟨hl, ?_⟩
    simp [initializeAnalysis, hl, returnedState, analysisState]
  · cases hr : (loadBackgroundObs env d).1 with
    | none =>
      left
      refine ⟨hl, rfl, ?_⟩
      simp [initializeAnalysis, hl, hr]
    | some n =>
      right; left
      refine ⟨hl, n, rfl, ?_⟩
      simp [initializeAnalysis, hl, hr, returnedState, analysisState]

theorem analysisState_bgU_isSome (env : Env α) (d : VarDriverXYZ α) (n b : Int)
    (h : d.bgU.isSome = true) : (analysisState env d n b).bgU.isSome = true := by
  unfold analysisState
  split
  · simp [adjustBackground]
  · exact h

theorem loadBackgroundObs_bgU_isSome (env : Env α) (d : VarDriverXYZ α)
    (h : d.bgU.isSome = true) : (loadBackgroundObs env d).2.bgU.isSome = true := by
  unfold loadBackgroundObs
  dsimp only
  split
  · exact h
  · split
    · rfl
    · split
      · rfl
      · split <;> rfl

theorem initializeAnalysis_bgU_isSome (env : Env α) (d : VarDriverXYZ α) (b : Int)
    (h : d.bgU.isSome = true) : (initializeAnalysis env d b).state.bgU.isSome = true := by
  rcases initializeAnalysis_cases env d b with ⟨_, _, he⟩ | ⟨_, n, _, he⟩ | ⟨_, he⟩
  · rw [he]; exact loadBackgroundObs_bgU_isSome env d h
  · rw [he]; simp [Outcome.state, returnedState, preProcessMetObs]
  · rw [he]; simp [Outcome.state, returnedState, preProcessMetObs]

theorem initializeState_bgU_isSome (env : Env α) (d : VarDriverXYZ α) :
    (initializeState env d).state.bgU.isSome = true := by
  unfold initializeState
  dsimp only
  split
  · split
    · apply initializeAnalysis_bgU_isSome
      simp [allocateBackground]
    · simp [Outcome.state, allocateBackground]
  · simp [Outcome.state, allocateBackground]

theorem analysisState_grid (env : Env α) (d : VarDriverXYZ α) (n b : Int) :
    SameGrid (analysisState env d n b) d := by
  unfold analysisState
  split
  · exact adjustBackground_grid env d b
  · exact SameGrid.rfl d

theorem returnedState_grid (env : Env α) (p : VarDriverXYZ α) (b : Int) :
    SameGrid (returnedState env p b) p := by
  simp [SameGrid, returnedState, preProcessMetObs]

theorem initializeAnalysis_grid (env : Env α) (d : VarDriverXYZ α) (b : Int) :
    SameGrid (initializeAnalysis env d b).state d := by
  rcases initializeAnalysis_cases env d b with ⟨_, _, he⟩ | ⟨_, n, _, he⟩ | ⟨_, he⟩
  · rw [he]; exact loadBackgroundObs_grid env d
  · rw [he]
    exact (returnedState_grid env _ b).trans
      ((analysisState_grid env _ n b).trans (loadBackgroundObs_grid env d))
  · rw [he]
    exact (returnedState_grid env _ b).trans (analysisState_grid env _ 0 b)

theorem initializeState_grid (env : Env α) (d : VarDriverXYZ α) :
    SameGrid (initializeState env d).state (increaseInternalGrid d) := by
  unfold initializeState
  dsimp only
  split
  · split
    · refine (initializeAnalysis_grid env _ _).trans ?_
      simp [SameGrid, allocateBackground]
    · simp [SameGrid, Outcome.state, allocateBackground]
  · simp [SameGrid, Outcome.state, allocateBackground]

theorem initializeDriver_of_stencil (env : Env α) (d : VarDriverXYZ α) (config : ConfigHash)
    (hparse : env.parseXMLconfig = some config)
    (h : 4 ≤ (configuredGrid env d config).idim ∧
        4 ≤ (configuredGrid env d config).jdim ∧
        4 ≤ (configuredGrid env d config).kdim) :
    initializeDriver env d =
      initializeState env (configuredGrid env d config) := by
  have hab : stencilAbort (configuredGrid env d config) = none := by
    unfold stencilAbort
    rw [if_neg (by omega), if_neg (by omega), if_neg (by omega)]
  simp only [initializeDriver, hparse, configuredGrid] at *
  simp only [hab]

/-! ### The length of the background array -/

theorem gridReflectivity_length (env : Env α) (d : VarDriverXYZ α)
    (r2 rs zz qr x y z : α) (b : BgBuf α) :
    (gridReflectivity env d r2 rs zz qr x y z b).bgU.length = b.bgU.length := by
  unfold gridReflectivity
  refine foldl_invariant (fun (c : BgBuf α) => c.bgU.length = b.bgU.length) _ _ _ rfl ?_
  intro c zi hc
  refine foldl_invariant (fun (c : BgBuf α) => c.bgU.length = b.bgU.length) _ _ _ hc ?_
  intro c zmu hc
  dsimp only
  split
  · exact hc
  refine foldl_invariant (fun (c : BgBuf α) => c.bgU.length = b.bgU.length) _ _ _ hc ?_
  intro c xi hc
  refine foldl_invariant (fun (c : BgBuf α) => c.bgU.length = b.bgU.length) _ _ _ hc ?_
  intro c xmu hc
  dsimp only
  split
  · exact hc
  refine foldl_invariant (fun (c : BgBuf α) => c.bgU.length = b.bgU.length) _ _ _ hc ?_
  intro c yi hc
  refine foldl_invariant (fun (c : BgBuf α) => c.bgU.length = b.bgU.length) _ _ _ hc ?_
  intro c ymu hc
  dsimp only
  split
  · exact hc
  split
  · simpa [addAt_length] using hc
  · exact hc

theorem interpolateColumn_length (env : Env α) (d : VarDriverXYZ α) (wl : Int)
    (r2 rs x y : α) (col : BgColumn α) (b : BgBuf α) :
    (interpolateColumn env d wl r2 rs x y col b).bgU.length = b.bgU.length := by
  unfold interpolateColumn
  refine foldl_invariant (fun (c : BgBuf α) => c.bgU.length = b.bgU.length) _ _ _ rfl ?_
  intro c zi hc
  refine foldl_invariant (fun (c : BgBuf α) => c.bgU.length = b.bgU.length) _ _ _ hc ?_
  intro c zmu hc
  dsimp only
  refine foldl_invariant (fun (c : BgBuf α) => c.bgU.length = b.bgU.length) _ _ _ hc ?_
  intro c xi hc
  refine foldl_invariant (fun (c : BgBuf α) => c.bgU.length = b.bgU.length) _ _ _ hc ?_
  intro c xmu hc
  dsimp only
  split
  · exact hc
  refine foldl_invariant (fun (c : BgBuf α) => c.bgU.length = b.bgU.length) _ _ _ hc ?_
  intro c yi hc
  refine foldl_invariant (fun (c : BgBuf α) => c.bgU.length = b.bgU.length) _ _ _ hc ?_
  intro c ymu hc
  dsimp only
  split
  · exact hc
  split
  · split <;> simpa [addAt_length] using hc
  · exact hc

theorem checkInterpolation_length (d : VarDriverXYZ α) (b : BgBuf α × List Msg) :
    (checkInterpolation d b).1.bgU.length = b.1.bgU.length := by
  unfold checkInterpolation
  refine foldl_invariant (fun (c : BgBuf α × List Msg) => c.1.bgU.length = b.1.bgU.length) _ _ _ rfl ?_
  intro c zi hc
  refine foldl_invariant (fun (c : BgBuf α × List Msg) => c.1.bgU.length = b.1.bgU.length) _ _ _ hc ?_
  intro c zmu hc
  refine foldl_invariant (fun (c : BgBuf α × List Msg) => c.1.bgU.length = b.1.bgU.length) _ _ _ hc ?_
  intro c xi hc
  refine foldl_invariant (fun (c : BgBuf α × List Msg) => c.1.bgU.length = b.1.bgU.length) _ _ _ hc ?_
  intro c xmu hc
  refine foldl_invariant (fun (c : BgBuf α × List Msg) => c.1.bgU.length = b.1.bgU.length) _ _ _ hc ?_
  intro c yi hc
  refine foldl_invariant (fun (c : BgBuf α × List Msg) => c.1.bgU.length = b.1.bgU.length) _ _ _ hc ?_
  intro c ymu hc
  dsimp only
  refine foldl_invariant (fun (c : BgBuf α × List Msg) => c.1.bgU.length = b.1.bgU.length) _ _ _ hc ?_
  intro c var hc
  split
  · simpa [divAt_length] using hc
  · exact hc

theorem loadBackgroundRecord_length (env : Env α) (d : VarDriverXYZ α) (st : BgLoad α)
    (r : BgRecord α) :
    (loadBackgroundRecord env d st r).2.buf.bgU.length = st.buf.bgU.length := by
  unfold loadBackgroundRecord
  dsimp only
  split
  · rfl
  split
  · rfl
  split
  · rfl
  split
  · rfl
  split
  · rfl
  split
  · rfl
  · simp [interpolateColumn_length]

theorem loadBackgroundLoop_length (env : Env α) (d : VarDriverXYZ α) (st : BgLoad α)
    (rs : List (BgRecord α)) :
    (loadBackgroundLoop env d st rs).2.buf.bgU.length = st.buf.bgU.length := by
  induction rs generalizing st with
  | nil => rfl
  | cons r rs ih =>
    have h := loadBackgroundRecord_length env d st r
    unfold loadBackgroundLoop
    split
    · rename_i st1 heq
      rw [heq] at h
      exact h
    · rename_i st1 heq
      rw [heq] at h
      rw [ih st1]
      exact h

theorem loadBackgroundObs_length (env : Env α) (d : VarDriverXYZ α) :
    ((loadBackgroundObs env d).2.bgU.getD []).length = (d.bgU.getD []).length := by
  unfold loadBackgroundObs
  dsimp only
  split
  · rfl
  · split
    · simp [loadBackgroundLoop_length]
    · split
      · simp [loadBackgroundLoop_length]
      · split
        · simp [checkInterpolation_length, interpolateColumn_length,
            loadBackgroundLoop_length]
        · simp [interpolateColumn_length, loadBackgroundLoop_length]

theorem processMetOb_length (env : Env α) (d : VarDriverXYZ α) (st : ObLoop α)
    (metOb : MetObs α) :
    (processMetOb env d st metOb).buf.bgU.length = st.buf.bgU.length := by
  unfold processMetOb
  dsimp only
  split
  · rfl
  split
  · rfl
  split
  · rfl
  split <;> first | rfl | simp [radarObs, gridReflectivity_length]

theorem processFile_length (env : Env α) (d : VarDriverXYZ α) (st : ObLoop α × Int)
    (file : DataFile α) :
    (processFile env d st file).1.buf.bgU.length = st.1.buf.bgU.length := by
  unfold processFile
  split
  · rfl
  · rfl
  · dsimp only
    exact foldl_invariant (fun (c : ObLoop α) => c.buf.bgU.length = st.1.buf.bgU.length)
      _ _ _ rfl (fun c x hc => (processMetOb_length env d c x).trans hc)

theorem columnReflectivity_length (env : Env α) (d : VarDriverXYZ α) (bgI bgJ : Int)
    (b : BgBuf α) :
    (columnReflectivity env d bgI bgJ b).1.bgU.length = b.bgU.length := by
  unfold columnReflectivity
  refine foldl_invariant (fun (c : BgBuf α × α) => c.1.bgU.length = b.bgU.length)
    _ _ _ rfl ?_
  intro c zi hc
  refine foldl_invariant (fun (c : BgBuf α × α) => c.1.bgU.length = b.bgU.length)
    _ _ _ hc ?_
  intro c zmu hc
  dsimp only
  split
  · simpa [divAt_length] using hc
  · exact hc

theorem finishReflectivity_length (env : Env α) (d : VarDriverXYZ α) (st : ObLoop α) :
    (finishReflectivity env d st).buf.bgU.length = st.buf.bgU.length := by
  unfold finishReflectivity
  refine foldl_invariant (fun (c : ObLoop α) => c.buf.bgU.length = st.buf.bgU.length)
    _ _ _ rfl ?_
  intro c xi hc
  refine foldl_invariant (fun (c : ObLoop α) => c.buf.bgU.length = st.buf.bgU.length)
    _ _ _ hc ?_
  intro c xmu hc
  dsimp only
  refine foldl_invariant (fun (c : ObLoop α) => c.buf.bgU.length = st.buf.bgU.length)
    _ _ _ hc ?_
  intro c yi hc
  refine foldl_invariant (fun (c : ObLoop α) => c.buf.bgU.length = st.buf.bgU.length)
    _ _ _ hc ?_
  intro c ymu hc
  dsimp only
  split <;> simpa [columnReflectivity_length] using hc

theorem preProcessMetObs_length (env : Env α) (d : VarDriverXYZ α) :
    ((preProcessMetObs env d).bgU.getD []).length = (d.bgU.getD []).length := by
  unfold preProcessMetObs
  simp only [Option.getD_some]
  rw [finishReflectivity_length]
  exact foldl_invariant
    (fun (c : ObLoop α × Int) => c.1.buf.bgU.length = (d.bgU.getD []).length)
    _ _ _ rfl (fun c x hc => (processFile_length env d c x).trans hc)

theorem analysisState_length (env : Env α) (d : VarDriverXYZ α) (n b : Int)
    (hcost : ∀ c, (env.costUpdateBG c).length = c.bgU.length) :
    ((analysisState env d n b).bgU.getD []).length = (d.bgU.getD []).length := by
  unfold analysisState
  split
  · simp [adjustBackground, hcost]
  · rfl

theorem initializeAnalysis_length (env : Env α) (d : VarDriverXYZ α) (b : Int)
    (hcost : ∀ c, (env.costUpdateBG c).length = c.bgU.length) :
    ((initializeAnalysis env d b).state.bgU.getD []).length = (d.bgU.getD []).length := by
  rcases initializeAnalysis_cases env d b with ⟨_, _, he⟩ | ⟨_, n, _, he⟩ | ⟨_, he⟩
  · rw [he]; exact loadBackgroundObs_length env d
  · rw [he]
    show ((preProcessMetObs env _).bgU.getD []).length = _
    rw [preProcessMetObs_length, analysisState_length env _ n b hcost,
      loadBackgroundObs_length]
  · rw [he]
    show ((preProcessMetObs env _).bgU.getD []).length = _
    rw [preProcessMetObs_length, analysisState_length env _ 0 b hcost]

theorem initializeState_length (env : Env α) (d : VarDriverXYZ α)
    (hcost : ∀ c, (env.costUpdateBG c).length = c.bgU.length) :
    ((initializeState env d).state.bgU.getD []).length =
      (uStateSize (increaseInternalGrid d)).toNat := by
  unfold initializeState
  dsimp only
  split
  · split
    · rw [initializeAnalysis_length env _ _ hcost]
      simp [allocateBackground]
    · simp [Outcome.state, allocateBackground]
  · simp [Outcome.state, allocateBackground]

/-- A call of `initializeAnalysis` that returns `true` ends in a state
`returnedState env p b`. -/
theorem initializeAnalysis_returned (env : Env α) (d : VarDriverXYZ α) (b : Int)
    (st : VarDriverXYZ α) (h : initializeAnalysis env d b = Outcome.returned true st) :
    ∃ p, st = returnedState env p b := by
  rcases initializeAnalysis_cases env d b with ⟨_, _, he⟩ | ⟨_, n, _, he⟩ | ⟨_, he⟩
  · rw [he] at h; cases h
  · rw [he] at h; cases h; exact ⟨_, rfl⟩
  · rw [he] at h; cases h; exact ⟨_, rfl⟩

/-- A call of `initializeState` that returns `true` ends in a state
`returnedState env p b` for the nodal state size `b` of the internal grid. -/
theorem initializeState_returned (env : Env α) (d : VarDriverXYZ α)
    (st : VarDriverXYZ α) (h : initializeState env d = Outcome.returned true st) :
    ∃ p, st = returnedState env p (bStateSize (increaseInternalGrid d)) := by
  unfold initializeState at h
  dsimp only at h
  split at h
  · split at h
    · exact initializeAnalysis_returned env _ _ st h
    · cases h
  · cases h

/-! ### The spatial test -/

theorem obInDomain_iff (d : VarDriverXYZ α) (x y z : α) :
    obInDomain d x y z = true ↔ AssimilationDomain d x y z := by
  unfold obInDomain AssimilationDomain
  constructor
  · intro h
    split at h
    · cases h
    rename_i h1
    split at h
    · cases h
    rename_i h2
    split at h
    · cases h
    rename_i h3
    simp only [not_or, not_lt, not_and] at h1 h2 h3
    obtain ⟨a1, a2, a3, a4, a5, a6⟩ := h1
    exact ⟨⟨a1, a2⟩, ⟨a3, a4⟩, ⟨a5, a6⟩,
      fun hh => ⟨⟨(h2 hh).1, (h2 hh).2.1⟩, ⟨(h2 hh).2.2.1, (h2 hh).2.2.2⟩⟩,
      fun hv => h3 hv⟩
  · rintro ⟨⟨a1, a2⟩, ⟨a3, a4⟩, ⟨a5, a6⟩, hh, hv⟩
    rw [if_neg, if_neg, if_neg]
    · rintro ⟨h, hk | hk⟩
      · exact absurd (hv h).1 (not_le.mpr hk)
      · exact absurd (hv h).2 (not_le.mpr hk)
    · rintro ⟨h, hk | hk | hk | hk⟩
      · exact absurd (hh h).1.1 (not_le.mpr hk)
      · exact absurd (hh h).1.2 (not_le.mpr hk)
      · exact absurd (hh h).2.1 (not_le.mpr hk)
      · exact absurd (hh h).2.2 (not_le.mpr hk)
    · rintro (hk | hk | hk | hk | hk | hk)
      · exact absurd a1 (not_le.mpr hk)
      · exact absurd a2 (not_le.mpr hk)
      · exact absurd a3 (not_le.mpr hk)
      · exact absurd a4 (not_le.mpr hk)
      · exact absurd a5 (not_le.mpr hk)
      · exact absurd a6 (not_le.mpr hk)

/-- An observation that fails the spatial test changes neither the observation list nor
the background arrays. -/
theorem processMetOb_outside (env : Env α) (d : VarDriverXYZ α) (st : ObLoop α)
    (metOb : MetObs α)
    (h : obInDomain d (obPosition env d (metOb.time - startTime d.frameVector) metOb).1
      (obPosition env d (metOb.time - startTime d.frameVector) metOb).2.1
      (obPosition env d (metOb.time - startTime d.frameVector) metOb).2.2 = false) :
    (processMetOb env d st metOb).obVector = st.obVector ∧
    (processMetOb env d st metOb).buf = st.buf := by
  unfold processMetOb
  dsimp only
  split
  · exact ⟨rfl, rfl⟩
  split
  · exact ⟨rfl, rfl⟩
  rw [if_pos (by rw [h]; simp)]
  exact ⟨rfl, rfl⟩

/-- An observation inside the time window that fails the spatial test leaves the whole
loop state as it is. -/
theorem processMetOb_outside_eq (env : Env α) (d : VarDriverXYZ α) (st : ObLoop α)
    (metOb : MetObs α)
    (ht : startTime d.frameVector ≤ metOb.time ∧ metOb.time ≤ endTime d.frameVector ∧
      metOb.time - startTime d.frameVector ≤ (d.frameVector.length : Int))
    (h : obInDomain d (obPosition env d (metOb.time - startTime d.frameVector) metOb).1
      (obPosition env d (metOb.time - startTime d.frameVector) metOb).2.1
      (obPosition env d (metOb.time - startTime d.frameVector) metOb).2.2 = false) :
    processMetOb env d st metOb = st := by
  unfold processMetOb
  dsimp only
  rw [if_neg (by omega), if_neg (by omega), if_pos (by rw [h]; simp)]

theorem truncToInt_ge_three (q : α) (h : 3 ≤ truncToInt q) : 3 ≤ q := by
  unfold truncToInt at h
  split at h
  · have := Int.floor_le q
    have h3 : ((3 : Int) : α) ≤ ((Int.floor q : Int) : α) := by exact_mod_cast h
    calc (3 : α) = ((3 : Int) : α) := by norm_num
      _ ≤ _ := h3
      _ ≤ q := this
  · rename_i hq
    have hq' : q ≤ 0 := le_of_lt (not_le.mp hq)
    have : Int.ceil q ≤ 0 := Int.ceil_le.mpr (by simpa using hq')
    omega

/-! ### The paths through `initialize` -/

theorem internalGrid_configHash (env : Env α) (d : VarDriverXYZ α) (config : ConfigHash) :
    (internalGrid env d config).configHash = config := by
  unfold internalGrid increaseInternalGrid configuredGrid defineGrid
  dsimp only
  split <;> split <;> rfl

/-- A run that passes the stencil tests, has the reference state `jordan` and finds its
reference time continues with `initializeAnalysis` in the state `referenceState`. -/
theorem initializeDriver_of_reference (env : Env α) (d : VarDriverXYZ α)
    (config : ConfigHash) (hparse : env.parseXMLconfig = some config)
    (hstencil : 4 ≤ (configuredGrid env d config).idim ∧
        4 ≤ (configuredGrid env d config).jdim ∧
        4 ≤ (configuredGrid env d config).kdim)
    (href : config "refstate" = "jordan")
    (hfind : (findReference env.qt (env.qt.timeFromString (config "reftime")) config
      env.readFrameCenters).isSome = true) :
    initializeDriver env d = initializeAnalysis env (referenceState env d config)
      (bStateSize (internalGrid env d config)) := by
  rw [initializeDriver_of_stencil env d config hparse hstencil]
  have hc := internalGrid_configHash env d config
  unfold internalGrid at hc
  obtain ⟨c', hc'⟩ := Option.isSome_iff_exists.mp hfind
  unfold initializeState
  dsimp only
  simp only [allocateBackground, hc, href, if_true, hc']
  simp only [referenceState, referenceConfig, allocateBackground, internalGrid, hc',
    Option.getD_some]

/-- A run as in `initializeDriver_of_reference` that loads no background returns `true`
after `preProcessMetObs` has run in the state `referenceState`. -/
theorem initializeDriver_of_no_background (env : Env α) (d : VarDriverXYZ α)
    (config : ConfigHash) (hparse : env.parseXMLconfig = some config)
    (hstencil : 4 ≤ (configuredGrid env d config).idim ∧
        4 ≤ (configuredGrid env d config).jdim ∧
        4 ≤ (configuredGrid env d config).kdim)
    (href : config "refstate" = "jordan")
    (hfind : (findReference env.qt (env.qt.timeFromString (config "reftime")) config
      env.readFrameCenters).isSome = true)
    (hload : env.qt.toInt (referenceConfig env config "load_background") = 0) :
    initializeDriver env d = Outcome.returned true
      (returnedState env (referenceState env d config)
        (bStateSize (internalGrid env d config))) := by
  rw [initializeDriver_of_reference env d config hparse hstencil href hfind]
  have hl : env.qt.toInt ((referenceState env d config).configHash "load_background") = 0 :=
    hload
  rcases initializeAnalysis_cases env (referenceState env d config)
      (bStateSize (internalGrid env d config)) with ⟨h, _⟩ | ⟨h, _⟩ | ⟨_, he⟩
  · exact absurd hl h
  · exact absurd hl h
  · rw [he]
    simp [analysisState]

/-! ### The observation array -/

theorem getD_setAt (a : List α) (i : Int) (v : α) (j : Nat) :
    (setAt a i v).getD j 0 = if 0 ≤ i ∧ i.toNat = j ∧ j < a.length then v else a.getD j 0 := by
  unfold setAt
  by_cases hi : i < 0
  · rw [if_pos hi, if_neg (by omega)]
  · rw [if_neg hi]
    simp only [List.getD_eq_getElem?_getD, List.getElem?_set]
    by_cases hj : i.toNat = j
    · subst hj
      by_cases hl : i.toNat < a.length
      · simp [hl, not_lt.mp hi]
      · simp [hl, not_lt.mp hi, List.getElem?_eq_none (not_lt.mp hl)]
    · simp [hj]

theorem storeObservation_length (obs : List α) (m : Nat) (ob : Observation α) :
    (storeObservation 7 obs m ob).length = obs.length := by
  unfold storeObservation
  simp [List.range, List.range.loop, setAt_length]

theorem storeObservation_getD_other (obs : List α) (m : Nat) (ob : Observation α) (j : Nat)
    (hj : j < 14 * m ∨ 14 * m + 14 ≤ j) :
    (storeObservation 7 obs m ob).getD j 0 = obs.getD j 0 := by
  unfold storeObservation
  simp only [List.range, List.range.loop, List.foldl, Int.toNat_ofNat]
  repeat rw [getD_setAt, if_neg (by omega)]

theorem storeObservation_getD (obs : List α) (m : Nat) (ob : Observation α) (k : Nat)
    (hk : k < 14) (hlen : 14 * m + 14 ≤ obs.length) :
    (storeObservation 7 obs m ob).getD (14 * m + k) 0 = (obTuple ob).getD k 0 := by
  unfold storeObservation
  simp only [List.range, List.range.loop, List.foldl, Int.toNat_ofNat]
  interval_cases k <;>
    simp only [getD_setAt, setAt_length] <;>
    (repeat (first | rw [if_pos (by omega)] | rw [if_neg (by omega)])) <;>
    simp [obTuple]

theorem storeFold (l : List (Observation α)) : ∀ (n : Nat) (acc : List α),
    14 * (n + l.length) ≤ acc.length →
    ((l.enumFrom n).foldl (fun obs mo => storeObservation 7 obs mo.1 mo.2) acc).length
        = acc.length ∧
    (∀ j, j < 14 * n →
      ((l.enumFrom n).foldl (fun obs mo => storeObservation 7 obs mo.1 mo.2) acc).getD j 0
        = acc.getD j 0) ∧
    (∀ i (hi : i < l.length) k, k < 14 →
      ((l.enumFrom n).foldl (fun obs mo => storeObservation 7 obs mo.1 mo.2) acc).getD
          (14 * (n + i) + k) 0 = (obTuple (l.get ⟨i, hi⟩)).getD k 0) := by
  induction l with
  | nil =>
    intro n acc _
    exact ⟨rfl, fun _ _ => rfl, fun i hi => absurd hi (Nat.not_lt_zero i)⟩
  | cons ob l ih =>
    intro n acc hlen
    simp only [List.length_cons] at hlen
    have h := ih (n + 1) (storeObservation 7 acc n ob)
      (by rw [storeObservation_length]; omega)
    obtain ⟨h1, h2, h3⟩ := h
    simp only [List.enumFrom_cons, List.foldl_cons]
    refine ⟨by rw [h1, storeObservation_length], ?_, ?_⟩
    · intro j hj
      rw [h2 j (by omega), storeObservation_getD_other _ _ _ _ (Or.inl hj)]
    · intro i hi k hk
      cases i with
      | zero =>
        rw [h2 _ (by omega)]
        exact storeObservation_getD acc n ob k hk (by omega)
      | succ i =>
        have := h3 i (by simpa using hi) k hk
        have e : 14 * (n + (i + 1)) + k = 14 * (n + 1 + i) + k := by ring
        rw [e, this]
        rfl

theorem slice_eq_of_getD (a t : List α) (m : Nat) (ht : t.length = 14)
    (hlen : 14 * m + 14 ≤ a.length)
    (h : ∀ k, k < 14 → a.getD (14 * m + k) 0 = t.getD k 0) :
    (a.drop (14 * m)).take 14 = t := by
  apply List.ext_getElem
  · simp [ht]; omega
  · intro k h1 h2
    have hk : k < 14 := by simp at h1; omega
    have := h k hk
    simp only [List.getD_eq_getElem?_getD] at this
    rw [List.getElem?_eq_getElem (by omega), List.getElem?_eq_getElem (by omega)] at this
    simp only [Option.getD_some] at this
    simp [this]

theorem loadObsArray_spec (v : List (Observation α)) :
    (loadObsArray 7 v).length = 14 * v.length ∧
    ∀ m (hm : m < v.length),
      ((loadObsArray 7 v).drop (14 * m)).take 14 = obTuple (v.get ⟨m, hm⟩) := by
  have h := storeFold v 0 (List.replicate (v.length * 14) 0) (by simp; omega)
  obtain ⟨h1, -, h3⟩ := h
  have hl : (loadObsArray 7 v).length = 14 * v.length := by
    unfold loadObsArray List.enum
    rw [h1]; simp; omega
  refine ⟨hl, fun m hm => ?_⟩
  apply slice_eq_of_getD (loadObsArray 7 v) (obTuple (v.get ⟨m, hm⟩)) m rfl (by omega)
  intro k hk
  have := h3 m hm k hk
  simp only [Nat.zero_add] at this
  exact this

theorem initializeDriver_returned_true (env : Env α) (d st : VarDriverXYZ α)
    (h : initializeDriver env d = Outcome.returned true st) :
    ∃ config, env.parseXMLconfig = some config ∧
      initializeState env (configuredGrid env d config) = Outcome.returned true st := by
  unfold initializeDriver at h
  split at h
  · cases h
  · rename_i config hc
    dsimp only at h
    split at h
    · cases h
    · exact ⟨config, hc, h⟩

theorem initializeDriver_returned_state (env : Env α) (d st : VarDriverXYZ α)
    (h : initializeDriver env d = Outcome.returned true st) :
    ∃ config p, env.parseXMLconfig = some config ∧
      st = returnedState env p (bStateSize (internalGrid env d config)) ∧
      SameGrid p (internalGrid env d config) := by
  obtain ⟨config, hc, hs⟩ := initializeDriver_returned_true env d st h
  obtain ⟨p, hp⟩ := initializeState_returned env _ st hs
  refine ⟨config, p, hc, hp, ?_⟩
  have hg := initializeState_grid env (configuredGrid env d config)
  rw [hs] at hg
  have hg2 : SameGrid st p := by rw [hp]; exact returnedState_grid env p _
  have hg3 : SameGrid p st := by
    simp only [SameGrid] at hg2 ⊢
    obtain ⟨a0, a1, a2, a3, a4, a5, a6, a7, a8, a9, a10, a11, a12⟩ := hg2
    exact ⟨a0.symm, a1.symm, a2.symm, a3.symm, a4.symm, a5.symm, a6.symm, a7.symm, a8.symm,
      a9.symm, a10.symm, a11.symm, a12.symm⟩
  exact hg3.trans hg

theorem internalGrid_numVars (env : Env α) (d : VarDriverXYZ α) (config : ConfigHash) :
    (internalGrid env d config).numVars = d.numVars := by
  unfold internalGrid increaseInternalGrid configuredGrid defineGrid
  dsimp only
  split <;> split <;> rfl

/-! ### The reference state -/

theorem loadBackgroundObs_jordan (env : Env α) (d : VarDriverXYZ α) :
    (loadBackgroundObs env d).2.jordanReference = d.jordanReference := by
  unfold loadBackgroundObs
  dsimp only
  split
  · rfl
  · split
    · rfl
    · split
      · rfl
      · split <;> rfl

theorem analysisState_jordan (env : Env α) (d : VarDriverXYZ α) (n b : Int) :
    (analysisState env d n b).jordanReference = d.jordanReference := by
  unfold analysisState
  split <;> rfl

theorem initializeAnalysis_jordan (env : Env α) (d : VarDriverXYZ α) (b : Int) :
    (initializeAnalysis env d b).state.jordanReference = d.jordanReference := by
  rcases initializeAnalysis_cases env d b with ⟨_, _, he⟩ | ⟨_, n, _, he⟩ | ⟨_, he⟩
  · rw [he]; exact loadBackgroundObs_jordan env d
  · rw [he]
    show (analysisState env _ n b).jordanReference = _
    rw [analysisState_jordan, loadBackgroundObs_jordan]
  · rw [he]
    show (analysisState env _ 0 b).jordanReference = _
    rw [analysisState_jordan]

/-! ### Invariants of the background array -/

theorem getD_addAt (a : List α) (i : Int) (v : α) (j : Nat) :
    (addAt a i v).getD j 0 =
      if 0 ≤ i ∧ i.toNat = j ∧ j < a.length then a.getD j 0 + v else a.getD j 0 := by
  unfold addAt
  by_cases hi : i < 0
  · rw [if_pos hi, if_neg (by omega)]
  · rw [if_neg hi]
    simp only [List.getD_eq_getElem?_getD, List.getElem?_set]
    by_cases hj : i.toNat = j
    · subst hj
      by_cases hl : i.toNat < a.length
      · simp [hl, not_lt.mp hi]
      · simp [hl, not_lt.mp hi, List.getElem?_eq_none (not_lt.mp hl)]
    · simp [hj]

theorem getD_divAt (a : List α) (i : Int) (v : α) (j : Nat) :
    (divAt a i v).getD j 0 =
      if 0 ≤ i ∧ i.toNat = j ∧ j < a.length then a.getD j 0 / v else a.getD j 0 := by
  unfold divAt
  by_cases hi : i < 0
  · rw [if_pos hi, if_neg (by omega)]
  · rw [if_neg hi]
    simp only [List.getD_eq_getElem?_getD, List.getElem?_set]
    by_cases hj : i.toNat = j
    · subst hj
      by_cases hl : i.toNat < a.length
      · simp [hl, not_lt.mp hi]
      · simp [hl, not_lt.mp hi, List.getElem?_eq_none (not_lt.mp hl)]
    · simp [hj]

/-- A property of the background array that every reflectivity store
`bgU[bIndex + 6] += v` keeps is kept by `gridReflectivity`. -/
theorem gridReflectivity_invariant (P : List α → Prop) (env : Env α) (d : VarDriverXYZ α)
    (hadd : ∀ a bgI bgJ bgK v, P a → P (addAt a (bIndex d bgI bgJ bgK + 6) v))
    (r2 rs zz qr x y z : α) (b : BgBuf α) (hb : P b.bgU) :
    P (gridReflectivity env d r2 rs zz qr x y z b).bgU := by
  unfold gridReflectivity
  refine foldl_invariant (fun (c : BgBuf α) => P c.bgU) _ _ _ hb ?_
  intro c zi hc
  refine foldl_invariant (fun (c : BgBuf α) => P c.bgU) _ _ _ hc ?_
  intro c zmu hc
  dsimp only
  split
  · exact hc
  refine foldl_invariant (fun (c : BgBuf α) => P c.bgU) _ _ _ hc ?_
  intro c xi hc
  refine foldl_invariant (fun (c : BgBuf α) => P c.bgU) _ _ _ hc ?_
  intro c xmu hc
  dsimp only
  split
  · exact hc
  refine foldl_invariant (fun (c : BgBuf α) => P c.bgU) _ _ _ hc ?_
  intro c yi hc
  refine foldl_invariant (fun (c : BgBuf α) => P c.bgU) _ _ _ hc ?_
  intro c ymu hc
  dsimp only
  split
  · exact hc
  split
  · exact hadd _ _ _ _ _ hc
  · exact hc

theorem processMetOb_invariant (P : List α → Prop) (env : Env α) (d : VarDriverXYZ α)
    (hadd : ∀ a bgI bgJ bgK v, P a → P (addAt a (bIndex d bgI bgJ bgK + 6) v))
    (st : ObLoop α) (metOb : MetObs α) (hb : P st.buf.bgU) :
    P (processMetOb env d st metOb).buf.bgU := by
  unfold processMetOb
  dsimp only
  split
  · exact hb
  split
  · exact hb
  split
  · exact hb
  split <;> first | exact hb | exact gridReflectivity_invariant P env d hadd _ _ _ _ _ _ _ _ hb

theorem processFile_invariant (P : List α → Prop) (env : Env α) (d : VarDriverXYZ α)
    (hadd : ∀ a bgI bgJ bgK v, P a → P (addAt a (bIndex d bgI bgJ bgK + 6) v))
    (st : ObLoop α × Int) (file : DataFile α) (hb : P st.1.buf.bgU) :
    P (processFile env d st file).1.buf.bgU := by
  unfold processFile
  split
  · exact hb
  · exact hb
  · dsimp only
    exact foldl_invariant (fun (c : ObLoop α) => P c.buf.bgU) _ _ _ hb
      (fun c x hc => processMetOb_invariant P env d hadd c x hc)

/-- A property of the background array that every normalisation
`bgU[bIndex + 6] /= w` by a non-zero weight keeps is kept by `columnReflectivity`. -/
theorem columnReflectivity_invariant (P : List α → Prop) (env : Env α)
    (d : VarDriverXYZ α)
    (hdiv : ∀ a bgI bgJ bgK w, w ≠ 0 → P a → P (divAt a (bIndex d bgI bgJ bgK + 6) w))
    (bgI bgJ : Int) (b : BgBuf α) (hb : P b.bgU) :
    P (columnReflectivity env d bgI bgJ b).1.bgU := by
  unfold columnReflectivity
  refine foldl_invariant (fun (c : BgBuf α × α) => P c.1.bgU) _ _ _ hb ?_
  intro c zi hc
  refine foldl_invariant (fun (c : BgBuf α × α) => P c.1.bgU) _ _ _ hc ?_
  intro c zmu hc
  dsimp only
  split
  · rename_i hw
    exact hdiv _ _ _ _ _ hw hc
  · exact hc

theorem finishReflectivity_invariant (P : List α → Prop) (env : Env α)
    (d : VarDriverXYZ α)
    (hdiv : ∀ a bgI bgJ bgK w, w ≠ 0 → P a → P (divAt a (bIndex d bgI bgJ bgK + 6) w))
    (st : ObLoop α) (hb : P st.buf.bgU) :
    P (finishReflectivity env d st).buf.bgU := by
  unfold finishReflectivity
  refine foldl_invariant (fun (c : ObLoop α) => P c.buf.bgU) _ _ _ hb ?_
  intro c xi hc
  refine foldl_invariant (fun (c : ObLoop α) => P c.buf.bgU) _ _ _ hc ?_
  intro c xmu hc
  dsimp only
  refine foldl_invariant (fun (c : ObLoop α) => P c.buf.bgU) _ _ _ hc ?_
  intro c yi hc
  refine foldl_invariant (fun (c : ObLoop α) => P c.buf.bgU) _ _ _ hc ?_
  intro c ymu hc
  dsimp only
  split <;> exact columnReflectivity_invariant P env d hdiv _ _ _ hc

/-- The loop state after the loop over the data files of `preProcessMetObs`. -/
theorem preProcessMetObs_invariant (P : List α → Prop) (env : Env α) (d : VarDriverXYZ α)
    (hadd : ∀ a bgI bgJ bgK v, P a → P (addAt a (bIndex d bgI bgJ bgK + 6) v))
    (hdiv : ∀ a bgI bgJ bgK w, w ≠ 0 → P a → P (divAt a (bIndex d bgI bgJ bgK + 6) w))
    (hb : P (d.bgU.getD [])) :
    P ((preProcessMetObs env d).bgU.getD []) := by
  unfold preProcessMetObs
  simp only [Option.getD_some]
  apply finishReflectivity_invariant P env d hdiv
  exact foldl_invariant (fun (c : ObLoop α × Int) => P c.1.buf.bgU) _ _ _ hb
    (fun c x hc => processFile_invariant P env d hadd c x hc)

theorem bIndex_eq (d : VarDriverXYZ α) (hn : d.numVars = 7) (bgI bgJ bgK : Int) :
    bIndex d bgI bgJ bgK =
      7 * ((d.idim - 1) * 2 * (d.jdim - 1) * 2 * bgK + (d.idim - 1) * 2 * bgJ + bgI) := by
  unfold bIndex
  rw [hn]
  ring

theorem zeroOutsideSlot6_addAt (d : VarDriverXYZ α) (hn : d.numVars = 7) (a : List α)
    (bgI bgJ bgK : Int) (v : α) (h : ZeroOutsideSlot6 a) :
    ZeroOutsideSlot6 (addAt a (bIndex d bgI bgJ bgK + 6) v) := by
  intro i hi
  rw [getD_addAt, bIndex_eq d hn, if_neg (by omega)]
  exact h i hi

theorem zeroOutsideSlot6_divAt (d : VarDriverXYZ α) (hn : d.numVars = 7) (a : List α)
    (bgI bgJ bgK : Int) (w : α) (h : ZeroOutsideSlot6 a) :
    ZeroOutsideSlot6 (divAt a (bIndex d bgI bgJ bgK + 6) w) := by
  intro i hi
  rw [getD_divAt, bIndex_eq d hn, if_neg (by omega)]
  exact h i hi

theorem findReference_other (q : QtConv α) (reftime : Option Int) (config : ConfigHash)
    (key : String) (h1 : key ≠ "reflat") (h2 : key ≠ "reflon") (h3 : key ≠ "reftime")
    (frames : List (Frame α)) :
    ((findReference q reftime config frames).getD config) key = config key := by
  induction frames with
  | nil => rfl
  | cons f fs ih =>
    unfold findReference
    split
    · simp [ConfigHash.insert, h1, h2, h3]
    · exact ih

theorem referenceConfig_other (env : Env α) (config : ConfigHash) (key : String)
    (h1 : key ≠ "reflat") (h2 : key ≠ "reflon") (h3 : key ≠ "reftime") :
    referenceConfig env config key = config key :=
  findReference_other env.qt _ config key h1 h2 h3 env.readFrameCenters

/-- A run of `initialize` that returns `true` has passed the stencil tests, has the
reference state `jordan`, has found its reference time and has gone through
`initializeAnalysis` in the state `referenceState`. -/
theorem initializeDriver_returned_reference (env : Env α) (d st : VarDriverXYZ α)
    (h : initializeDriver env d = Outcome.returned true st) :
    ∃ config, env.parseXMLconfig = some config ∧
      initializeAnalysis env (referenceState env d config)
        (bStateSize (internalGrid env d config)) = Outcome.returned true st := by
  obtain ⟨config, hc, hs⟩ := initializeDriver_returned_true env d st h
  refine ⟨config, hc, ?_⟩
  have hcfg := internalGrid_configHash env d config
  unfold internalGrid at hcfg
  unfold initializeState at hs
  dsimp only at hs
  simp only [allocateBackground, hcfg] at hs
  split at hs
  · split at hs
    · rename_i c' hc'
      simp only [referenceState, referenceConfig, allocateBackground, internalGrid, hc',
        Option.getD_some]
      exact hs
    · cases hs
  · cases hs

/-- A radar record inside the time window and the domain grids its reflectivity with
the radius `1.25 * xincr` around its position. -/
theorem processMetOb_radar (env : Env α) (d : VarDriverXYZ α) (st : ObLoop α)
    (metOb : MetObs α)
    (ht : startTime d.frameVector ≤ metOb.time ∧ metOb.time ≤ endTime d.frameVector ∧
      metOb.time - startTime d.frameVector ≤ (d.frameVector.length : Int))
    (hin : obInDomain d (metObPosition env d metOb).1 (metObPosition env d metOb).2.1
      (metObPosition env d metOb).2.2 = true)
    (hr : metOb.obType = ObType.radar) :
    (processMetOb env d st metOb).buf =
      gridReflectivity env d
        (5 / 4 * env.qt.toFloat (d.configHash "xincr") * env.libm.sqrt 2)
        (5 / 4 * env.qt.toFloat (d.configHash "xincr") *
          (5 / 4 * env.qt.toFloat (d.configHash "xincr")))
        (env.libm.pow 10 (metOb.reflectivity * (1 / 10)))
        (griddedReflectivity env (d.configHash "gridreflectivity") metOb.reflectivity
          metOb.altitude (env.getReferenceVariable RefVar.rhoaref metOb.altitude))
        (metObPosition env d metOb).1 (metObPosition env d metOb).2.1
        (metObPosition env d metOb).2.2 st.buf := by
  unfold metObPosition at hin
  unfold processMetOb
  dsimp only
  rw [if_neg (by omega), if_neg (by omega), if_neg (by rw [hin]; simp)]
  simp only [hr, radarObs, metObPosition]

/-! ### The run on the radar gate -/

theorem initializeDriver_no_background_cost (env : Env α) (d : VarDriverXYZ α)
    (config : ConfigHash) (hparse : env.parseXMLconfig = some config)
    (hstencil : 4 ≤ (configuredGrid env d config).idim ∧
        4 ≤ (configuredGrid env d config).jdim ∧
        4 ≤ (configuredGrid env d config).kdim)
    (href : config "refstate" = "jordan")
    (hfind : (findReference env.qt (env.qt.timeFromString (config "reftime")) config
      env.readFrameCenters).isSome = true)
    (hload : env.qt.toInt (referenceConfig env config "load_background") = 0) :
    (initializeDriver env d).value = some true ∧
    (initializeDriver env d).state.obVector =
      (finishReflectivity env (referenceState env d config)
        (filesState env (referenceState env d config))).obVector ∧
    ∃ cost, (initializeDriver env d).state.obCostXYZ = some cost ∧
      cost.bgU = (finishReflectivity env (referenceState env d config)
        (filesState env (referenceState env d config))).buf.bgU ∧
      cost.obs = loadObsArray d.numVars (initializeDriver env d).state.obVector := by
  rw [initializeDriver_of_no_background env d config hparse hstencil href hfind hload]
  refine ⟨rfl, rfl, _, rfl, rfl, ?_⟩
  show loadObsArray (referenceState env d config).numVars _ = _
  have : (referenceState env d config).numVars = d.numVars := internalGrid_numVars env d config
  rw [this]
  rfl
theorem foldl_head {β γ : Type} (Q : β → Prop) (f : β → γ → β) (x : γ) (l : List γ)
    (b : β) (h0 : Q (f b x)) (hf : ∀ b x, Q b → Q (f b x)) : Q ((x :: l).foldl f b) := by
  rw [List.foldl_cons]
  exact foldl_invariant Q f l (f b x) h0 hf

theorem cellRange_cons (dim : Int) (h : 2 ≤ dim) :
    cellRange dim = 0 :: (List.range ((dim - 1).toNat - 1)).map Nat.succ := by
  unfold cellRange
  have : (dim - 1).toNat = ((dim - 1).toNat - 1) + 1 := by omega
  rw [this, List.range_succ_eq_map]
  simp

/-- The pseudo observation of the first mish column `(xi, xmu, yi, ymu) = (0, -1, 0, -1)`
is in the observation list after "Finish reflectivity interpolation" when the column
has a highest positive level strictly between 0 and `kmax` and `use_dbz_pseudow` is
set. -/
theorem finishReflectivity_first_column (env : Env α) (d : VarDriverXYZ α) (st : ObLoop α)
    (hi : 2 ≤ d.idim) (hj : 2 ≤ d.jdim)
    (hc : 0 < (columnReflectivity env d (mishIndex 0 (-1)) (mishIndex 0 (-1)) st.buf).2 ∧
      (columnReflectivity env d (mishIndex 0 (-1)) (mishIndex 0 (-1)) st.buf).2 < d.kmax ∧
      env.qt.toInt (d.configHash "use_dbz_pseudow") ≠ 0) :
    { pseudoWOb env d with
      cartesianX := mishPos env.libm d.imin d.iincr 0 (-1)
      cartesianY := mishPos env.libm d.jmin d.jincr 0 (-1)
      altitude := (columnReflectivity env d (mishIndex 0 (-1)) (mishIndex 0 (-1)) st.buf).2 }
      ∈ (finishReflectivity env d st).obVector := by
  unfold finishReflectivity
  rw [cellRange_cons d.idim hi, cellRange_cons d.jdim hj]
  have hstep : ∀ (xi : Nat) (xmu : Int) (yi : Nat) (ymu : Int) (c : ObLoop α),
      { pseudoWOb env d with
        cartesianX := mishPos env.libm d.imin d.iincr 0 (-1)
        cartesianY := mishPos env.libm d.jmin d.jincr 0 (-1)
        altitude := (columnReflectivity env d (mishIndex 0 (-1)) (mishIndex 0 (-1))
          st.buf).2 } ∈ c.obVector →
      { pseudoWOb env d with
        cartesianX := mishPos env.libm d.imin d.iincr 0 (-1)
        cartesianY := mishPos env.libm d.jmin d.jincr 0 (-1)
        altitude := (columnReflectivity env d (mishIndex 0 (-1)) (mishIndex 0 (-1))
          st.buf).2 } ∈
        (if (columnReflectivity env d (mishIndex xi xmu) (mishIndex yi ymu) c.buf).2 > 0 ∧
            (columnReflectivity env d (mishIndex xi xmu) (mishIndex yi ymu) c.buf).2 < d.kmax ∧
            env.qt.toInt (d.configHash "use_dbz_pseudow") ≠ 0 then
          ({ c with
            buf := (columnReflectivity env d (mishIndex xi xmu) (mishIndex yi ymu) c.buf).1,
            obVector := c.obVector ++
              [{ pseudoWOb env d with
                  cartesianX := mishPos env.libm d.imin d.iincr xi xmu,
                  cartesianY := mishPos env.libm d.jmin d.jincr yi ymu,
                  altitude := (columnReflectivity env d (mishIndex xi xmu)
                    (mishIndex yi ymu) c.buf).2 }] } : ObLoop α)
        else { c with
          buf := (columnReflectivity env d (mishIndex xi xmu) (mishIndex yi ymu)
            c.buf).1 }).obVector := by
    intro xi xmu yi ymu c hm
    split
    · exact List.mem_append_left _ hm
    · exact hm
  have hy : ∀ (xi : Nat) (xmu : Int) (l : List Nat) (c : ObLoop α),
      _ ∈ c.obVector → _ ∈ (l.foldl _ c).obVector := fun xi xmu l c hm =>
    foldl_invariant (fun (c : ObLoop α) => _ ∈ c.obVector) _ l c hm
      (fun c yi hm => foldl_invariant (fun (c : ObLoop α) => _ ∈ c.obVector) _ muValues c hm
        (fun c ymu hm => hstep xi xmu yi ymu c hm))
  refine foldl_head (fun (c : ObLoop α) => _ ∈ c.obVector) _ _ _ _ ?_ ?_
  · refine foldl_head (fun (c : ObLoop α) => _ ∈ c.obVector) _ _ _ _ ?_ ?_
    · dsimp only
      refine foldl_head (fun (c : ObLoop α) => _ ∈ c.obVector) _ _ _ _ ?_ ?_
      · refine foldl_head (fun (c : ObLoop α) => _ ∈ c.obVector) _ _ _ _ ?_ ?_
        · dsimp only
          rw [if_pos hc]
          simp
        · intro c ymu hm
          exact hstep _ _ _ _ c hm
      · intro c yi hm
        exact foldl_invariant (fun (c : ObLoop α) => _ ∈ c.obVector) _ muValues c hm
          (fun c ymu hm => hstep _ _ _ _ c hm)
    · intro c xmu hm
      exact hy 0 xmu _ c hm
  · intro c xi hm
    exact foldl_invariant (fun (c : ObLoop α) => _ ∈ c.obVector) _ muValues c hm
      (fun c xmu hm => hy xi xmu _ c hm)

theorem radarGridded_entry : radarGridded.bgU.getD 13 0 ≠ 0 := by decide!

theorem radar_files : (filesState radarEnv radarStart).buf = radarGridded :=
  processMetOb_radar radarEnv radarStart
    ⟨radarStart.obVector, ⟨radarStart.bgU.getD [], radarStart.bgWeights.getD []⟩,
      radarStart.cout⟩ demoRadarOb ⟨by decide!, by decide!, by decide!⟩ (by decide!) rfl

theorem radar_first_column :
    0 < (columnReflectivity radarEnv radarStart (mishIndex 0 (-1)) (mishIndex 0 (-1))
      radarGridded).2 ∧
    (columnReflectivity radarEnv radarStart (mishIndex 0 (-1)) (mishIndex 0 (-1))
      radarGridded).2 < radarStart.kmax ∧
    radarEnv.qt.toInt (radarStart.configHash "use_dbz_pseudow") ≠ 0 := by
  decide!

/-! ### The stand-ins of the concrete environment -/

theorem rational_pythagoras (x : ℚ) : rationalSin x ^ 2 + rationalCos x ^ 2 = 1 := by
  unfold rationalSin rationalCos
  have h : (1 + x / 2 * (x / 2)) ≠ 0 := by nlinarith [sq_nonneg (x / 2)]
  rw [div_pow, div_pow, ← add_div, div_eq_one_iff_eq (pow_ne_zero 2 h)]
  ring

/-! ### The transform pairs -/

theorem scatter_foldl {n m : Nat} (basis : Fin n → Fin m → α) (y : Fin m → α)
    (l : List (Fin m)) (init : Fin n → α) (s : Fin n) :
    (l.foldl (fun acc t => fun s => acc s + basis s t * y t) init) s =
      init s + (l.map (fun t => basis s t * y t)).sum := by
  induction l generalizing init with
  | nil => simp
  | cons t l ih =>
    rw [List.foldl_cons, ih]
    simp [add_assoc]

theorem synthesizeTranspose_apply {n m : Nat} (basis : Fin n → Fin m → α) (y : Fin m → α)
    (s : Fin n) : synthesizeTranspose basis y s = ∑ t, basis s t * y t := by
  unfold synthesizeTranspose
  rw [scatter_foldl, Fin.sum_univ_def]
  simp

theorem synthesize_adjoint {n m : Nat} (basis : Fin n → Fin m → α) (x : Fin n → α)
    (y : Fin m → α) :
    innerProduct (synthesize basis x) y = innerProduct x (synthesizeTranspose basis y) := by
  unfold innerProduct
  simp only [synthesizeTranspose_apply, synthesize, Finset.sum_mul, Finset.mul_sum]
  rw [Finset.sum_comm]
  refine Finset.sum_congr rfl (fun s _ => Finset.sum_congr rfl (fun t _ => ?_))
  ring

/-! ### Single-variable tuples -/

theorem pushSingle_singleWeight (V : Nat → α) (base : List (Observation α))
    (s : Observation α × List (Observation α)) (i : Nat) (v e : α) (hi : i < 6)
    (hv : v = V i) (h : SingleWeightState V base s) :
    SingleWeightState V base (pushSingle s i v e) := by
  obtain ⟨hz, l, hl, hq⟩ := h
  unfold pushSingle
  refine ⟨?_, l ++ [((s.1.setWeight 1 i).setOb v).setError e], ?_, ?_⟩
  · intro j hj
    simp only [Observation.setWeight, Observation.setOb, Observation.setError]
    split
    · rfl
    · simp [hz j hj]
  · simp [hl]
  · intro ob hob
    rcases List.mem_append.mp hob with hob | hob
    · exact hq ob hob
    · simp only [List.mem_singleton] at hob
      subst hob
      refine ⟨i, hi, ?_, ?_, ?_⟩
      · simp [Observation.setWeight, Observation.setOb, Observation.setError]
      · intro j hj hne
        simp [Observation.setWeight, Observation.setOb, Observation.setError, hne, hz j hj]
      · simp [Observation.setWeight, Observation.setOb, Observation.setError, hv]

theorem ite_singleWeight (V : Nat → α) (base : List (Observation α)) (c : Prop)
    [Decidable c] (s t : Observation α × List (Observation α))
    (hs : SingleWeightState V base s) (ht : SingleWeightState V base t) :
    SingleWeightState V base (if c then t else s) := by
  split
  · exact ht
  · exact hs

theorem optPush_singleWeight (V : Nat → α) (base : List (Observation α)) (c : Prop)
    [Decidable c] (s : Observation α × List (Observation α)) (i : Nat) (v e : α)
    (hi : i < 6) (hv : v = V i) (h : SingleWeightState V base s) :
    SingleWeightState V base (if c then pushSingle s i v e else s) :=
  ite_singleWeight V base c _ _ h (pushSingle_singleWeight V base s i v e hi hv h)

theorem optPush2_singleWeight (V : Nat → α) (base : List (Observation α)) (c : Prop)
    [Decidable c] (s : Observation α × List (Observation α)) (i i2 : Nat) (v e v2 e2 : α)
    (hi : i < 6) (hv : v = V i) (hi2 : i2 < 6) (hv2 : v2 = V i2)
    (h : SingleWeightState V base s) :
    SingleWeightState V base
      (if c then pushSingle (pushSingle s i v e) i2 v2 e2 else s) :=
  ite_singleWeight V base c _ _ h
    (pushSingle_singleWeight V base _ i2 v2 e2 hi2 hv2
      (pushSingle_singleWeight V base s i v e hi hv h))

theorem sondeObs_singleWeight (env : Env α) (d : VarDriverXYZ α) (metOb : MetObs α)
    (hscat : ¬ (metOb.obType = ObType.qscat ∨ metOb.obType = ObType.ascat ∨
      metOb.obType = ObType.AMV))
    (wError : α) (base : List (Observation α)) (s : Observation α × List (Observation α))
    (h : SingleWeightState (singleObValue env d metOb) base s) :
    SingleWeightState (singleObValue env d metOb) base
      (sondeObs env metOb (frameAt d.frameVector (metOb.time - startTime d.frameVector)).umean
        (frameAt d.frameVector (metOb.time - startTime d.frameVector)).vmean
        (env.getReferenceVariable RefVar.rhoaref metOb.altitude)
        (env.getReferenceVariable RefVar.qvbhypref metOb.altitude)
        (env.getReferenceVariable RefVar.tempref metOb.altitude) wError s) := by
  unfold sondeObs
  dsimp only
  refine optPush_singleWeight _ _ _ _ 5 _ _ (by norm_num) ?_
    (optPush_singleWeight _ _ _ _ 4 _ _ (by norm_num) ?_
      (optPush_singleWeight _ _ _ _ 3 _ _ (by norm_num) ?_
        (optPush_singleWeight _ _ _ _ 2 _ _ (by norm_num) ?_
          (optPush2_singleWeight _ _ _ _ 0 1 _ _ _ _ (by norm_num) ?_ (by norm_num) ?_ h))))
    <;> simp [singleObValue, hscat]

theorem scatObs_singleWeight (env : Env α) (d : VarDriverXYZ α) (metOb : MetObs α)
    (hscat : metOb.obType = ObType.qscat ∨ metOb.obType = ObType.ascat ∨
      metOb.obType = ObType.AMV)
    (err : α) (base : List (Observation α)) (s : Observation α × List (Observation α))
    (h : SingleWeightState (singleObValue env d metOb) base s) :
    SingleWeightState (singleObValue env d metOb) base
      (scatObs metOb (frameAt d.frameVector (metOb.time - startTime d.frameVector)).umean
        (frameAt d.frameVector (metOb.time - startTime d.frameVector)).vmean err s) := by
  unfold scatObs
  dsimp only
  refine optPush2_singleWeight _ _ _ _ 0 1 _ _ _ _ (by norm_num) ?_ (by norm_num) ?_ h
    <;> simp [singleObValue, hscat]

theorem blendByHeight_clamp (H r s : α) :
    blendByHeight H r s = r + (s - r) * max 0 (min 1 ((H - 4800) / 1000)) := by
  unfold blendByHeight
  dsimp only
  by_cases h1 : H < 4800
  · have h2 : ¬ H > 4800 + 1000 := by linarith
    rw [if_pos h1, if_neg h2]
    have : (H - 4800) / 1000 ≤ 0 := by
      apply div_nonpos_of_nonpos_of_nonneg <;> linarith
    rw [max_eq_left (le_trans (min_le_right _ _) this)]
    ring
  · rw [if_neg h1]
    by_cases h2 : H > 4800 + 1000
    · rw [if_pos h2]
      have : 1 ≤ (H - 4800) / 1000 := by
        rw [le_div_iff₀ (by norm_num)]; linarith
      rw [min_eq_left this, max_eq_right (by norm_num)]
      ring
    · rw [if_neg h2]
      have a : 0 ≤ (H - 4800) / 1000 := by
        apply div_nonneg <;> linarith
      have b : (H - 4800) / 1000 ≤ 1 := by
        rw [div_le_iff₀ (by norm_num)]; linarith
      rw [min_eq_right b, max_eq_right a]
      ring

theorem blendByReflectivity_clamp (Z rain snow : α) :
    blendByReflectivity Z rain snow =
      snow + (rain - snow) * max 0 (min 1 ((Z - 20) / 10)) := by
  unfold blendByReflectivity
  by_cases h1 : Z > 20 ∧ Z ≤ 30
  · rw [if_pos h1]
    dsimp only
    have a : 0 ≤ (Z - 20) / 10 := by
      apply div_nonneg <;> linarith [h1.1]
    have b : (Z - 20) / 10 ≤ 1 := by
      rw [div_le_iff₀ (by norm_num)]; linarith [h1.2]
    rw [min_eq_right b, max_eq_right a]
    have : (Z - 20) / 10 + (1 - (Z - 20) / 10) = 1 := by ring
    rw [this, div_one]
    ring
  · rw [if_neg h1]
    by_cases h2 : Z > 30
    · rw [if_pos h2]
      have : 1 ≤ (Z - 20) / 10 := by
        rw [le_div_iff₀ (by norm_num)]; linarith
      rw [min_eq_left this, max_eq_right (by norm_num)]
      ring
    · rw [if_neg h2]
      have hz : Z ≤ 20 := by
        by_contra hc
        exact h1 ⟨lt_of_not_le hc, le_of_not_lt h2⟩
      have : (Z - 20) / 10 ≤ 0 := by
        apply div_nonpos_of_nonpos_of_nonneg <;> linarith
      rw [max_eq_left (le_trans (min_le_right _ _) this)]
      ring

theorem clamp_between (a b t : α) (h0 : 0 ≤ t) (h1 : t ≤ 1) :
    min a b ≤ a + (b - a) * t ∧ a + (b - a) * t ≤ max a b := by
  rcases le_total a b with h | h
  · rw [min_eq_left h, max_eq_right h]
    constructor <;> nlinarith
  · rw [min_eq_right h, max_eq_left h]
    constructor <;> nlinarith

theorem clamp_unit (t : α) : 0 ≤ max 0 (min 1 t) ∧ max 0 (min 1 t) ≤ 1 :=
  ⟨le_max_left _ _, max_le (by norm_num) (min_le_left _ _)⟩

theorem mishIndex_neg (i : Nat) : mishIndex i (-1) = 2 * (i : Int) := by
  unfold mishIndex
  norm_num
  ring

theorem mishIndex_pos (i : Nat) : mishIndex i 1 = 2 * (i : Int) + 1 := by
  unfold mishIndex
  norm_num
  ring

theorem mishPos_inside (m : Libm α) (min incr : α) (i : Nat) (mu : Int)
    (hmu : mu ∈ muValues) (hs0 : 0 < m.sqrt (1 / 3)) (hs1 : m.sqrt (1 / 3) < 1)
    (hincr : 0 < incr) :
    min + (i : α) * incr < mishPos m min incr i mu ∧
      mishPos m min incr i mu < min + ((i : α) + 1) * incr := by
  have hmu2 : mu = -1 ∨ mu = 1 := by simpa [muValues] using hmu
  unfold mishPos
  rcases hmu2 with h | h <;> subst h <;> push_cast <;> constructor <;> nlinarith

theorem mishPos_lt (m : Libm α) (min incr : α) (i j : Nat) (mu nu : Int)
    (hmu : mu ∈ muValues) (hnu : nu ∈ muValues) (hs0 : 0 < m.sqrt (1 / 3))
    (hs1 : m.sqrt (1 / 3) < 1) (hincr : 0 < incr)
    (h : mishIndex i mu < mishIndex j nu) :
    mishPos m min incr i mu < mishPos m min incr j nu := by
  by_cases hij : i = j
  · subst hij
    have hmu2 : mu = -1 ∨ mu = 1 := by simpa [muValues] using hmu
    have hnu2 : nu = -1 ∨ nu = 1 := by simpa [muValues] using hnu
    rcases hmu2 with a | a <;> rcases hnu2 with b | b <;> subst a <;> subst b
    · exact absurd h (lt_irrefl _)
    · unfold mishPos
      push_cast
      nlinarith
    · rw [mishIndex_neg, mishIndex_pos] at h
      omega
    · exact absurd h (lt_irrefl _)
  · have hlt : i + 1 ≤ j := by
      have hmu2 : mu = -1 ∨ mu = 1 := by simpa [muValues] using hmu
      have hnu2 : nu = -1 ∨ nu = 1 := by simpa [muValues] using hnu
      rcases hmu2 with a | a <;> rcases hnu2 with b | b <;> subst a <;> subst b <;>
        simp only [mishIndex_neg, mishIndex_pos] at h <;> omega
    have h1 := (mishPos_inside m min incr i mu hmu hs0 hs1 hincr).2
    have h2 := (mishPos_inside m min incr j nu hnu hs0 hs1 hincr).1
    have h3 : ((i : α) + 1) ≤ (j : α) := by exact_mod_cast hlt
    have h4 : ((i : α) + 1) * incr ≤ (j : α) * incr :=
      mul_le_mul_of_nonneg_right h3 (le_of_lt hincr)
    linarith

theorem mishIndex_injective (i j : Nat) (mu nu : Int) (hmu : mu ∈ muValues)
    (hnu : nu ∈ muValues) (h : mishIndex i mu = mishIndex j nu) : i = j ∧ mu = nu := by
  have hmu2 : mu = -1 ∨ mu = 1 := by simpa [muValues] using hmu
  have hnu2 : nu = -1 ∨ nu = 1 := by simpa [muValues] using hnu
  rcases hmu2 with a | a <;> rcases hnu2 with b | b <;> subst a <;> subst b <;>
    simp only [mishIndex_neg, mishIndex_pos] at h <;> constructor <;> omega

theorem sqrt_third_lt_one (s : α) (hs0 : 0 < s) (hs : s * s = 1 / 3) : s < 1 := by
  by_contra hc
  have h1 : 1 ≤ s := le_of_not_lt hc
  have : 1 ≤ s * s := by nlinarith
  rw [hs] at this
  norm_num at this

theorem runLoop_succ (env : Env α) (d : VarDriverXYZ α) (n : Nat) :
    runLoop env d (n + 1) = runIteration env (runLoop env d n) ((n : Int) + 1) := by
  unfold runLoop
  rw [List.range_succ, List.foldl_append]
  rfl

theorem runLoop_spec (env : Env α) (d : VarDriverXYZ α) (cost : CostFunctionXYZ α)
    (h : d.obCostXYZ = some cost) (n : Nat) :
    (runLoop env d n).obCostXYZ =
        some { cost with calls := iterationCalls n ++ cost.calls } ∧
      (runLoop env d n).cout = iterationLines n ++ d.cout := by
  induction n with
  | zero => exact ⟨h, rfl⟩
  | succ n ih =>
    rw [runLoop_succ]
    obtain ⟨h1, h2⟩ := ih
    constructor
    · simp only [runIteration, updateAnalysisParams, h1]
      rfl
    · simp only [runIteration, updateAnalysisParams, h1, h2]
      rfl

theorem finalize_not_mem_iterationCalls (n : Nat) :
    CostCall.finalize ∉ iterationCalls n := by
  induction n with
  | zero => simp [iterationCalls]
  | succ n ih => simp [iterationCalls, ih]

theorem iterationCalls_length (n : Nat) : (iterationCalls n).length = 3 * n := by
  induction n with
  | zero => rfl
  | succ n ih => simp only [iterationCalls, List.length_cons, ih]; omega

theorem iterationLines_length (n : Nat) : (iterationLines n).length = n := by
  induction n with
  | zero => rfl
  | succ n ih => simp only [iterationLines, List.length_cons, ih]

theorem writeBgTuple_spec (env : Env α) (d : VarDriverXYZ α) (m : Int)
    (st : BgObsLoop α) (n P : Nat) (hn : n < 7) (hp : st.p = (P : Int))
    (hlen : P + 14 ≤ st.bgObs.length) :
    (writeBgTuple env d m st n).p = ((P + 14 : Nat) : Int) ∧
    (writeBgTuple env d m st n).numbgObs = st.numbgObs ∧
    (writeBgTuple env d m st n).bgObs.length = st.bgObs.length ∧
    (∀ j, j < P ∨ P + 14 ≤ j →
      (writeBgTuple env d m st n).bgObs.getD j 0 = st.bgObs.getD j 0) ∧
    ((∀ k, k < 14 → st.bgObs.getD (P + k) 0 = 0) → ∀ k, k < 14 →
      (writeBgTuple env d m st n).bgObs.getD (P + k) 0 = (bgTuple env d m n).getD k 0) := by
  refine ⟨?_, rfl, ?_, ?_, ?_⟩
  · simp only [writeBgTuple, hp]
    push_cast
    rfl
  · simp only [writeBgTuple, setAt_length]
  · intro j hj
    simp only [writeBgTuple, hp]
    repeat rw [getD_setAt, if_neg (by omega)]
  · intro hz k hk
    simp only [writeBgTuple, hp]
    interval_cases n <;> interval_cases k <;>
      simp only [getD_setAt, setAt_length] <;>
      (repeat (first | rw [if_pos (by omega)] | rw [if_neg (by omega)])) <;>
      (first | rw [hz _ (by omega)] | skip) <;>
      simp [bgTuple, List.range, List.range.loop]

theorem writeBgTuples_spec (env : Env α) (d : VarDriverXYZ α) (m : Int) (P : Nat)
    (c : Nat) : ∀ (st : BgObsLoop α), c ≤ 7 → st.p = (P : Int) →
    P + 98 ≤ st.bgObs.length → (∀ j, P ≤ j → st.bgObs.getD j 0 = 0) →
    ((List.range c).foldl (writeBgTuple env d m) st).p = ((P + 14 * c : Nat) : Int) ∧
    ((List.range c).foldl (writeBgTuple env d m) st).numbgObs = st.numbgObs ∧
    ((List.range c).foldl (writeBgTuple env d m) st).bgObs.length = st.bgObs.length ∧
    (∀ j, j < P ∨ P + 14 * c ≤ j →
      ((List.range c).foldl (writeBgTuple env d m) st).bgObs.getD j 0
        = st.bgObs.getD j 0) ∧
    (∀ n, n < c → ∀ k, k < 14 →
      ((List.range c).foldl (writeBgTuple env d m) st).bgObs.getD (P + 14 * n + k) 0
        = (bgTuple env d m n).getD k 0) := by
  induction c with
  | zero =>
    intro st _ hp _ _
    exact ⟨by simpa using hp, rfl, rfl, fun _ _ => rfl,
      fun n hn => absurd hn (Nat.not_lt_zero n)⟩
  | succ c ih =>
    intro st hc hp hlen hz
    obtain ⟨i1, i2, i3, i4, i5⟩ := ih st (by omega) hp hlen hz
    rw [List.range_succ, List.foldl_append]
    simp only [List.foldl_cons, List.foldl_nil]
    obtain ⟨w1, w2, w3, w4, w5⟩ := writeBgTuple_spec env d m
      ((List.range c).foldl (writeBgTuple env d m) st) c (P + 14 * c) (by omega) i1
      (by omega)
    refine ⟨?_, ?_, ?_, ?_, ?_⟩
    · rw [w1]
      congr 1
    · rw [w2, i2]
    · rw [w3, i3]
    · intro j hj
      rw [w4 j (by omega), i4 j (by omega)]
    · intro n hn k hk
      by_cases hnc : n = c
      · subst hnc
        have := w5 (fun k' hk' => by
          rw [i4 _ (Or.inr (by omega))]
          exact hz _ (by omega)) k hk
        rw [← this]
      · have hn2 : n < c := by omega
        rw [w4 _ (Or.inl (by omega))]
        exact i5 n hn2 k hk

theorem adjustBackgroundRecord_inside (env : Env α) (d : VarDriverXYZ α)
    (st : BgObsLoop α) (m : Int) (hv : d.numVars = 7)
    (h : bgRecordInDomain env d m = true) :
    adjustBackgroundRecord env d st m = (List.range 7).foldl (writeBgTuple env d m) st := by
  unfold bgRecordInDomain at h
  have h2 := of_decide_eq_true h
  unfold adjustBackgroundRecord
  simp only []
  rw [if_neg h2, hv]
  rfl

theorem adjustBackgroundRecord_outside (env : Env α) (d : VarDriverXYZ α)
    (st : BgObsLoop α) (m : Int) (h : bgRecordInDomain env d m = false) :
    adjustBackgroundRecord env d st m = { st with numbgObs := st.numbgObs - 7 } := by
  unfold bgRecordInDomain at h
  have h2 := of_decide_eq_false h
  unfold adjustBackgroundRecord
  simp only []
  rw [if_pos (not_not.mp h2)]

theorem adjustBackgroundLoop_spec (env : Env α) (d : VarDriverXYZ α) (hv : d.numVars = 7)
    (ms : List Int) : ∀ (st : BgObsLoop α) (c : Nat), st.p = ((98 * c : Nat) : Int) →
    98 * (c + ms.length) ≤ st.bgObs.length → (∀ j, 98 * c ≤ j → st.bgObs.getD j 0 = 0) →
    (ms.foldl (adjustBackgroundRecord env d) st).numbgObs + 7 * (ms.length : Int)
      = st.numbgObs + 7 * ((ms.filter (bgRecordInDomain env d)).length : Int) ∧
    (ms.foldl (adjustBackgroundRecord env d) st).bgObs.length = st.bgObs.length ∧
    (∀ j, j < 98 * c →
      (ms.foldl (adjustBackgroundRecord env d) st).bgObs.getD j 0 = st.bgObs.getD j 0) ∧
    (∀ q (hq : q < (ms.filter (bgRecordInDomain env d)).length) n, n < 7 → ∀ k, k < 14 →
      (ms.foldl (adjustBackgroundRecord env d) st).bgObs.getD
          (98 * (c + q) + 14 * n + k) 0
        = (bgTuple env d ((ms.filter (bgRecordInDomain env d)).get ⟨q, hq⟩) n).getD k 0) := by
  induction ms with
  | nil =>
    intro st c _ _ _
    exact ⟨rfl, rfl, fun _ _ => rfl, fun q hq => absurd hq (Nat.not_lt_zero q)⟩
  | cons m ms ih =>
    intro st c hp hlen hz
    rw [List.foldl_cons]
    simp only [List.length_cons] at hlen
    by_cases hin : bgRecordInDomain env d m = true
    · rw [adjustBackgroundRecord_inside env d st m hv hin]
      obtain ⟨w1, w2, w3, w4, w5⟩ := writeBgTuples_spec env d m (98 * c) 7 st
        (le_refl 7) hp (by omega) hz
      obtain ⟨i1, i2, i3, i4⟩ := ih ((List.range 7).foldl (writeBgTuple env d m) st)
        (c + 1) (by rw [w1]; congr 1) (by rw [w3]; omega)
        (fun j hj => by rw [w4 j (Or.inr (by omega))]; exact hz j (by omega))
      rw [List.filter_cons_of_pos hin]
      refine ⟨?_, ?_, ?_, ?_⟩
      · simp only [List.length_cons]
        push_cast
        rw [w2] at i1
        omega
      · rw [i2, w3]
      · intro j hj
        rw [i3 j (by omega), w4 j (Or.inl hj)]
      · intro q hq n hn k hk
        cases q with
        | zero =>
          rw [i3 _ (by omega)]
          have := w5 n hn k hk
          simp only [List.get_eq_getElem, List.getElem_cons_zero]
          rw [← this]
          congr 1
        | succ q =>
          simp only [List.length_cons] at hq
          have := i4 q (by omega) n hn k hk
          simp only [List.get_eq_getElem, List.getElem_cons_succ] at this ⊢
          rw [← this]
          congr 1
          omega
    · have hout : bgRecordInDomain env d m = false := by
        cases hb : bgRecordInDomain env d m
        · rfl
        · exact absurd hb hin
      rw [adjustBackgroundRecord_outside env d st m hout]
      obtain ⟨i1, i2, i3, i4⟩ := ih { st with numbgObs := st.numbgObs - 7 } c hp
        (by simp only []; omega) hz
      rw [List.filter_cons_of_neg hin]
      refine ⟨?_, i2, i3, i4⟩
      simp only [List.length_cons]
      push_cast
      simp only [] at i1
      omega

theorem recordOffsets_length (R : Nat) : (recordOffsets (11 * R)).length = R := by
  unfold recordOffsets
  rw [List.length_map, List.length_range]
  omega

theorem bgTuple_length (env : Env α) (d : VarDriverXYZ α) (m : Int) (n : Nat) :
    (bgTuple env d m n).length = 14 := by
  simp [bgTuple]

theorem getD_replicate_zero (n j : Nat) : (List.replicate n (0 : α)).getD j 0 = 0 := by
  simp only [List.getD_eq_getElem?_getD]
  by_cases h : j < n
  · simp [List.getElem?_replicate, h]
  · simp [List.getElem?_replicate, h]

theorem truncToInt_bracket (min max incr : α) (hincr : 0 < incr) (hle : min ≤ max) :
    0 ≤ truncToInt ((max - min) / incr) ∧
    min + (truncToInt ((max - min) / incr) : α) * incr ≤ max ∧
    max < min + ((truncToInt ((max - min) / incr) : α) + 1) * incr ∧
    (min + (truncToInt ((max - min) / incr) : α) * incr = max ↔
      ∃ n : Int, max - min = (n : α) * incr) := by
  have hx : 0 ≤ (max - min) / incr := div_nonneg (by linarith) (le_of_lt hincr)
  have ht : truncToInt ((max - min) / incr) = ⌊(max - min) / incr⌋ := by
    unfold truncToInt
    rw [if_pos hx]
  rw [ht]
  have h1 : (⌊(max - min) / incr⌋ : α) ≤ (max - min) / incr := Int.floor_le _
  have h2 : (max - min) / incr < (⌊(max - min) / incr⌋ : α) + 1 := Int.lt_floor_add_one _
  rw [le_div_iff₀ hincr] at h1
  rw [div_lt_iff₀ hincr] at h2
  refine ⟨Int.floor_nonneg.mpr hx, by linarith, by linarith, ?_⟩
  constructor
  · intro h
    exact ⟨⌊(max - min) / incr⌋, by linarith⟩
  · rintro ⟨n, hn⟩
    have : (max - min) / incr = (n : α) := by
      rw [hn, mul_div_assoc, div_self (ne_of_gt hincr), mul_one]
    rw [this, Int.floor_intCast]
    linarith

theorem truncToInt_extended (min max incr : α) (hincr : 0 < incr) (hle : min ≤ max) :
    truncToInt (((max + incr) - (min - incr)) / incr) =
      truncToInt ((max - min) / incr) + 2 := by
  have hx : 0 ≤ (max - min) / incr := div_nonneg (by linarith) (le_of_lt hincr)
  have he : ((max + incr) - (min - incr)) / incr = (max - min) / incr + 2 := by
    field_simp
    ring
  have hx2 : 0 ≤ ((max + incr) - (min - incr)) / incr := by rw [he]; linarith
  unfold truncToInt
  rw [if_pos hx, if_pos hx2, he]
  exact Int.floor_add_nat _ 2

theorem pushSingle_exists (P : Observation α → Prop)
    (s : Observation α × List (Observation α)) (i : Nat) (v e : α)
    (h : ∃ ob ∈ s.2, P ob) : ∃ ob ∈ (pushSingle s i v e).2, P ob := by
  obtain ⟨ob, hm, hp⟩ := h
  exact ⟨ob, by simp [pushSingle, hm], hp⟩

theorem pushSingle_pair_v (s : Observation α × List (Observation α)) (a b e : α) :
    ∃ ob ∈ (pushSingle (pushSingle s 0 a e) 1 b e).2, ob.weight 1 = 1 ∧ ob.ob = b :=
  ⟨_, by simp only [pushSingle]; exact List.mem_append_right _ (List.mem_singleton_self _),
    by simp [Observation.setWeight, Observation.setError, Observation.setOb],
    by simp [Observation.setWeight, Observation.setError, Observation.setOb]⟩

theorem ite_pushSingle_exists (P : Observation α → Prop) (c : Prop) [Decidable c]
    (s : Observation α × List (Observation α)) (i : Nat) (v e : α)
    (h : ∃ ob ∈ s.2, P ob) : ∃ ob ∈ (if c then pushSingle s i v e else s).2, P ob := by
  by_cases hc : c
  · rw [if_pos hc]
    exact pushSingle_exists P s i v e h
  · rw [if_neg hc]
    exact h

theorem sondeObs_v (env : Env α) (metOb : MetObs α) (Um Vm rhoBar qBar tBar wError : α)
    (s : Observation α × List (Observation α))
    (hu : metOb.cartesianUwind ≠ -999) (hrho : metOb.moistDensity ≠ -999) :
    ∃ ob ∈ (sondeObs env metOb Um Vm rhoBar qBar tBar wError s).2,
      ob.weight 1 = 1 ∧ ob.ob = metOb.moistDensity * (metOb.cartesianVwind - Vm) := by
  have base : ∃ ob ∈ (if metOb.cartesianUwind ≠ -999 ∧ metOb.moistDensity ≠ -999 then
      pushSingle (pushSingle s 0 (metOb.moistDensity * (metOb.cartesianUwind - Um)) 1) 1
        (metOb.moistDensity * (metOb.cartesianVwind - Vm)) 1 else s).2,
      ob.weight 1 = 1 ∧ ob.ob = metOb.moistDensity * (metOb.cartesianVwind - Vm) := by
    rw [if_pos ⟨hu, hrho⟩]
    exact pushSingle_pair_v _ _ _ _
  exact ite_pushSingle_exists _ _ _ _ _ _ (ite_pushSingle_exists _ _ _ _ _ _
    (ite_pushSingle_exists _ _ _ _ _ _ (ite_pushSingle_exists _ _ _ _ _ _ base)))

theorem scatObs_v (metOb : MetObs α) (Um Vm err : α)
    (s : Observation α × List (Observation α)) (hu : metOb.cartesianUwind ≠ -999) :
    ∃ ob ∈ (scatObs metOb Um Vm err s).2,
      ob.weight 1 = 1 ∧ ob.ob = metOb.cartesianVwind - Vm := by
  unfold scatObs
  dsimp only
  rw [if_pos hu]
  exact pushSingle_pair_v _ _ _ _

theorem radix_unique (m q q' r r' : Int) (hm : 0 < m) (hr : 0 ≤ r ∧ r < m)
    (hr' : 0 ≤ r' ∧ r' < m) (h : m * q + r = m * q' + r') : q = q' ∧ r = r' := by
  have hq : q = q' := by
    by_contra hne
    rcases lt_or_gt_of_ne hne with hlt | hgt
    · have : q + 1 ≤ q' := hlt
      nlinarith
    · have : q' + 1 ≤ q := hgt
      nlinarith
  subst hq
  exact ⟨rfl, by linarith⟩

theorem mishIndex_range (dim : Int) (i : Nat) (mu : Int) (hi : i ∈ cellRange dim)
    (hmu : mu ∈ muValues) : 0 ≤ mishIndex i mu ∧ mishIndex i mu < 2 * (dim - 1) := by
  have hmu2 : mu = -1 ∨ mu = 1 := by simpa [muValues] using hmu
  have hi2 : i < (dim - 1).toNat := by simpa [cellRange] using hi
  rcases hmu2 with h | h <;> subst h
  · rw [mishIndex_neg]
    omega
  · rw [mishIndex_pos]
    omega

theorem mishIndex_surjective (dim I : Int) (h0 : 0 ≤ I) (h1 : I < 2 * (dim - 1)) :
    ∃ i ∈ cellRange dim, ∃ mu ∈ muValues, mishIndex i mu = I := by
  have hmem : (I / 2).toNat ∈ cellRange dim := by
    simp only [cellRange, List.mem_range]
    omega
  rcases Int.emod_two_eq_zero_or_one I with h | h
  · exact ⟨(I / 2).toNat, hmem, -1, by simp [muValues], by rw [mishIndex_neg]; omega⟩
  · exact ⟨(I / 2).toNat, hmem, 1, by simp [muValues], by rw [mishIndex_pos]; omega⟩

theorem radix_range (A B C I J K v : Int) (hA : 1 ≤ A) (hB : 1 ≤ B)
    (hI : 0 ≤ I ∧ I < 2 * A) (hJ : 0 ≤ J ∧ J < 2 * B) (hK : 0 ≤ K ∧ K < 2 * C)
    (hv : 0 ≤ v ∧ v < 7) :
    0 ≤ 7 * A * 2 * B * 2 * K + 7 * A * 2 * J + 7 * I + v ∧
      7 * A * 2 * B * 2 * K + 7 * A * 2 * J + 7 * I + v < 8 * A * B * C * 7 := by
  have hAB : 0 ≤ A * B := mul_nonneg (by omega) (by omega)
  have h1 : 0 ≤ A * B * K := mul_nonneg hAB hK.1
  have h2 : 0 ≤ A * J := mul_nonneg (by omega) hJ.1
  have h3 : A * B * K ≤ A * B * (2 * C - 1) := mul_le_mul_of_nonneg_left (by omega) hAB
  have h4 : A * J ≤ A * (2 * B - 1) := mul_le_mul_of_nonneg_left (by omega) (by omega)
  constructor
  · nlinarith
  · nlinarith

theorem radix_injective (A B I J K v I' J' K' v' : Int) (hA : 1 ≤ A) (hB : 1 ≤ B)
    (hI : 0 ≤ I ∧ I < 2 * A) (hJ : 0 ≤ J ∧ J < 2 * B) (hv : 0 ≤ v ∧ v < 7)
    (hI' : 0 ≤ I' ∧ I' < 2 * A) (hJ' : 0 ≤ J' ∧ J' < 2 * B) (hv' : 0 ≤ v' ∧ v' < 7)
    (h : 7 * A * 2 * B * 2 * K + 7 * A * 2 * J + 7 * I + v =
      7 * A * 2 * B * 2 * K' + 7 * A * 2 * J' + 7 * I' + v') :
    I = I' ∧ J = J' ∧ K = K' ∧ v = v' := by
  obtain ⟨e1, e2⟩ := radix_unique 7 (2 * A * (2 * B * K + J) + I)
    (2 * A * (2 * B * K' + J') + I') v v' (by norm_num) hv hv' (by linarith)
  obtain ⟨e3, e4⟩ := radix_unique (2 * A) (2 * B * K + J) (2 * B * K' + J') I I'
    (by omega) hI hI' e1
  obtain ⟨e5, e6⟩ := radix_unique (2 * B) K K' J J' (by omega) hJ hJ' e3
  exact ⟨e4, e6, e5, e2⟩

theorem radix_surjective (A B C n : Int) (hA : 1 ≤ A) (hB : 1 ≤ B)
    (h0 : 0 ≤ n) (hn : n < 8 * A * B * C * 7) :
    ∃ I J K v, (0 ≤ I ∧ I < 2 * A) ∧ (0 ≤ J ∧ J < 2 * B) ∧ (0 ≤ K ∧ K < 2 * C) ∧
      (0 ≤ v ∧ v < 7) ∧ 7 * A * 2 * B * 2 * K + 7 * A * 2 * J + 7 * I + v = n := by
  have hA2 : (0 : Int) < 2 * A := by omega
  have hB2 : (0 : Int) < 2 * B := by omega
  have hX0 : 0 ≤ n / 7 := Int.ediv_nonneg h0 (by norm_num)
  have hX1 : n / 7 < 2 * C * (2 * B) * (2 * A) :=
    Int.ediv_lt_of_lt_mul (by norm_num) (by linarith)
  have hY0 : 0 ≤ n / 7 / (2 * A) := Int.ediv_nonneg hX0 (le_of_lt hA2)
  have hY1 : n / 7 / (2 * A) < 2 * C * (2 * B) := Int.ediv_lt_of_lt_mul hA2 hX1
  have hK0 : 0 ≤ n / 7 / (2 * A) / (2 * B) := Int.ediv_nonneg hY0 (le_of_lt hB2)
  have hK1 : n / 7 / (2 * A) / (2 * B) < 2 * C := Int.ediv_lt_of_lt_mul hB2 hY1
  refine ⟨n / 7 % (2 * A), n / 7 / (2 * A) % (2 * B), n / 7 / (2 * A) / (2 * B), n % 7,
    ⟨Int.emod_nonneg _ (ne_of_gt hA2), Int.emod_lt_of_pos _ hA2⟩,
    ⟨Int.emod_nonneg _ (ne_of_gt hB2), Int.emod_lt_of_pos _ hB2⟩,
    ⟨hK0, hK1⟩, ⟨Int.emod_nonneg _ (by norm_num), Int.emod_lt_of_pos _ (by norm_num)⟩, ?_⟩
  have d1 := Int.ediv_add_emod n 7
  have d2 := Int.ediv_add_emod (n / 7) (2 * A)
  have d3 := Int.ediv_add_emod (n / 7 / (2 * A)) (2 * B)
  nlinarith

theorem writeBgTuple_step (env : Env α) (d : VarDriverXYZ α) (m : Int)
    (st : BgObsLoop α) (n : Nat) :
    (writeBgTuple env d m st n).p = st.p + 14 ∧
    (writeBgTuple env d m st n).numbgObs = st.numbgObs ∧
    (writeBgTuple env d m st n).bgObs.length = st.bgObs.length :=
  ⟨rfl, rfl, by simp only [writeBgTuple, setAt_length]⟩

theorem writeBgTuples_step (env : Env α) (d : VarDriverXYZ α) (m : Int)
    (st : BgObsLoop α) (c : Nat) :
    ((List.range c).foldl (writeBgTuple env d m) st).p = st.p + 14 * (c : Int) ∧
    ((List.range c).foldl (writeBgTuple env d m) st).numbgObs = st.numbgObs ∧
    ((List.range c).foldl (writeBgTuple env d m) st).bgObs.length = st.bgObs.length := by
  induction c with
  | zero => exact ⟨by simp, rfl, rfl⟩
  | succ c ih =>
    rw [List.range_succ, List.foldl_append]
    simp only [List.foldl_cons, List.foldl_nil]
    obtain ⟨w1, w2, w3⟩ := writeBgTuple_step env d m
      ((List.range c).foldl (writeBgTuple env d m) st) c
    obtain ⟨i1, i2, i3⟩ := ih
    refine ⟨?_, by rw [w2, i2], by rw [w3, i3]⟩
    rw [w1, i1]
    push_cast
    ring

theorem adjustBackgroundLoop_step (env : Env α) (d : VarDriverXYZ α)
    (hv : d.numVars = 7) (ms : List Int) : ∀ (st : BgObsLoop α),
    (ms.foldl (adjustBackgroundRecord env d) st).p =
      st.p + 98 * ((ms.filter (bgRecordInDomain env d)).length : Int) ∧
    (ms.foldl (adjustBackgroundRecord env d) st).numbgObs + 7 * (ms.length : Int) =
      st.numbgObs + 7 * ((ms.filter (bgRecordInDomain env d)).length : Int) ∧
    (ms.foldl (adjustBackgroundRecord env d) st).bgObs.length = st.bgObs.length := by
  induction ms with
  | nil =>
    intro st
    exact ⟨by simp, rfl, rfl⟩
  | cons m ms ih =>
    intro st
    rw [List.foldl_cons]
    by_cases hin : bgRecordInDomain env d m = true
    · rw [adjustBackgroundRecord_inside env d st m hv hin, List.filter_cons_of_pos hin]
      obtain ⟨w1, w2, w3⟩ := writeBgTuples_step env d m st 7
      obtain ⟨i1, i2, i3⟩ := ih ((List.range 7).foldl (writeBgTuple env d m) st)
      simp only [List.length_cons]
      push_cast
      exact ⟨by rw [i1, w1]; push_cast; ring, by rw [w2] at i2; omega, by rw [i3, w3]⟩
    · have hout : bgRecordInDomain env d m = false := by
        cases hb : bgRecordInDomain env d m
        · rfl
        · exact absurd hb hin
      rw [adjustBackgroundRecord_outside env d st m hout, List.filter_cons_of_neg hin]
      obtain ⟨i1, i2, i3⟩ := ih { st with numbgObs := st.numbgObs - 7 }
      simp only [List.length_cons]
      push_cast
      simp only [] at i1 i2 i3
      exact ⟨i1, by omega, i3⟩

theorem foldl_congr_fun {β γ : Type} (f g : β → γ → β) (l : List γ) (b : β)
    (h : ∀ b x, f b x = g b x) : l.foldl f b = l.foldl g b := by
  have : f = g := funext (fun b => funext (fun x => h b x))
  rw [this]

theorem foldl_fixed {β γ : Type} (f : β → γ → β) (l : List γ) (b : β)
    (h : ∀ b x, f b x = b) : l.foldl f b = b := by
  induction l with
  | nil => rfl
  | cons x xs ih => rw [List.foldl_cons, h, ih]

theorem pretest_implies_outside (R2 RSquare t : α) (h0 : 0 ≤ R2)
    (h1 : RSquare ≤ R2 * R2) (ht : |t| > R2) : RSquare < t * t := by
  have h2 : R2 * R2 < |t| * |t| := by nlinarith
  rw [abs_mul_abs_self] at h2
  linarith

theorem gridReflectivity_pretest (env : Env α) (d : VarDriverXYZ α)
    (R2 RSquare ZZ qr obX obY obZ : α) (b : BgBuf α) (h0 : 0 ≤ R2)
    (h1 : RSquare ≤ R2 * R2) :
    gridReflectivity env d R2 RSquare ZZ qr obX obY obZ b =
      gridReflectivityNoPretest env d RSquare ZZ qr obX obY obZ b := by
  unfold gridReflectivity gridReflectivityNoPretest
  refine foldl_congr_fun _ _ _ _ (fun b zi => ?_)
  refine foldl_congr_fun _ _ _ _ (fun b zmu => ?_)
  dsimp only
  by_cases hz : |mishPos env.libm d.kmin d.kincr zi zmu - obZ| > R2
  · rw [if_pos hz]
    have hz2 := pretest_implies_outside R2 RSquare _ h0 h1 hz
    symm
    refine foldl_fixed _ _ _ (fun b xi => ?_)
    refine foldl_fixed _ _ _ (fun b xmu => ?_)
    refine foldl_fixed _ _ _ (fun b yi => ?_)
    refine foldl_fixed _ _ _ (fun b ymu => ?_)
    rw [if_neg]
    nlinarith [mul_self_nonneg (obX - mishPos env.libm d.imin d.iincr xi xmu),
      mul_self_nonneg (obY - mishPos env.libm d.jmin d.jincr yi ymu)]
  · rw [if_neg hz]
    refine foldl_congr_fun _ _ _ _ (fun b xi => ?_)
    refine foldl_congr_fun _ _ _ _ (fun b xmu => ?_)
    by_cases hx : |mishPos env.libm d.imin d.iincr xi xmu - obX| > R2
    · rw [if_pos hx]
      have hx2 := pretest_implies_outside R2 RSquare _ h0 h1 hx
      symm
      refine foldl_fixed _ _ _ (fun b yi => ?_)
      refine foldl_fixed _ _ _ (fun b ymu => ?_)
      rw [if_neg]
      nlinarith [mul_self_nonneg (obZ - mishPos env.libm d.kmin d.kincr zi zmu),
        mul_self_nonneg (obY - mishPos env.libm d.jmin d.jincr yi ymu)]
    · rw [if_neg hx]
      refine foldl_congr_fun _ _ _ _ (fun b yi => ?_)
      refine foldl_congr_fun _ _ _ _ (fun b ymu => ?_)
      by_cases hy : |mishPos env.libm d.jmin d.jincr yi ymu - obY| > R2
      · rw [if_pos hy]
        have hy2 := pretest_implies_outside R2 RSquare _ h0 h1 hy
        rw [if_neg]
        nlinarith [mul_self_nonneg (obZ - mishPos env.libm d.kmin d.kincr zi zmu),
          mul_self_nonneg (obX - mishPos env.libm d.imin d.iincr xi xmu)]
      · rw [if_neg hy]

theorem interpolateColumn_pretest (env : Env α) (d : VarDriverXYZ α) (wl : Int)
    (R2 RSquare bgX bgY : α) (c : BgColumn α) (b : BgBuf α) (h0 : 0 ≤ R2)
    (h1 : RSquare ≤ R2 * R2) :
    interpolateColumn env d wl R2 RSquare bgX bgY c b =
      interpolateColumnNoPretest env d wl RSquare bgX bgY c b := by
  unfold interpolateColumn interpolateColumnNoPretest
  refine foldl_congr_fun _ _ _ _ (fun b zi => ?_)
  refine foldl_congr_fun _ _ _ _ (fun b zmu => ?_)
  dsimp only
  refine foldl_congr_fun _ _ _ _ (fun b xi => ?_)
  refine foldl_congr_fun _ _ _ _ (fun b xmu => ?_)
  by_cases hx : |mishPos env.libm d.imin d.iincr xi xmu - bgX| > R2
  · rw [if_pos hx]
    have hx2 := pretest_implies_outside R2 RSquare _ h0 h1 hx
    symm
    refine foldl_fixed _ _ _ (fun b yi => ?_)
    refine foldl_fixed _ _ _ (fun b ymu => ?_)
    rw [if_neg]
    nlinarith [mul_self_nonneg (bgY - mishPos env.libm d.jmin d.jincr yi ymu)]
  · rw [if_neg hx]
    refine foldl_congr_fun _ _ _ _ (fun b yi => ?_)
    refine foldl_congr_fun _ _ _ _ (fun b ymu => ?_)
    by_cases hy : |mishPos env.libm d.jmin d.jincr yi ymu - bgY| > R2
    · rw [if_pos hy]
      have hy2 := pretest_implies_outside R2 RSquare _ h0 h1 hy
      rw [if_neg]
      nlinarith [mul_self_nonneg (bgX - mishPos env.libm d.imin d.iincr xi xmu)]
    · rw [if_neg hy]

theorem interpolateColumn_negative (env : Env α) (d : VarDriverXYZ α) (wl : Int)
    (R2 RSquare bgX bgY : α) (c : BgColumn α) (b : BgBuf α) (h : R2 < 0) :
    interpolateColumn env d wl R2 RSquare bgX bgY c b = b := by
  unfold interpolateColumn
  refine foldl_fixed _ _ _ (fun b zi => ?_)
  refine foldl_fixed _ _ _ (fun b zmu => ?_)
  dsimp only
  refine foldl_fixed _ _ _ (fun b xi => ?_)
  refine foldl_fixed _ _ _ (fun b xmu => ?_)
  rw [if_pos (lt_of_lt_of_le h (abs_nonneg _))]

theorem readAt_divAt (a : List α) (i : Int) (v : α) (j : Int) :
    readAt (divAt a i v) j = if i = j then readAt a j / v else readAt a j := by
  unfold readAt
  by_cases hj : j < 0
  · rw [if_pos hj, if_pos hj]
    simp
  · rw [if_neg hj, if_neg hj, getD_divAt]
    by_cases hij : i = j
    · subst hij
      rw [if_pos rfl]
      by_cases hl : i.toNat < a.length
      · rw [if_pos ⟨by omega, rfl, hl⟩]
      · rw [if_neg (by omega)]
        simp [List.getD_eq_getElem?_getD, List.getElem?_eq_none (not_lt.mp hl)]
    · rw [if_neg hij, if_neg (by omega)]

theorem foldl_levels {β : Type} (F : β → Nat → Int → β) (n : Nat) (c : β) :
    (List.range n).foldl (fun c zi => muValues.foldl (fun c zmu => F c zi zmu) c) c =
      (List.range (2 * n)).foldl (fun c K => F c (K / 2) (levelMu K)) c := by
  induction n with
  | zero => rfl
  | succ n ih =>
    have h2 : 2 * (n + 1) = 2 * n + 1 + 1 := by ring
    rw [List.range_succ, List.foldl_append, ih, h2, List.range_succ, List.range_succ,
      List.foldl_append, List.foldl_append]
    simp only [List.foldl_cons, List.foldl_nil, muValues, levelMu]
    have e1 : 2 * n / 2 = n := by omega
    have e2 : (2 * n + 1) / 2 = n := by omega
    have e3 : 2 * n % 2 = 0 := by omega
    have e4 : ¬ (2 * n + 1) % 2 = 0 := by omega
    rw [e1, e2, if_pos e3, if_neg e4]

theorem levelMu_mem (K : Nat) : levelMu K ∈ muValues := by
  unfold levelMu muValues
  split <;> simp

theorem mishIndex_level (K : Nat) : mishIndex (K / 2) (levelMu K) = (K : Int) := by
  unfold levelMu
  split
  · rw [mishIndex_neg]
    omega
  · rw [mishIndex_pos]
    omega

theorem level_of_mishIndex (dim : Int) (zi : Nat) (zmu : Int) (hzi : zi ∈ cellRange dim)
    (hzmu : zmu ∈ muValues) :
    ∃ K : Nat, K < 2 * (dim - 1).toNat ∧ (K : Int) = mishIndex zi zmu ∧ K / 2 = zi ∧
      levelMu K = zmu := by
  obtain ⟨h0, h1⟩ := mishIndex_range dim zi zmu hzi hzmu
  refine ⟨(mishIndex zi zmu).toNat, by omega, Int.toNat_of_nonneg h0, ?_⟩
  have hk : mishIndex ((mishIndex zi zmu).toNat / 2) (levelMu (mishIndex zi zmu).toNat) =
      mishIndex zi zmu := by
    rw [mishIndex_level]
    exact Int.toNat_of_nonneg h0
  exact mishIndex_injective _ _ _ _ (levelMu_mem _) hzmu hk

theorem bIndex_level_injective (d : VarDriverXYZ α) (hv : d.numVars = 7)
    (hi : 2 ≤ d.idim) (hj : 2 ≤ d.jdim) (bgI bgJ K K' : Int)
    (h : bIndex d bgI bgJ K = bIndex d bgI bgJ K') : K = K' := by
  unfold bIndex at h
  rw [hv] at h
  have hA : (0 : Int) < 7 * (d.idim - 1) * 2 * (d.jdim - 1) * 2 := by
    have h1 : (0 : Int) < d.idim - 1 := by omega
    have h2 : (0 : Int) < d.jdim - 1 := by omega
    positivity
  have h3 : 7 * (d.idim - 1) * 2 * (d.jdim - 1) * 2 * K =
      7 * (d.idim - 1) * 2 * (d.jdim - 1) * 2 * K' := by linarith
  exact mul_left_cancel₀ (ne_of_gt hA) h3

theorem columnLevels_spec (env : Env α) (d : VarDriverXYZ α) (hv : d.numVars = 7)
    (hi : 2 ≤ d.idim) (hj : 2 ≤ d.jdim) (bgI bgJ : Int) (b : BgBuf α) (t : Nat) :
    ((List.range t).foldl (fun c K => columnLevel env d bgI bgJ c (K / 2) (levelMu K))
        (b, -1)).1.bgWeights = b.bgWeights ∧
    (∀ K : Nat, K < t →
      readAt ((List.range t).foldl
          (fun c K => columnLevel env d bgI bgJ c (K / 2) (levelMu K)) (b, -1)).1.bgU
          (bIndex d bgI bgJ (K : Int) + 6) = normalisedReflectivity d b bgI bgJ (K : Int)) ∧
    (∀ j : Int, (∀ K : Nat, K < t → j ≠ bIndex d bgI bgJ (K : Int) + 6) →
      readAt ((List.range t).foldl
          (fun c K => columnLevel env d bgI bgJ c (K / 2) (levelMu K)) (b, -1)).1.bgU j
        = readAt b.bgU j) ∧
    (((∀ K : Nat, K < t → ¬ 0 < normalisedReflectivity d b bgI bgJ (K : Int)) ∧
        ((List.range t).foldl
          (fun c K => columnLevel env d bgI bgJ c (K / 2) (levelMu K)) (b, -1)).2 = -1) ∨
      ∃ K : Nat, K < t ∧ 0 < normalisedReflectivity d b bgI bgJ (K : Int) ∧
        ((List.range t).foldl
          (fun c K => columnLevel env d bgI bgJ c (K / 2) (levelMu K)) (b, -1)).2 =
          mishPos env.libm d.kmin d.kincr (K / 2) (levelMu K) ∧
        ∀ L : Nat, L < t → 0 < normalisedReflectivity d b bgI bgJ (L : Int) → L ≤ K) := by
  induction t with
  | zero =>
    exact ⟨rfl, fun K hK => absurd hK (Nat.not_lt_zero K), fun _ _ => rfl,
      Or.inl ⟨fun K hK => absurd hK (Nat.not_lt_zero K), rfl⟩⟩
  | succ t ih =>
    obtain ⟨i1, i2, i3, i4⟩ := ih
    rw [List.range_succ, List.foldl_append]
    simp only [List.foldl_cons, List.foldl_nil]
    generalize (List.range t).foldl
      (fun c K => columnLevel env d bgI bgJ c (K / 2) (levelMu K)) (b, -1) = c at i1 i2 i3 i4
    have hne : ∀ K : Nat, K < t →
        bIndex d bgI bgJ (t : Int) + 6 ≠ bIndex d bgI bgJ (K : Int) + 6 := by
      intro K hK h
      have := bIndex_level_injective d hv hi hj bgI bgJ _ _ (by linarith : bIndex d bgI bgJ
        (t : Int) = bIndex d bgI bgJ (K : Int))
      omega
    have hold : readAt c.1.bgU (bIndex d bgI bgJ (t : Int) + 6) =
        readAt b.bgU (bIndex d bgI bgJ (t : Int) + 6) := i3 _ hne
    have hnew : readAt (columnLevel env d bgI bgJ c (t / 2) (levelMu t)).1.bgU
        (bIndex d bgI bgJ (t : Int) + 6) = normalisedReflectivity d b bgI bgJ (t : Int) := by
      simp only [columnLevel, mishIndex_level, normalisedReflectivity, i1]
      by_cases hw : readAt b.bgWeights (bIndex d bgI bgJ (t : Int)) ≠ 0
      · rw [if_pos hw, if_pos hw, readAt_divAt, if_pos rfl, hold]
      · rw [if_neg hw, if_neg hw, hold]
    have hother : ∀ j : Int, j ≠ bIndex d bgI bgJ (t : Int) + 6 →
        readAt (columnLevel env d bgI bgJ c (t / 2) (levelMu t)).1.bgU j =
          readAt c.1.bgU j := by
      intro j hjne
      simp only [columnLevel, mishIndex_level]
      split
      · rw [readAt_divAt, if_neg (Ne.symm hjne)]
      · rfl
    have htop : (columnLevel env d bgI bgJ c (t / 2) (levelMu t)).2 =
        if 0 < normalisedReflectivity d b bgI bgJ (t : Int) then
          mishPos env.libm d.kmin d.kincr (t / 2) (levelMu t) else c.2 := by
      rw [← hnew]
      simp only [columnLevel, mishIndex_level, gt_iff_lt]
    refine ⟨?_, ?_, ?_, ?_⟩
    · simp only [columnLevel]
      exact i1
    · intro K hK
      by_cases hKt : K = t
      · subst hKt
        exact hnew
      · rw [hother _ (fun h => hne K (by omega) h.symm)]
        exact i2 K (by omega)
    · intro j hj
      rw [hother j (hj t (Nat.lt_succ_self t))]
      exact i3 j (fun K hK => hj K (by omega))
    · rw [htop]
      by_cases hp : 0 < normalisedReflectivity d b bgI bgJ (t : Int)
      · rw [if_pos hp]
        exact Or.inr ⟨t, Nat.lt_succ_self t, hp, rfl, fun L hL _ => by omega⟩
      · rw [if_neg hp]
        rcases i4 with ⟨hnone, hm⟩ | ⟨K, hK, hpos, hm, hmax⟩
        · refine Or.inl ⟨fun K hK => ?_, hm⟩
          by_cases hKt : K = t
          · subst hKt
            exact hp
          · exact hnone K (by omega)
        · refine Or.inr ⟨K, by omega, hpos, hm, fun L hL hLp => ?_⟩
          by_cases hLt : L = t
          · subst hLt
            exact absurd hLp hp
          · exact hmax L (by omega) hLp

theorem columnReflectivity_levels (env : Env α) (d : VarDriverXYZ α) (bgI bgJ : Int)
    (b : BgBuf α) :
    columnReflectivity env d bgI bgJ b =
      (List.range (2 * (d.kdim - 1).toNat)).foldl
        (fun c K => columnLevel env d bgI bgJ c (K / 2) (levelMu K)) (b, -1) := by
  rw [← foldl_levels (columnLevel env d bgI bgJ)]
  rfl

theorem columnReflectivity_spec (env : Env α) (d : VarDriverXYZ α) (hv : d.numVars = 7)
    (hi : 2 ≤ d.idim) (hj : 2 ≤ d.jdim) (hk : 0 < d.kincr)
    (hs0 : 0 < env.libm.sqrt (1 / 3)) (hs1 : env.libm.sqrt (1 / 3) < 1)
    (bgI bgJ : Int) (b : BgBuf α) :
    (columnReflectivity env d bgI bgJ b).1.bgWeights = b.bgWeights ∧
    (∀ zi ∈ cellRange d.kdim, ∀ zmu ∈ muValues,
      readAt (columnReflectivity env d bgI bgJ b).1.bgU
          (bIndex d bgI bgJ (mishIndex zi zmu) + 6) =
        normalisedReflectivity d b bgI bgJ (mishIndex zi zmu)) ∧
    (((∀ zi ∈ cellRange d.kdim, ∀ zmu ∈ muValues,
          ¬ 0 < normalisedReflectivity d b bgI bgJ (mishIndex zi zmu)) ∧
        (columnReflectivity env d bgI bgJ b).2 = -1) ∨
      ∃ zi ∈ cellRange d.kdim, ∃ zmu ∈ muValues,
        0 < normalisedReflectivity d b bgI bgJ (mishIndex zi zmu) ∧
        (columnReflectivity env d bgI bgJ b).2 = mishPos env.libm d.kmin d.kincr zi zmu ∧
        ∀ zj ∈ cellRange d.kdim, ∀ zn ∈ muValues,
          0 < normalisedReflectivity d b bgI bgJ (mishIndex zj zn) →
          mishPos env.libm d.kmin d.kincr zj zn ≤ mishPos env.libm d.kmin d.kincr zi zmu) := by
  rw [columnReflectivity_levels]
  obtain ⟨i1, i2, -, i4⟩ := columnLevels_spec env d hv hi hj bgI bgJ b
    (2 * (d.kdim - 1).toNat)
  refine ⟨i1, ?_, ?_⟩
  · intro zi hzi zmu hzmu
    obtain ⟨K, hK, e, -, -⟩ := level_of_mishIndex d.kdim zi zmu hzi hzmu
    rw [← e]
    exact i2 K hK
  · rcases i4 with ⟨hnone, hm⟩ | ⟨K, hK, hpos, hm, hmax⟩
    · refine Or.inl ⟨fun zi hzi zmu hzmu => ?_, hm⟩
      obtain ⟨K, hK, e, -, -⟩ := level_of_mishIndex d.kdim zi zmu hzi hzmu
      rw [← e]
      exact hnone K hK
    · have hmem : K / 2 ∈ cellRange d.kdim := by
        simp only [cellRange, List.mem_range]
        omega
      refine Or.inr ⟨K / 2, hmem, levelMu K, levelMu_mem K, ?_, hm, ?_⟩
      · rw [mishIndex_level]
        exact hpos
      · intro zj hzj zn hzn hp
        obtain ⟨L, hL, e, e2, e3⟩ := level_of_mishIndex d.kdim zj zn hzj hzn
        rw [← e] at hp
        have hLK := hmax L hL hp
        rcases Nat.lt_or_eq_of_le hLK with hlt | heq
        · refine le_of_lt (mishPos_lt env.libm d.kmin d.kincr zj (K / 2) zn (levelMu K)
            hzn (levelMu_mem K) hs0 hs1 hk ?_)
          rw [mishIndex_level, ← e]
          exact_mod_cast hlt
        · rw [← e2, ← e3, heq]

theorem finishReflectivity_columns (env : Env α) (d : VarDriverXYZ α) (st : ObLoop α) :
    finishReflectivity env d st =
      (cellRange d.idim).foldl (fun st xi =>
        muValues.foldl (fun st xmu =>
          (cellRange d.jdim).foldl (fun st yi =>
            muValues.foldl (fun st ymu => finishColumn env d st xi xmu yi ymu) st) st) st)
        st :=
  rfl

theorem pseudoWOb_fields (env : Env α) (d : VarDriverXYZ α) :
    (pseudoWOb env d).ob = 0 ∧ (pseudoWOb env d).inverseError = 1 ∧
    (pseudoWOb env d).time = env.qt.toFloat (d.configHash "reftime") ∧
    (pseudoWOb env d).weight 0 = 0 ∧ (pseudoWOb env d).weight 1 = 0 ∧
    (pseudoWOb env d).weight 2 = 1 ∧ (pseudoWOb env d).weight 3 = 0 ∧
    (pseudoWOb env d).weight 4 = 0 ∧ (pseudoWOb env d).weight 5 = 0 ∧
    (pseudoWOb env d).weight 6 = 0 := by
  simp [pseudoWOb, Observation.setWeight, Observation.setError, Observation.setOb]

end Lemmas

/-! ## The claims -/

section Claims

set_option linter.unusedSectionVars false

variable {α : Type} [LinearOrderedField α] [FloorRing α]

/-- C1: `initialize` computes the node count of each axis from the configured bounds
as `trunc((max - min)/incr) + 1`; when one of the three counts is below 4 it returns
`false` with no buffer allocated, no cost function built and no state size printed;
when all three counts are at least 4 the stencil tests do not abort and the run goes on
to allocate the background array. -/
theorem initialize_stencil_check (env : Env α) (d : VarDriverXYZ α) (config : ConfigHash)
    (hparse : env.parseXMLconfig = some config) :
    ((configuredGrid env d config).idim =
        truncToInt ((env.qt.toFloat (config "xmax") - env.qt.toFloat (config "xmin")) /
          env.qt.toFloat (config "xincr")) + 1 ∧
      (configuredGrid env d config).jdim =
        truncToInt ((env.qt.toFloat (config "ymax") - env.qt.toFloat (config "ymin")) /
          env.qt.toFloat (config "yincr")) + 1 ∧
      (configuredGrid env d config).kdim =
        truncToInt ((env.qt.toFloat (config "zmax") - env.qt.toFloat (config "zmin")) /
          env.qt.toFloat (config "zincr")) + 1) ∧
    ((configuredGrid env d config).idim < 4 ∨
        (configuredGrid env d config).jdim < 4 ∨
        (configuredGrid env d config).kdim < 4 →
      (initializeDriver env d).value = some false ∧
      (initializeDriver env d).state.bgU = d.bgU ∧
      (initializeDriver env d).state.bgWeights = d.bgWeights ∧
      (initializeDriver env d).state.bgObs = d.bgObs ∧
      (initializeDriver env d).state.obs = d.obs ∧
      (initializeDriver env d).state.bgCostXYZ = d.bgCostXYZ ∧
      (initializeDriver env d).state.obCostXYZ = d.obCostXYZ ∧
      ∀ u b, Msg.stateSizes u b ∈ (initializeDriver env d).state.cout →
        Msg.stateSizes u b ∈ d.cout) ∧
    (4 ≤ (configuredGrid env d config).idim ∧
        4 ≤ (configuredGrid env d config).jdim ∧
        4 ≤ (configuredGrid env d config).kdim →
      stencilAbort (configuredGrid env d config) = none ∧
      initializeDriver env d =
        initializeState env (configuredGrid env d config) ∧
      (initializeDriver env d).state.bgU.isSome = true) := by
  refine ⟨⟨rfl, rfl, rfl⟩, ?_, ?_⟩
  · intro h
    have hab : ∃ msg, stencilAbort (configuredGrid env d config)
        = some msg ∧ ∀ u b, msg ≠ Msg.stateSizes u b := by
      unfold stencilAbort
      split
      · exact ⟨_, rfl, by simp⟩
      · split
        · exact ⟨_, rfl, by simp⟩
        · split
          · exact ⟨_, rfl, by simp⟩
          · omega
    obtain ⟨msg, hmsg, hne⟩ := hab
    have hi : initializeDriver env d = Outcome.returned false
        { configuredGrid env d config with
          cout := msg :: (configuredGrid env d config).cout } := by
      simp only [initializeDriver, hparse, configuredGrid] at *
      simp only [hmsg]
    rw [hi]
    refine ⟨rfl, rfl, rfl, rfl, rfl, rfl, rfl, ?_⟩
    intro u b hm
    simp only [Outcome.state, List.mem_cons] at hm
    rcases hm with hm | hm
    · exact absurd hm.symm (hne u b)
    · exact hm
  · rintro ⟨h1, h2, h3⟩
    have hab : stencilAbort (configuredGrid env d config) = none := by
      unfold stencilAbort
      rw [if_neg (by omega), if_neg (by omega), if_neg (by omega)]
    have hi : initializeDriver env d =
        initializeState env (configuredGrid env d config) :=
      initializeDriver_of_stencil env d config hparse ⟨h1, h2, h3⟩
    exact ⟨hab, hi, by rw [hi]; exact initializeState_bgU_isSome env _⟩

/-- Witness of C1: a configuration with three nodes in x is refused, and the 4 x 4 x 4
configuration passes the stencil tests and allocates the background array. -/
theorem initialize_stencil_check_witness :
    narrowEnv.parseXMLconfig = some (configOf narrowEntries) ∧
    (initializeDriver narrowEnv VarDriverXYZ.new).value = some false ∧
    radarEnv.parseXMLconfig = some (configOf demoEntries) ∧
    (initializeDriver radarEnv VarDriverXYZ.new).state.bgU.isSome = true :=
  ⟨rfl,
    ((initialize_stencil_check narrowEnv VarDriverXYZ.new (configOf narrowEntries) rfl).2.1
      (Or.inl (by decide!))).1,
    rfl,
    ((initialize_stencil_check radarEnv VarDriverXYZ.new (configOf demoEntries) rfl).2.2
      ⟨by decide!, by decide!, by decide!⟩).2.2⟩

/-- C2: on every run that passes the stencil tests, the internal x and y domains are
the configured ones widened by one increment on each side, with two more nodes each,
when `horizontalbc` is `R0`, and the z domain likewise when `verticalbc` is `R0`; an
axis whose tag is not `R0` keeps its configured minimum, maximum and node count. -/
theorem initialize_internal_domain (env : Env α) (d : VarDriverXYZ α) (config : ConfigHash)
    (hparse : env.parseXMLconfig = some config)
    (hstencil : 4 ≤ (configuredGrid env d config).idim ∧
        4 ≤ (configuredGrid env d config).jdim ∧
        4 ≤ (configuredGrid env d config).kdim) :
    (config "horizontalbc" = "R0" →
      (initializeDriver env d).state.imin =
        env.qt.toFloat (config "xmin") - env.qt.toFloat (config "xincr") ∧
      (initializeDriver env d).state.imax =
        env.qt.toFloat (config "xmax") + env.qt.toFloat (config "xincr") ∧
      (initializeDriver env d).state.idim =
        (configuredGrid env d config).idim + 2 ∧
      (initializeDriver env d).state.jmin =
        env.qt.toFloat (config "ymin") - env.qt.toFloat (config "yincr") ∧
      (initializeDriver env d).state.jmax =
        env.qt.toFloat (config "ymax") + env.qt.toFloat (config "yincr") ∧
      (initializeDriver env d).state.jdim =
        (configuredGrid env d config).jdim + 2) ∧
    (config "horizontalbc" ≠ "R0" →
      (initializeDriver env d).state.imin = env.qt.toFloat (config "xmin") ∧
      (initializeDriver env d).state.imax = env.qt.toFloat (config "xmax") ∧
      (initializeDriver env d).state.idim =
        (configuredGrid env d config).idim ∧
      (initializeDriver env d).state.jmin = env.qt.toFloat (config "ymin") ∧
      (initializeDriver env d).state.jmax = env.qt.toFloat (config "ymax") ∧
      (initializeDriver env d).state.jdim =
        (configuredGrid env d config).jdim) ∧
    (config "verticalbc" = "R0" →
      (initializeDriver env d).state.kmin =
        env.qt.toFloat (config "zmin") - env.qt.toFloat (config "zincr") ∧
      (initializeDriver env d).state.kmax =
        env.qt.toFloat (config "zmax") + env.qt.toFloat (config "zincr") ∧
      (initializeDriver env d).state.kdim =
        (configuredGrid env d config).kdim + 2) ∧
    (config "verticalbc" ≠ "R0" →
      (initializeDriver env d).state.kmin = env.qt.toFloat (config "zmin") ∧
      (initializeDriver env d).state.kmax = env.qt.toFloat (config "zmax") ∧
      (initializeDriver env d).state.kdim =
        (configuredGrid env d config).kdim) ∧
    (initializeDriver env d).state.iincr = env.qt.toFloat (config "xincr") ∧
    (initializeDriver env d).state.jincr = env.qt.toFloat (config "yincr") ∧
    (initializeDriver env d).state.kincr = env.qt.toFloat (config "zincr") := by
  have hg := initializeState_grid env (configuredGrid env d config)
  rw [← initializeDriver_of_stencil env d config hparse hstencil] at hg
  obtain ⟨-, h1, h2, h3, h4, h5, h6, h7, h8, h9, h10, h11, h12⟩ := hg
  rw [h1, h2, h3, h4, h5, h6, h7, h8, h9, h10, h11, h12]
  by_cases hh : config "horizontalbc" = "R0" <;> by_cases hv : config "verticalbc" = "R0" <;>
    simp [increaseInternalGrid, configuredGrid, defineGrid, hh, hv]

/-- Witness of C2: in the 4 x 4 x 4 configuration on `[0, 3]` with `R0` in the horizontal
only, the internal x domain is `[-1, 4]` with 6 nodes and z keeps its 4 nodes. -/
theorem initialize_internal_domain_witness :
    radarEnv.parseXMLconfig = some (configOf demoEntries) ∧
    (initializeDriver radarEnv VarDriverXYZ.new).state.imin = -1 ∧
    (initializeDriver radarEnv VarDriverXYZ.new).state.imax = 4 ∧
    (initializeDriver radarEnv VarDriverXYZ.new).state.idim = 6 ∧
    (initializeDriver radarEnv VarDriverXYZ.new).state.kdim = 4 :=
  have h := initialize_internal_domain radarEnv VarDriverXYZ.new (configOf demoEntries) rfl
    ⟨by decide!, by decide!, by decide!⟩
  ⟨rfl, (h.1 (by decide!)).1.trans (by decide!),
    (h.1 (by decide!)).2.1.trans (by decide!),
    (h.1 (by decide!)).2.2.1.trans (by decide!),
    (h.2.2.2.1 (by decide!)).2.2.trans (by decide!)⟩

/-- C3: the two state sizes are computed from the node counts of the internal grid,
that is from the configured counts plus 2 on every `R0` axis:
`uStateSize = 8*(idim-1)*(jdim-1)*(kdim-1)*7`, which is 7 times the product of the
quadrature-point counts `2*(dim-1)`, and `bStateSize = idim*jdim*kdim*7`. The background
array of every run that passes the stencil tests has `uStateSize` entries (as long as
the background cost function keeps its length), and the main cost function is built
with `bStateSize`. -/
theorem initialize_state_sizes (env : Env α) (d : VarDriverXYZ α) (config : ConfigHash)
    (hparse : env.parseXMLconfig = some config)
    (hstencil : 4 ≤ (configuredGrid env d config).idim ∧
        4 ≤ (configuredGrid env d config).jdim ∧
        4 ≤ (configuredGrid env d config).kdim)
    (hnum : d.numVars = 7)
    (hcost : ∀ c, (env.costUpdateBG c).length = c.bgU.length) :
    ((internalGrid env d config).idim = (configuredGrid env d config).idim +
        (if config "horizontalbc" = "R0" then 2 else 0) ∧
      (internalGrid env d config).jdim = (configuredGrid env d config).jdim +
        (if config "horizontalbc" = "R0" then 2 else 0) ∧
      (internalGrid env d config).kdim = (configuredGrid env d config).kdim +
        (if config "verticalbc" = "R0" then 2 else 0)) ∧
    uStateSize (internalGrid env d config) =
      8 * ((internalGrid env d config).idim - 1) * ((internalGrid env d config).jdim - 1)
        * ((internalGrid env d config).kdim - 1) * 7 ∧
    uStateSize (internalGrid env d config) =
      7 * ((2 * ((internalGrid env d config).idim - 1)) *
        (2 * ((internalGrid env d config).jdim - 1)) *
        (2 * ((internalGrid env d config).kdim - 1))) ∧
    bStateSize (internalGrid env d config) =
      (internalGrid env d config).idim * (internalGrid env d config).jdim *
        (internalGrid env d config).kdim * 7 ∧
    (initializeDriver env d).state.bgU.isSome = true ∧
    ((initializeDriver env d).state.bgU.getD []).length =
      (uStateSize (internalGrid env d config)).toNat ∧
    (∀ st, initializeDriver env d = Outcome.returned true st →
      ∃ cost, st.obCostXYZ = some cost ∧
        cost.stateSize = bStateSize (internalGrid env d config) ∧
        cost.bgU.length = (uStateSize (internalGrid env d config)).toNat) := by
  have hi := initializeDriver_of_stencil env d config hparse hstencil
  have hn : (internalGrid env d config).numVars = 7 := by
    unfold internalGrid increaseInternalGrid configuredGrid defineGrid
    dsimp only
    split <;> split <;> exact hnum
  have hlen := initializeState_length env (configuredGrid env d config) hcost
  rw [← hi] at hlen
  refine ⟨?_, ?_, ?_, ?_, ?_, hlen, ?_⟩
  · by_cases hh : config "horizontalbc" = "R0" <;>
      by_cases hv : config "verticalbc" = "R0" <;>
      simp [internalGrid, increaseInternalGrid, configuredGrid, defineGrid, hh, hv]
  · simp only [uStateSize, hn]
  · simp only [uStateSize, hn]; ring
  · simp only [bStateSize, hn]
  · rw [hi]; exact initializeState_bgU_isSome env _
  · intro st hst
    rw [hi] at hst
    obtain ⟨p, hp⟩ := initializeState_returned env _ st hst
    have hst2 : (initializeDriver env d).state = st := by rw [hi, hst]; rfl
    rw [hst2] at hlen
    refine ⟨_, by rw [hp]; rfl, rfl, ?_⟩
    refine Eq.trans ?_ hlen
    rw [hp]
    rfl

/-- Witness of C3: in the 4 x 4 x 4 configuration with `R0` in the horizontal only the
internal grid has 6 x 6 x 4 nodes, `uStateSize = 8*5*5*3*7 = 4200` and
`bStateSize = 6*6*4*7 = 1008`. -/
theorem initialize_state_sizes_witness :
    radarEnv.parseXMLconfig = some (configOf demoEntries) ∧
    (VarDriverXYZ.new : VarDriverXYZ ℚ).numVars = 7 ∧
    (∀ c, (radarEnv.costUpdateBG c).length = c.bgU.length) ∧
    uStateSize (internalGrid radarEnv VarDriverXYZ.new (configOf demoEntries)) = 4200 ∧
    bStateSize (internalGrid radarEnv VarDriverXYZ.new (configOf demoEntries)) = 1008 ∧
    ((initializeDriver radarEnv VarDriverXYZ.new).state.bgU.getD []).length = 4200 :=
  have h := initialize_state_sizes radarEnv VarDriverXYZ.new (configOf demoEntries) rfl
    ⟨by decide!, by decide!, by decide!⟩ rfl (fun _ => rfl)
  ⟨rfl, rfl, fun _ => rfl, h.2.1.trans (by decide!), h.2.2.2.1.trans (by decide!),
    h.2.2.2.2.2.1.trans (by decide!)⟩

/-- C4: in the observation loop of `preProcessMetObs` a record adds tuples only if its
position lies in the internal domain and, on each `R0` axis, at least one increment
inside it. A record that fails this test leaves the observation list and the
background arrays unchanged; when it lies in the time window the whole loop state is
unchanged (no message) and the later records are processed as if it were absent. Under
`R0` a record in the one-increment guard band is therefore excluded, and on the grid
that `initialize` builds (with positive increments) the position two increments inside
the internal domain, one increment inside the usable domain, passes the test. -/
theorem preProcessMetObs_domain_test (env : Env α) (d : VarDriverXYZ α) (st : ObLoop α)
    (metOb : MetObs α) :
    ((processMetOb env d st metOb).obVector ≠ st.obVector →
      AssimilationDomain d (metObPosition env d metOb).1 (metObPosition env d metOb).2.1
        (metObPosition env d metOb).2.2) ∧
    (¬ AssimilationDomain d (metObPosition env d metOb).1 (metObPosition env d metOb).2.1
        (metObPosition env d metOb).2.2 →
      (processMetOb env d st metOb).obVector = st.obVector ∧
      (processMetOb env d st metOb).buf = st.buf ∧
      (startTime d.frameVector ≤ metOb.time ∧ metOb.time ≤ endTime d.frameVector ∧
          metOb.time - startTime d.frameVector ≤ (d.frameVector.length : Int) →
        processMetOb env d st metOb = st ∧
        ∀ rest : List (MetObs α),
          (metOb :: rest).foldl (processMetOb env d) st =
            rest.foldl (processMetOb env d) st)) ∧
    (d.configHash "horizontalbc" = "R0" →
      (metObPosition env d metOb).1 < d.imin + d.iincr ∨
        d.imax - d.iincr < (metObPosition env d metOb).1 ∨
        (metObPosition env d metOb).2.1 < d.jmin + d.jincr ∨
        d.jmax - d.jincr < (metObPosition env d metOb).2.1 →
      (processMetOb env d st metOb).obVector = st.obVector) ∧
    (d.configHash "verticalbc" = "R0" →
      (metObPosition env d metOb).2.2 < d.kmin + d.kincr ∨
        d.kmax - d.kincr < (metObPosition env d metOb).2.2 →
      (processMetOb env d st metOb).obVector = st.obVector) ∧
    (∀ (d₀ : VarDriverXYZ α) (config : ConfigHash),
      4 ≤ (configuredGrid env d₀ config).idim ∧ 4 ≤ (configuredGrid env d₀ config).jdim ∧
        4 ≤ (configuredGrid env d₀ config).kdim →
      0 < env.qt.toFloat (config "xincr") ∧ 0 < env.qt.toFloat (config "yincr") ∧
        0 < env.qt.toFloat (config "zincr") →
      obInDomain (internalGrid env d₀ config)
        ((internalGrid env d₀ config).imin + 2 * (internalGrid env d₀ config).iincr)
        ((internalGrid env d₀ config).jmin + 2 * (internalGrid env d₀ config).jincr)
        ((internalGrid env d₀ config).kmin + 2 * (internalGrid env d₀ config).kincr)
        = true) := by
  have hout : ¬ AssimilationDomain d (metObPosition env d metOb).1
      (metObPosition env d metOb).2.1 (metObPosition env d metOb).2.2 →
      obInDomain d (metObPosition env d metOb).1 (metObPosition env d metOb).2.1
        (metObPosition env d metOb).2.2 = false := by
    intro h
    cases hb : obInDomain d (metObPosition env d metOb).1 (metObPosition env d metOb).2.1
        (metObPosition env d metOb).2.2 with
    | false => rfl
    | true => exact absurd ((obInDomain_iff d _ _ _).mp hb) h
  refine ⟨?_, ?_, ?_, ?_, ?_⟩
  · intro hne
    by_contra hn
    exact hne (processMetOb_outside env d st metOb (hout hn)).1
  · intro hn
    refine ⟨(processMetOb_outside env d st metOb (hout hn)).1,
      (processMetOb_outside env d st metOb (hout hn)).2, ?_⟩
    intro ht
    have he := processMetOb_outside_eq env d st metOb ht (hout hn)
    refine ⟨he, fun rest => ?_⟩
    rw [List.foldl_cons, he]
  · intro hh hx
    refine (processMetOb_outside env d st metOb (hout ?_)).1
    rintro ⟨-, -, -, hR, -⟩
    obtain ⟨⟨a1, a2⟩, ⟨a3, a4⟩⟩ := hR hh
    rcases hx with hx | hx | hx | hx
    · exact absurd a1 (not_le.mpr hx)
    · exact absurd a2 (not_le.mpr hx)
    · exact absurd a3 (not_le.mpr hx)
    · exact absurd a4 (not_le.mpr hx)
  · intro hv hz
    refine (processMetOb_outside env d st metOb (hout ?_)).1
    rintro ⟨-, -, -, -, hR⟩
    obtain ⟨a1, a2⟩ := hR hv
    rcases hz with hz | hz
    · exact absurd a1 (not_le.mpr hz)
    · exact absurd a2 (not_le.mpr hz)
  · rintro d₀ config ⟨h1, h2, h3⟩ ⟨hx, hy, hz⟩
    have dx : 3 ≤ (env.qt.toFloat (config "xmax") - env.qt.toFloat (config "xmin")) /
        env.qt.toFloat (config "xincr") :=
      truncToInt_ge_three _ (by
        have : (configuredGrid env d₀ config).idim = truncToInt
          ((env.qt.toFloat (config "xmax") - env.qt.toFloat (config "xmin")) /
            env.qt.toFloat (config "xincr")) + 1 := rfl
        omega)
    have dy : 3 ≤ (env.qt.toFloat (config "ymax") - env.qt.toFloat (config "ymin")) /
        env.qt.toFloat (config "yincr") :=
      truncToInt_ge_three _ (by
        have : (configuredGrid env d₀ config).jdim = truncToInt
          ((env.qt.toFloat (config "ymax") - env.qt.toFloat (config "ymin")) /
            env.qt.toFloat (config "yincr")) + 1 := rfl
        omega)
    have dz : 3 ≤ (env.qt.toFloat (config "zmax") - env.qt.toFloat (config "zmin")) /
        env.qt.toFloat (config "zincr") :=
      truncToInt_ge_three _ (by
        have : (configuredGrid env d₀ config).kdim = truncToInt
          ((env.qt.toFloat (config "zmax") - env.qt.toFloat (config "zmin")) /
            env.qt.toFloat (config "zincr")) + 1 := rfl
        omega)
    rw [le_div_iff₀ hx] at dx
    rw [le_div_iff₀ hy] at dy
    rw [le_div_iff₀ hz] at dz
    rw [obInDomain_iff]
    unfold AssimilationDomain
    by_cases hh : config "horizontalbc" = "R0" <;>
      by_cases hv : config "verticalbc" = "R0" <;>
      simp only [internalGrid, increaseInternalGrid, configuredGrid, defineGrid, hh, hv,
        if_true, if_false] <;>
      refine ⟨⟨?_, ?_⟩, ⟨?_, ?_⟩, ⟨?_, ?_⟩, ?_, ?_⟩ <;>
      first
        | linarith
        | (intro _; constructor <;> constructor <;> linarith)
        | (intro _; constructor <;> linarith)
        | (intro hc; exact absurd hc (by assumption))

/-- Witness of C4: on the internal grid `[-1, 4]` of the 4 x 4 x 4 configuration with
`R0` in the horizontal, a radar gate at `x = -0.5` adds nothing, and the position
`(1, 1, 2)` passes the test. -/
theorem preProcessMetObs_domain_test_witness :
    demoGrid.configHash "horizontalbc" = "R0" ∧
    (metObPosition radarEnv demoGrid guardBandOb).1 < demoGrid.imin + demoGrid.iincr ∧
    (processMetOb radarEnv demoGrid emptyObLoop guardBandOb).obVector = [] ∧
    obInDomain demoGrid (demoGrid.imin + 2 * demoGrid.iincr)
      (demoGrid.jmin + 2 * demoGrid.jincr) (demoGrid.kmin + 2 * demoGrid.kincr) = true :=
  have h := preProcessMetObs_domain_test radarEnv demoGrid emptyObLoop guardBandOb
  ⟨by decide!, by decide!,
    h.2.2.1 (by decide!) (Or.inl (by decide!)),
    h.2.2.2.2 VarDriverXYZ.new (configOf demoEntries) ⟨by decide!, by decide!, by decide!⟩
      ⟨by decide!, by decide!, by decide!⟩⟩

/-- C6: `preProcessMetObs` and `loadMetObs` leave in `obs` the array built from their
observation list; for every observation list that array has 14 entries per
observation, the slice `obs[14m .. 14m+13]` being value, inverse error, x, y, z, type,
time and the seven weights of observation `m`, in list order; and the main cost
function is constructed with the length of the list as observation count and with
that array. -/
theorem observation_array_layout (env : Env α) (d : VarDriverXYZ α) (hnum : d.numVars = 7) :
    (preProcessMetObs env d).obs =
      some (loadObsArray 7 (preProcessMetObs env d).obVector) ∧
    (loadMetObs env d).2.obs = some (loadObsArray 7 (loadMetObs env d).2.obVector) ∧
    (∀ v : List (Observation α),
      (loadObsArray 7 v).length = 14 * v.length ∧
      ∀ m (hm : m < v.length),
        ((loadObsArray 7 v).drop (14 * m)).take 14 = obTuple (v.get ⟨m, hm⟩)) ∧
    (∀ st, initializeDriver env d = Outcome.returned true st →
      ∃ cost, st.obCostXYZ = some cost ∧ cost.numObs = (st.obVector.length : Int) ∧
        cost.obs = loadObsArray 7 st.obVector) := by
  refine ⟨?_, ?_, loadObsArray_spec, ?_⟩
  · simp [preProcessMetObs, hnum]
  · simp [loadMetObs, hnum]
  · intro st hst
    obtain ⟨config, p, -, hp, hg⟩ := initializeDriver_returned_state env d st hst
    have hn : p.numVars = 7 := by
      rw [hg.1, internalGrid_numVars, hnum]
    refine ⟨_, by rw [hp]; rfl, by rw [hp]; rfl, ?_⟩
    rw [hp]
    simp [returnedState, preProcessMetObs, hn]

/-- Witness of C6: the freshly constructed driver has `numVars = 7`, and the array of a
list with the single pseudo observation of `demoGrid` has 14 entries. -/
theorem observation_array_layout_witness :
    (VarDriverXYZ.new : VarDriverXYZ ℚ).numVars = 7 ∧
    (loadObsArray 7 [pseudoWOb radarEnv demoGrid]).length = 14 :=
  ⟨rfl, ((observation_array_layout radarEnv VarDriverXYZ.new rfl).2.2.1
    [pseudoWOb radarEnv demoGrid]).1⟩

/-- C10: on a run that passes the stencil tests with a `refstate` other than `jordan`,
`initialize` prints "Reference state not defined!" and the process exits with status
`-1`, leaving the reference state and both cost functions as they were; and whenever
`initialize` returns `true` (the only way a cost function is built) the configured
`refstate` is `jordan` and the reference state is set. -/
theorem initialize_reference_state (env : Env α) (d : VarDriverXYZ α) :
    (∀ config, env.parseXMLconfig = some config →
      4 ≤ (configuredGrid env d config).idim ∧ 4 ≤ (configuredGrid env d config).jdim ∧
        4 ≤ (configuredGrid env d config).kdim →
      config "refstate" ≠ "jordan" →
      (initializeDriver env d).exitCode = some (-1) ∧
      (initializeDriver env d).value = none ∧
      Msg.refStateNotDefined ∈ (initializeDriver env d).state.cout ∧
      (initializeDriver env d).state.jordanReference = d.jordanReference ∧
      (initializeDriver env d).state.bgCostXYZ = d.bgCostXYZ ∧
      (initializeDriver env d).state.obCostXYZ = d.obCostXYZ) ∧
    (∀ st, initializeDriver env d = Outcome.returned true st →
      ∃ config, env.parseXMLconfig = some config ∧ config "refstate" = "jordan" ∧
        st.jordanReference = true) := by
  constructor
  · intro config hparse hstencil href
    rw [initializeDriver_of_stencil env d config hparse hstencil]
    have hc := internalGrid_configHash env d config
    unfold internalGrid at hc
    unfold initializeState
    dsimp only
    simp only [allocateBackground, hc, href, if_false]
    refine ⟨rfl, rfl, by simp [Outcome.state], ?_, ?_, ?_⟩ <;>
      simp only [Outcome.state, increaseInternalGrid, configuredGrid, defineGrid] <;>
      split <;> split <;> rfl
  · intro st hst
    obtain ⟨config, hc, hs⟩ := initializeDriver_returned_true env d st hst
    refine ⟨config, hc, ?_⟩
    have hcfg := internalGrid_configHash env d config
    unfold internalGrid at hcfg
    unfold initializeState at hs
    dsimp only at hs
    simp only [allocateBackground, hcfg] at hs
    split at hs
    · rename_i href
      refine ⟨href, ?_⟩
      split at hs
      · have h2 := congrArg (fun o => o.state.jordanReference) hs
        simp only [initializeAnalysis_jordan] at h2
        exact h2.symm
      · cases hs
    · cases hs

/-- Witness of C10: with `refstate = none` the run on the 4 x 4 x 4 configuration exits
with status `-1`. -/
theorem initialize_reference_state_witness :
    undefinedRefEnv.parseXMLconfig = some (configOf undefinedRefEntries) ∧
    configOf undefinedRefEntries "refstate" ≠ "jordan" ∧
    (initializeDriver undefinedRefEnv VarDriverXYZ.new).exitCode = some (-1) :=
  ⟨rfl, by decide!,
    ((initialize_reference_state undefinedRefEnv VarDriverXYZ.new).1
      (configOf undefinedRefEntries) rfl ⟨by decide!, by decide!, by decide!⟩
      (by decide!)).1⟩

/-- C5 (code at the failing input): with `R0` in the horizontal and `use_dbz_pseudow`
set, the run on the single radar gate at the corner `(0, 0)` of the usable domain
returns `true` with a pseudo observation in its observation list whose x coordinate
lies below `imin + iincr`, inside the guard band, and the main cost function receives
the array of that list. -/
theorem pseudo_observation_in_guard_band :
    configOf demoEntries "horizontalbc" = "R0" ∧
    (initializeDriver radarEnv VarDriverXYZ.new).value = some true ∧
    (∃ ob ∈ (initializeDriver radarEnv VarDriverXYZ.new).state.obVector,
      ob.cartesianX < (initializeDriver radarEnv VarDriverXYZ.new).state.imin +
        (initializeDriver radarEnv VarDriverXYZ.new).state.iincr) ∧
    ∃ cost, (initializeDriver radarEnv VarDriverXYZ.new).state.obCostXYZ = some cost ∧
      cost.obs = loadObsArray 7 (initializeDriver radarEnv VarDriverXYZ.new).state.obVector := by
  obtain ⟨hv, ho, cost, hc, -, hobs⟩ := initializeDriver_no_background_cost radarEnv
    VarDriverXYZ.new (configOf demoEntries) rfl
    ⟨by decide!, by decide!, by decide!⟩ (by decide!) (by decide!) (by decide!)
  refine ⟨by decide!, hv, ?_, cost, hc, hobs⟩
  rw [ho]
  exact ⟨_, finishReflectivity_first_column radarEnv radarStart
    (filesState radarEnv radarStart) (by decide!) (by decide!)
    (radar_files ▸ radar_first_column), by decide!⟩

/-- C7 (counterexample): the run on `radarEnv` loads no background, and entry 13 of the
background array handed to the main cost function is not zero. -/
theorem background_nonzero_without_load :
    radarEnv.qt.toInt (configOf demoEntries "load_background") = 0 ∧
    ∃ cost, (initializeDriver radarEnv VarDriverXYZ.new).state.obCostXYZ = some cost ∧
      cost.bgU.getD 13 0 ≠ 0 := by
  obtain ⟨-, -, cost, hc, hb, -⟩ := initializeDriver_no_background_cost radarEnv
    VarDriverXYZ.new (configOf demoEntries) rfl
    ⟨by decide!, by decide!, by decide!⟩ (by decide!) (by decide!) (by decide!)
  refine ⟨by decide!, cost, hc, ?_⟩
  rw [hb]
  apply finishReflectivity_invariant (fun a => a.getD 13 0 ≠ 0) radarEnv
  · intro a bgI bgJ bgK w hw ha
    show (divAt a _ w).getD 13 0 ≠ 0
    rw [getD_divAt]
    split
    · exact div_ne_zero ha hw
    · exact ha
  · exact radar_files ▸ radarGridded_entry

/-- C7 (amended): if no background is supplied (`load_background` is zero), the
background array that `initialize` hands to the main cost function has `uStateSize`
entries and is zero in every entry outside the slot of the seventh variable (index
6 modulo 7), the slot into which `preProcessMetObs` grids the radar reflectivity. -/
theorem background_zero_outside_reflectivity (env : Env α) (d st : VarDriverXYZ α)
    (config : ConfigHash) (hparse : env.parseXMLconfig = some config)
    (hnum : d.numVars = 7)
    (hload : env.qt.toInt (config "load_background") = 0)
    (hret : initializeDriver env d = Outcome.returned true st) :
    ∃ cost, st.obCostXYZ = some cost ∧
      cost.bgU.length = (uStateSize (internalGrid env d config)).toNat ∧
      ∀ i : Nat, i % 7 ≠ 6 → cost.bgU.getD i 0 = 0 := by
  obtain ⟨config', hc', ha⟩ := initializeDriver_returned_reference env d st hret
  rw [hparse] at hc'
  cases hc'
  have hl : env.qt.toInt ((referenceState env d config).configHash "load_background") = 0 := by
    show env.qt.toInt (referenceConfig env config "load_background") = 0
    rw [referenceConfig_other env config _ (by decide) (by decide) (by decide)]
    exact hload
  have hn : (referenceState env d config).numVars = 7 := by
    show (internalGrid env d config).numVars = 7
    rw [internalGrid_numVars, hnum]
  rcases initializeAnalysis_cases env (referenceState env d config)
      (bStateSize (internalGrid env d config)) with ⟨h, _⟩ | ⟨h, _⟩ | ⟨_, he⟩
  · exact absurd hl h
  · exact absurd hl h
  · rw [he] at ha
    cases ha
    have hs : analysisState env (referenceState env d config) 0
        (bStateSize (internalGrid env d config)) = referenceState env d config := by
      simp [analysisState]
    rw [hs]
    refine ⟨_, rfl, ?_, ?_⟩
    · show ((preProcessMetObs env _).bgU.getD []).length = _
      rw [preProcessMetObs_length]
      simp [referenceState, allocateBackground]
    · show ZeroOutsideSlot6 ((preProcessMetObs env (referenceState env d config)).bgU.getD [])
      apply preProcessMetObs_invariant ZeroOutsideSlot6 env _
        (fun a bgI bgJ bgK v h => zeroOutsideSlot6_addAt _ hn a bgI bgJ bgK v h)
        (fun a bgI bgJ bgK w _ h => zeroOutsideSlot6_divAt _ hn a bgI bgJ bgK w h)
      intro i _
      simp [referenceState, allocateBackground, List.getD_eq_getElem?_getD,
        List.getElem?_replicate]
      split <;> simp


/-- Witness of C7 (amended): on `radarEnv`, which loads no background, the array handed
to the main cost function is zero outside the slots of the seventh variable. -/
theorem background_zero_outside_reflectivity_witness :
    radarEnv.qt.toInt (configOf demoEntries "load_background") = 0 ∧
    ∃ cost, (initializeDriver radarEnv VarDriverXYZ.new).state.obCostXYZ = some cost ∧
      ∀ i : Nat, i % 7 ≠ 6 → cost.bgU.getD i 0 = 0 :=
  have hrun := initializeDriver_of_no_background radarEnv VarDriverXYZ.new
    (configOf demoEntries) rfl ⟨by decide!, by decide!, by decide!⟩ (by decide!)
    (by decide!) (by decide!)
  have h := background_zero_outside_reflectivity radarEnv VarDriverXYZ.new _
    (configOf demoEntries) rfl rfl (by decide!) hrun
  ⟨by decide!, h.choose, by rw [hrun]; exact h.choose_spec.1, h.choose_spec.2.2⟩

/-- C8 (code at the failing input): on the internal grid of `demoEntries`, where
`xfilter = 2`, `yfilter = 3`, `iincr = 1` and `backgroundroi = 5`, the rescale is
applied, and after `adjustBackground` the value of `yfilter` is 2, the former
`xfilter`, not 3. -/
theorem adjustBackground_yfilter_overwritten :
    demoQt.toFloat (demoGrid.configHash "xfilter") * demoGrid.iincr
      < demoQt.toFloat (demoGrid.configHash "backgroundroi") ∧
    demoQt.toFloat (demoGrid.configHash "yfilter") = 3 ∧
    demoQt.toFloat ((adjustBackground radarEnv demoGrid 0).configHash "yfilter") = 2 := by
  decide!

/-- C9 (code at the failing input): with a one-record background file whose spline
setup fails, `loadBackgroundObs` returns `-1`, and `initialize` still returns `true`
after running `adjustBackground` (the background cost function exists) and building the
main cost function. -/
theorem initialize_continues_after_spline_failure :
    (loadBackgroundObs splineFailEnv
      (referenceState splineFailEnv VarDriverXYZ.new (configOf backgroundEntries))).1
        = some (-1) ∧
    (initializeDriver splineFailEnv VarDriverXYZ.new).value = some true ∧
    (initializeDriver splineFailEnv VarDriverXYZ.new).state.bgCostXYZ.isSome = true ∧
    (initializeDriver splineFailEnv VarDriverXYZ.new).state.obCostXYZ.isSome = true :=
  ⟨by decide!, by decide!, by decide!, by decide!⟩

/-- C11: a radar or lidar record that passes the time and domain tests adds exactly one
tuple, whose weights are `sin(az)cos(el)`, `cos(az)cos(el)`, `sin(el)` and four zeros for
the azimuth `az` and elevation `el` in radians; for a sine and cosine that satisfy the
Pythagorean identity the first three weights form a unit vector. -/
theorem doppler_weights (env : Env α) (d : VarDriverXYZ α) (st : ObLoop α)
    (metOb : MetObs α)
    (hpyth : ∀ x, env.libm.sin x ^ 2 + env.libm.cos x ^ 2 = 1)
    (htype : metOb.obType = ObType.radar ∨ metOb.obType = ObType.lidar)
    (ht : startTime d.frameVector ≤ metOb.time ∧ metOb.time ≤ endTime d.frameVector ∧
      metOb.time - startTime d.frameVector ≤ (d.frameVector.length : Int))
    (hin : obInDomain d (metObPosition env d metOb).1 (metObPosition env d metOb).2.1
      (metObPosition env d metOb).2.2 = true) :
    ∃ ob, (processMetOb env d st metOb).obVector = st.obVector ++ [ob] ∧
      ob.weight 0 = env.libm.sin (metOb.azimuth * env.libm.Pi / 180) *
        env.libm.cos (metOb.elevation * env.libm.Pi / 180) ∧
      ob.weight 1 = env.libm.cos (metOb.azimuth * env.libm.Pi / 180) *
        env.libm.cos (metOb.elevation * env.libm.Pi / 180) ∧
      ob.weight 2 = env.libm.sin (metOb.elevation * env.libm.Pi / 180) ∧
      ob.weight 3 = 0 ∧ ob.weight 4 = 0 ∧ ob.weight 5 = 0 ∧ ob.weight 6 = 0 ∧
      ob.weight 0 ^ 2 + ob.weight 1 ^ 2 + ob.weight 2 ^ 2 = 1 := by
  have h1 := hpyth (metOb.azimuth * env.libm.Pi / 180)
  have h2 := hpyth (metOb.elevation * env.libm.Pi / 180)
  unfold metObPosition at hin
  unfold processMetOb
  dsimp only
  rw [if_neg (by omega), if_neg (by omega), if_neg (by rw [hin]; simp)]
  rcases htype with hr | hl
  · simp only [hr, radarObs, pushDoppler]
    refine ⟨_, rfl, ?_, ?_, ?_, ?_, ?_, ?_, ?_, ?_⟩ <;>
      simp [Observation.setWeight, Observation.setError, Observation.setOb,
        Observation.setType]
    linear_combination (env.libm.cos (metOb.elevation * env.libm.Pi / 180)) ^ 2 * h1 + h2
  · by_cases hneg : metOb.reflectivity < 0
    · simp only [hl, lidarObs, if_pos hneg, pushDopplerUnclamped]
      refine ⟨_, rfl, ?_, ?_, ?_, ?_, ?_, ?_, ?_, ?_⟩ <;>
        simp [Observation.setWeight, Observation.setError, Observation.setOb,
          Observation.setType]
      linear_combination (env.libm.cos (metOb.elevation * env.libm.Pi / 180)) ^ 2 * h1 + h2
    · by_cases hzero : metOb.reflectivity = 0
      · simp only [hl, lidarObs, if_neg hneg, if_pos hzero, pushDopplerUnclamped]
        refine ⟨_, rfl, ?_, ?_, ?_, ?_, ?_, ?_, ?_, ?_⟩ <;>
          simp [Observation.setWeight, Observation.setError, Observation.setOb,
            Observation.setType]
        linear_combination
          (env.libm.cos (metOb.elevation * env.libm.Pi / 180)) ^ 2 * h1 + h2
      · simp only [hl, lidarObs, if_neg hneg, if_neg hzero, pushDoppler]
        refine ⟨_, rfl, ?_, ?_, ?_, ?_, ?_, ?_, ?_, ?_⟩ <;>
          simp [Observation.setWeight, Observation.setError, Observation.setOb,
            Observation.setType]
        linear_combination
          (env.libm.cos (metOb.elevation * env.libm.Pi / 180)) ^ 2 * h1 + h2

/-- Witness of C11: the stand-in sine and cosine satisfy the Pythagorean identity, and
the radar gate `demoRadarOb` adds one tuple with a unit weight vector. -/
theorem doppler_weights_witness :
    (∀ x, radarEnv.libm.sin x ^ 2 + radarEnv.libm.cos x ^ 2 = 1) ∧
    demoRadarOb.obType = ObType.radar ∧
    ∃ ob, (processMetOb radarEnv radarStart emptyObLoop demoRadarOb).obVector = [ob] ∧
      ob.weight 0 ^ 2 + ob.weight 1 ^ 2 + ob.weight 2 ^ 2 = 1 :=
  have h := doppler_weights radarEnv radarStart emptyObLoop demoRadarOb rational_pythagoras
    (Or.inl rfl) ⟨by decide!, by decide!, by decide!⟩ (by decide!)
  ⟨rational_pythagoras, rfl, h.choose, h.choose_spec.1, h.choose_spec.2.2.2.2.2.2.2.2⟩

/-- C12: for the transform pairs as the spec describes them (a synthesis by the cached
basis table and a scatter with the same weights), in exact arithmetic and for every
table of every boundary-condition combination: `<SBtransform(u), b> = <u, SBtranspose(b)>`
for all quadrature-space `u` and nodal `b`, and `<SCtransform(a), c> = <a, SCtranspose(c)>`
for all coefficient vectors `a` and `c`. -/
theorem transform_adjoint {nB nU nA nC : Nat}
    (lookupSB : BoundaryTags → Fin nB → Fin nU → α)
    (lookupSC : BoundaryTags → Fin nA → Fin nC → α) (bc : BoundaryTags) :
    (∀ (u : Fin nU → α) (b : Fin nB → α),
      innerProduct (SBtransform lookupSB bc u) b =
        innerProduct u (SBtranspose lookupSB bc b)) ∧
    (∀ (a : Fin nA → α) (c : Fin nC → α),
      innerProduct (SCtransform lookupSC bc a) c =
        innerProduct a (SCtranspose lookupSC bc c)) := by
  constructor
  · intro u b
    unfold SBtransform SBtranspose
    have h := synthesize_adjoint (lookupSB bc) b u
    unfold innerProduct at h ⊢
    calc ∑ i, synthesizeTranspose (lookupSB bc) u i * b i
        = ∑ i, b i * synthesizeTranspose (lookupSB bc) u i :=
          Finset.sum_congr rfl (fun i _ => mul_comm _ _)
      _ = ∑ t, synthesize (lookupSB bc) b t * u t := h.symm
      _ = ∑ t, u t * synthesize (lookupSB bc) b t :=
          Finset.sum_congr rfl (fun i _ => mul_comm _ _)
  · intro a c
    unfold SCtransform SCtranspose
    exact synthesize_adjoint _ a c

/-- C13 (code at the failing input): with `R0` in the horizontal, a background record at
`x = -0.5`, inside the guard band `[-1, 0)`, is loaded, and `adjustBackground` builds its
seven tuples: the background cost function has 7 observations, the first at
`x = -0.5 < imin + iincr`. -/
theorem adjustBackground_keeps_guard_band_record :
    configOf backgroundEntries "horizontalbc" = "R0" ∧
    (initializeDriver guardBackgroundEnv VarDriverXYZ.new).state.bgCostXYZ.map
      (fun cost => cost.numObs) = some 7 ∧
    (initializeDriver guardBackgroundEnv VarDriverXYZ.new).state.bgCostXYZ.map
      (fun cost => cost.obs.getD 2 0) = some (-1 / 2) ∧
    (-1 / 2 : ℚ) < (initializeDriver guardBackgroundEnv VarDriverXYZ.new).state.imin +
      (initializeDriver guardBackgroundEnv VarDriverXYZ.new).state.iincr :=
  ⟨by decide!, by decide!, by decide!, by decide!⟩

/-- C14 (code at the failing input): with `xfilter = 5`, `yfilter = 3`, unit increments
and `backgroundroi = 5` no rescale takes place (`xfilter*iincr = 5`), and the background
cost function sees `yfilter*jincr = 3`, below `backgroundroi = 5`. -/
theorem adjustBackground_yfilter_below_roi :
    ((initializeDriver wideFilterEnv VarDriverXYZ.new).state.bgCostXYZ.map
      (fun cost => demoQt.toFloat (cost.configHash "xfilter") *
        (initializeDriver wideFilterEnv VarDriverXYZ.new).state.iincr)) = some 5 ∧
    ((initializeDriver wideFilterEnv VarDriverXYZ.new).state.bgCostXYZ.map
      (fun cost => demoQt.toFloat (cost.configHash "yfilter") *
        (initializeDriver wideFilterEnv VarDriverXYZ.new).state.jincr)) = some 3 ∧
    ((initializeDriver wideFilterEnv VarDriverXYZ.new).state.bgCostXYZ.map
      (fun cost => demoQt.toFloat (cost.configHash "backgroundroi"))) = some 5 :=
  ⟨by decide!, by decide!, by decide!⟩

/-- C16: every tuple that a dropsonde, flight-level, QuikSCAT, ASCAT or AMV record adds
to the observation list has the weight 1 at exactly one variable index below 6, the
other six weights being 0, and its value is the one measured for that index (0 u
momentum, 1 v momentum, 2 w momentum, 3 temperature, 4 moisture, 5 density). -/
theorem single_variable_weights (env : Env α) (d : VarDriverXYZ α) (st : ObLoop α)
    (metOb : MetObs α)
    (htype : metOb.obType = ObType.dropsonde ∨ metOb.obType = ObType.flightlevel ∨
      metOb.obType = ObType.qscat ∨ metOb.obType = ObType.ascat ∨
      metOb.obType = ObType.AMV) :
    ∃ l, (processMetOb env d st metOb).obVector = st.obVector ++ l ∧
      ∀ ob ∈ l, ∃ i, i < 6 ∧ ob.weight i = 1 ∧
        (∀ j, j < 7 → j ≠ i → ob.weight j = 0) ∧
        ob.ob = singleObValue env d metOb i := by
  have hnil : ∃ l, st.obVector = st.obVector ++ l ∧
      ∀ ob ∈ l, SingleWeight (singleObValue env d metOb) ob :=
    ⟨[], by simp, fun _ h => absurd h (List.not_mem_nil _)⟩
  unfold processMetOb
  dsimp only
  split
  · exact hnil
  split
  · exact hnil
  split
  · exact hnil
  have hbase : ∀ (o : Observation α) (t : Int), SingleWeightState
      (singleObValue env d metOb) st.obVector
      ((((((((o.setWeight 0 0).setWeight 0 1).setWeight 0 2).setWeight 0 3).setWeight 0 4
        ).setWeight 0 5).setWeight 0 6).setType t, st.obVector) := by
    intro o t
    refine ⟨?_, [], by simp, fun _ h => absurd h (List.not_mem_nil _)⟩
    intro j hj
    simp only [Observation.setWeight, Observation.setType]
    interval_cases j <;> simp
  rcases htype with h | h | h | h | h
  · simp only [h]
    exact (sondeObs_singleWeight env d metOb (by simp [h]) _ _ _ (hbase _ _)).2
  · simp only [h]
    exact (sondeObs_singleWeight env d metOb (by simp [h]) _ _ _ (hbase _ _)).2
  · simp only [h]
    exact (scatObs_singleWeight env d metOb (by simp [h]) _ _ _ (hbase _ _)).2
  · simp only [h]
    exact (scatObs_singleWeight env d metOb (by simp [h]) _ _ _ (hbase _ _)).2
  · simp only [h]
    exact (scatObs_singleWeight env d metOb (by simp [h]) _ _ _ (hbase _ _)).2

/-- Witness of C16: the tuples of the dropsonde record `demoSondeOb`. -/
theorem single_variable_weights_witness :
    demoSondeOb.obType = ObType.dropsonde ∧
    ∃ l, (processMetOb radarEnv radarStart emptyObLoop demoSondeOb).obVector
        = emptyObLoop.obVector ++ l ∧
      ∀ ob ∈ l, ∃ i, i < 6 ∧ ob.weight i = 1 ∧
        (∀ j, j < 7 → j ≠ i → ob.weight j = 0) ∧
        ob.ob = singleObValue radarEnv radarStart demoSondeOb i :=
  ⟨rfl, single_variable_weights radarEnv radarStart emptyObLoop demoSondeOb (Or.inl rfl)⟩

/-- C17: the fall speed of a radar observation is the blend by height of the rain fall
speed and the ice-phase fall speed: the rain value for `H <= 4800`, the ice value for
`H >= 5800`, and `VTR*(5800-H)/1000 + VTS*(H-4800)/1000` in between; the blend lies
between the two values, `fallSpeed` is this blend of the rain fall speed and the
ice-phase fall speed, the gridded `qr` is the same blend of the rain mass and the ice
mass, and over the reals the blend is continuous in `H`. -/
theorem fall_speed_blend (env : Env α) (Z H rhoBar VTR VTS : α) :
    (H ≤ 4800 → blendByHeight H VTR VTS = VTR) ∧
    (5800 ≤ H → blendByHeight H VTR VTS = VTS) ∧
    (4800 < H → H < 5800 →
      blendByHeight H VTR VTS = VTR * (5800 - H) / 1000 + VTS * (H - 4800) / 1000) ∧
    (min VTR VTS ≤ blendByHeight H VTR VTS ∧ blendByHeight H VTR VTS ≤ max VTR VTS) ∧
    fallSpeed env Z H = blendByHeight H (rainFallSpeed env Z H)
      (blendByReflectivity Z (rainFallSpeed env Z H) (snowFallSpeed env Z H)) ∧
    griddedReflectivity env "qr" Z H rhoBar = env.bhypTransform
      (blendByHeight H (rainMass env Z)
        (blendByReflectivity Z (rainMass env Z) (iceMass env Z)) / rhoBar) ∧
    (∀ r s : ℝ, Continuous (fun h : ℝ => blendByHeight h r s)) := by
  refine ⟨?_, ?_, ?_, ?_, rfl, ?_, ?_⟩
  · intro h
    rw [blendByHeight_clamp]
    have : (H - 4800) / 1000 ≤ 0 := by
      apply div_nonpos_of_nonpos_of_nonneg <;> linarith
    rw [max_eq_left (le_trans (min_le_right _ _) this)]
    ring
  · intro h
    rw [blendByHeight_clamp]
    have : 1 ≤ (H - 4800) / 1000 := by
      rw [le_div_iff₀ (by norm_num)]; linarith
    rw [min_eq_left this, max_eq_right (by norm_num)]
    ring
  · intro h1 h2
    unfold blendByHeight
    dsimp only
    rw [if_neg (by linarith), if_neg (by linarith)]
    norm_num
  · rw [blendByHeight_clamp]
    exact clamp_between VTR VTS _ (clamp_unit _).1 (clamp_unit _).2
  · simp [griddedReflectivity, rainMass, iceMass]
  · intro r s
    have : (fun h : ℝ => blendByHeight h r s) =
        fun h => r + (s - r) * max 0 (min 1 ((h - 4800) / 1000)) :=
      funext (fun h => blendByHeight_clamp h r s)
    rw [this]
    fun_prop


theorem fall_speed_blend_witness :
    (5300 : ℚ) < 5800 ∧ blendByHeight (5300 : ℚ) 2 4 = 3 :=
  ⟨by norm_num, by
    rw [(fall_speed_blend radarEnv 0 5300 1 2 4).2.2.1 (by norm_num) (by norm_num)]
    norm_num⟩

/-- C18: the ice-phase value is the blend by reflectivity of the rain relation and the
snow relation: the snow value for `Z <= 20`, the rain value for `Z > 30`, and
`rain*(Z-20)/10 + snow*(1-(Z-20)/10)` for `20 < Z <= 30`; the blend lies between the
snow and the rain value, it is the ice-phase fall speed of `fallSpeed` and the ice
mass of the gridded `qr`, and over the reals it is continuous in `Z` (so at 20 and at
30). -/
theorem reflectivity_blend (env : Env α) (Z H rain snow : α) :
    (Z ≤ 20 → blendByReflectivity Z rain snow = snow) ∧
    (30 < Z → blendByReflectivity Z rain snow = rain) ∧
    (20 < Z → Z ≤ 30 →
      blendByReflectivity Z rain snow =
        rain * ((Z - 20) / 10) + snow * (1 - (Z - 20) / 10)) ∧
    (min snow rain ≤ blendByReflectivity Z rain snow ∧
      blendByReflectivity Z rain snow ≤ max snow rain) ∧
    fallSpeed env Z H = blendByHeight H (rainFallSpeed env Z H)
      (blendByReflectivity Z (rainFallSpeed env Z H) (snowFallSpeed env Z H)) ∧
    (∀ rhoBar, griddedReflectivity env "qr" Z H rhoBar = env.bhypTransform
      (blendByHeight H (rainMass env Z)
        (blendByReflectivity Z (rainMass env Z) (iceMass env Z)) / rhoBar)) ∧
    (∀ r s : ℝ, Continuous (fun z : ℝ => blendByReflectivity z r s)) := by
  refine ⟨?_, ?_, ?_, ?_, rfl, ?_, ?_⟩
  · intro h
    rw [blendByReflectivity_clamp]
    have : (Z - 20) / 10 ≤ 0 := by
      apply div_nonpos_of_nonpos_of_nonneg <;> linarith
    rw [max_eq_left (le_trans (min_le_right _ _) this)]
    ring
  · intro h
    rw [blendByReflectivity_clamp]
    have : 1 ≤ (Z - 20) / 10 := by
      rw [le_div_iff₀ (by norm_num)]; linarith
    rw [min_eq_left this, max_eq_right (by norm_num)]
    ring
  · intro h1 h2
    rw [blendByReflectivity_clamp]
    have a : 0 ≤ (Z - 20) / 10 := by
      apply div_nonneg <;> linarith
    have b : (Z - 20) / 10 ≤ 1 := by
      rw [div_le_iff₀ (by norm_num)]; linarith
    rw [min_eq_right b, max_eq_right a]
    ring
  · rw [blendByReflectivity_clamp]
    exact clamp_between snow rain _ (clamp_unit _).1 (clamp_unit _).2
  · intro rhoBar
    simp [griddedReflectivity, rainMass, iceMass]
  · intro r s
    have : (fun z : ℝ => blendByReflectivity z r s) =
        fun z => s + (r - s) * max 0 (min 1 ((z - 20) / 10)) :=
      funext (fun z => blendByReflectivity_clamp z r s)
    rw [this]
    fun_prop

theorem reflectivity_blend_witness :
    (25 : ℚ) ≤ 30 ∧ blendByReflectivity (25 : ℚ) 4 2 = 3 :=
  ⟨by norm_num, by
    rw [(reflectivity_blend radarEnv 25 0 4 2).2.2.1 (by norm_num) (by norm_num)]
    norm_num⟩

/-- C19: when `sqrt(1/3)` is the positive root of `1/3` and the increment is positive,
the two mish coordinates of the cell `xi` are the two-point Gauss-Legendre nodes of the
cell: they have the mish indices `2*xi` and `2*xi + 1`, they are symmetric about the
cell centre `min + incr*(xi + 1/2)` at the distance `incr*sqrt(1/3)/2`, which is the
positive root of `12*dist^2 = incr^2`, their coordinate scaled to the cell `[-1, 1]`
satisfies `3*t^2 = 1`, they lie strictly inside the cell, and the mish coordinate is
strictly increasing in the mish index, over all cells of the axis. The statement is for
any axis, since the three axes use the same `mishPos`. -/
theorem mish_gauss_points (m : Libm α) (min incr : α) (xi : Nat)
    (hs0 : 0 < m.sqrt (1 / 3)) (hs : m.sqrt (1 / 3) * m.sqrt (1 / 3) = 1 / 3)
    (hincr : 0 < incr) :
    mishIndex xi (-1) = 2 * (xi : Int) ∧ mishIndex xi 1 = 2 * (xi : Int) + 1 ∧
    mishPos m min incr xi 1 - (min + incr * ((xi : α) + 1 / 2)) =
      incr * m.sqrt (1 / 3) / 2 ∧
    (min + incr * ((xi : α) + 1 / 2)) - mishPos m min incr xi (-1) =
      incr * m.sqrt (1 / 3) / 2 ∧
    0 < incr * m.sqrt (1 / 3) / 2 ∧
    12 * (incr * m.sqrt (1 / 3) / 2) ^ 2 = incr ^ 2 ∧
    (∀ mu ∈ muValues,
      3 * ((mishPos m min incr xi mu - (min + incr * ((xi : α) + 1 / 2))) /
        (incr / 2)) ^ 2 = 1) ∧
    (∀ mu ∈ muValues, min + (xi : α) * incr < mishPos m min incr xi mu ∧
      mishPos m min incr xi mu < min + ((xi : α) + 1) * incr) ∧
    (∀ xj : Nat, ∀ mu ∈ muValues, ∀ nu ∈ muValues,
      (mishIndex xi mu < mishIndex xj nu ↔
        mishPos m min incr xi mu < mishPos m min incr xj nu)) := by
  have hs1 := sqrt_third_lt_one _ hs0 hs
  have hne : incr ≠ 0 := ne_of_gt hincr
  refine ⟨mishIndex_neg xi, mishIndex_pos xi, ?_, ?_, ?_, ?_, ?_, ?_, ?_⟩
  · unfold mishPos
    push_cast
    ring
  · unfold mishPos
    push_cast
    ring
  · positivity
  · have : (incr * m.sqrt (1 / 3) / 2) ^ 2 =
        incr ^ 2 * (m.sqrt (1 / 3) * m.sqrt (1 / 3)) / 4 := by ring
    rw [this, hs]
    ring
  · intro mu hmu
    have hmu2 : mu = -1 ∨ mu = 1 := by simpa [muValues] using hmu
    have key : ∀ t : α, t = m.sqrt (1 / 3) ∨ t = -m.sqrt (1 / 3) → 3 * t ^ 2 = 1 := by
      intro t ht
      rcases ht with h | h <;> rw [h] <;> nlinarith
    apply key
    unfold mishPos
    rcases hmu2 with h | h <;> subst h <;> push_cast
    · right
      field_simp
      ring
    · left
      field_simp
      ring
  · intro mu hmu
    exact mishPos_inside m min incr xi mu hmu hs0 hs1 hincr
  · intro xj mu hmu nu hnu
    constructor
    · exact mishPos_lt m min incr xi xj mu nu hmu hnu hs0 hs1 hincr
    · intro h
      by_contra hc
      rcases lt_or_eq_of_le (le_of_not_lt hc) with h1 | h1
      · have := mishPos_lt m min incr xj xi nu mu hnu hmu hs0 hs1 hincr h1
        exact absurd h (not_lt.mpr (le_of_lt this))
      · obtain ⟨a, b⟩ := mishIndex_injective xj xi nu mu hnu hmu h1
        subst a
        subst b
        exact absurd h (lt_irrefl _)

theorem mish_gauss_points_witness :
    (0 : ℝ) < 1 ∧
    mishPos (⟨Real.sqrt, Real.exp, Real.log, Real.sin, Real.cos,
      fun x y => x ^ y, Real.pi⟩ : Libm ℝ) 0 1 0 1 - (0 + 1 * (((0 : Nat) : ℝ) + 1 / 2))
      = 1 * Real.sqrt (1 / 3) / 2 :=
  ⟨one_pos, (mish_gauss_points (⟨Real.sqrt, Real.exp, Real.log, Real.sin, Real.cos,
      fun x y => x ^ y, Real.pi⟩ : Libm ℝ) 0 1 0
      (Real.sqrt_pos.mpr (by norm_num)) (Real.mul_self_sqrt (by norm_num))
      one_pos).2.2.1⟩

/-- C20: on a driver with a cost function, `run` returns `true` after `maxIter` outer
iterations (none when `maxIter` is negative): it prints one line per iteration, and the
calls it makes on the one cost-function instance are `initState`, `minimize`,
`updateBG`, in that order, once per iteration (the list is latest first), so three per
iteration and never `finalize`; the instance is otherwise unchanged, and the
constructor sets `maxIter = 1`, which gives exactly one iteration. -/
theorem run_iterations (env : Env α) (d : VarDriverXYZ α) (cost : CostFunctionXYZ α)
    (h : d.obCostXYZ = some cost) :
    (run env d).1 = true ∧
    (run env d).2.obCostXYZ =
      some { cost with calls := iterationCalls d.maxIter.toNat ++ cost.calls } ∧
    (run env d).2.cout = iterationLines d.maxIter.toNat ++ d.cout ∧
    (∀ n, iterationCalls (n + 1) = CostCall.updateBG :: CostCall.minimize ::
      CostCall.initState :: iterationCalls n) ∧
    (iterationCalls d.maxIter.toNat).length = 3 * d.maxIter.toNat ∧
    (iterationLines d.maxIter.toNat).length = d.maxIter.toNat ∧
    CostCall.finalize ∉ iterationCalls d.maxIter.toNat ∧
    (VarDriverXYZ.new : VarDriverXYZ α).maxIter = 1 ∧
    (d.maxIter = 1 → (run env d).2.obCostXYZ = some { cost with calls :=
      CostCall.updateBG :: CostCall.minimize :: CostCall.initState :: cost.calls }) := by
  have hs := runLoop_spec env d cost h d.maxIter.toNat
  refine ⟨rfl, hs.1, hs.2, fun _ => rfl, iterationCalls_length _,
    iterationLines_length _, finalize_not_mem_iterationCalls _, rfl, ?_⟩
  intro h1
  show (runLoop env d d.maxIter.toNat).obCostXYZ = _
  rw [hs.1, h1]
  rfl

theorem run_iterations_witness :
    (run radarEnv { radarStart with obCostXYZ := some ⟨0, 0, fun _ => "", [], [], []⟩ }).1
      = true :=
  (run_iterations radarEnv
    { radarStart with obCostXYZ := some ⟨0, 0, fun _ => "", [], [], []⟩ }
    ⟨0, 0, fun _ => "", [], [], []⟩ rfl).1

/-- C15: when `bgIn` holds `R` records of 11 values and `numVars = 7`, the cost
function of `adjustBackground` receives `7` observations per record inside the domain
and an array of `14*7*R` values, in which the record number `q` among those inside the
domain, at the offset `m` of `bgIn`, fills the seven tuples `7*q + n`, `n = 0..6`:
tuple `7*q + n` is the value `bgIn[m+4+n]`, the inverse error 1, the position
`(x, y, exp(logZ))` of the record, the type tag -1, the time of the record, and the
seven weights, which are 1 at `n` and 0 elsewhere. -/
theorem adjustBackground_tuples (env : Env α) (d : VarDriverXYZ α) (bStateSize : Int)
    (R : Nat) (hv : d.numVars = 7) (hlen : d.bgIn.length = 11 * R) :
    ∃ cost, (adjustBackground env d bStateSize).bgCostXYZ = some cost ∧
      cost.numObs = 7 * ((bgRecordsInDomain env d).length : Int) ∧
      cost.obs.length = 14 * (7 * R) ∧
      (∀ m ∈ bgRecordsInDomain env d, bgRecordInDomain env d m = true ∧
        m ∈ recordOffsets d.bgIn.length) ∧
      (∀ q (hq : q < (bgRecordsInDomain env d).length) n, n < 7 →
        ((cost.obs.drop (14 * (7 * q + n))).take 14 =
          bgTuple env d ((bgRecordsInDomain env d).get ⟨q, hq⟩) n)) ∧
      (∀ m n, bgTuple env d m n =
        [readAt d.bgIn (m + 4 + (n : Int)), 1, readAt d.bgIn m, readAt d.bgIn (m + 1),
          env.libm.exp (readAt d.bgIn (m + 2)), -1, readAt d.bgIn (m + 3)] ++
        (List.range 7).map (fun v => if v = n then 1 else 0)) := by
  have hR : (recordOffsets d.bgIn.length).length = R := by
    rw [hlen]; exact recordOffsets_length R
  have hnum : ((d.bgIn.length : Int) * 7 / 11) = 7 * (R : Int) := by
    rw [hlen]; push_cast; omega
  obtain ⟨i1, i2, -, i4⟩ := adjustBackgroundLoop_spec env d hv
    (recordOffsets d.bgIn.length)
    ⟨0, (d.bgIn.length : Int) * 7 / 11,
      List.replicate ((d.bgIn.length : Int) * 7 / 11 * 14).toNat 0⟩ 0 rfl
    (by simp only [List.length_replicate, hR, hnum]; omega)
    (fun j _ => getD_replicate_zero _ j)
  have hflen : (bgRecordsInDomain env d).length ≤ R := by
    rw [← hR]; exact List.length_filter_le _ _
  have hobs : ((recordOffsets d.bgIn.length).foldl (adjustBackgroundRecord env d)
      ⟨0, (d.bgIn.length : Int) * 7 / 11,
        List.replicate ((d.bgIn.length : Int) * 7 / 11 * 14).toNat 0⟩).bgObs.length
      = 14 * (7 * R) := by
    rw [i2]
    simp only [List.length_replicate, hnum]
    omega
  refine ⟨_, rfl, ?_, hobs, ?_, ?_, fun _ _ => rfl⟩
  · dsimp only at i1
    rw [hR] at i1
    show ((recordOffsets d.bgIn.length).foldl (adjustBackgroundRecord env d)
      ⟨0, (d.bgIn.length : Int) * 7 / 11,
        List.replicate ((d.bgIn.length : Int) * 7 / 11 * 14).toNat 0⟩).numbgObs
      = 7 * (((recordOffsets d.bgIn.length).filter (bgRecordInDomain env d)).length
      : Int)
    omega
  · intro m hm
    have := List.mem_filter.mp hm
    exact ⟨this.2, this.1⟩
  · intro q hq n hn
    apply slice_eq_of_getD _ _ (7 * q + n) (bgTuple_length env d _ n)
    · rw [hobs]
      omega
    · intro k hk
      refine Eq.trans ?_ (i4 q hq n hn k hk)
      congr 1
      omega

theorem adjustBackground_tuples_witness :
    ({ radarStart with bgIn := [1, 1, 0, 0, 1, 2, 3, 4, 5, 6, 7] } :
        VarDriverXYZ ℚ).bgIn.length = 11 * 1 ∧
    ∃ cost, (adjustBackground radarEnv
        { radarStart with bgIn := [1, 1, 0, 0, 1, 2, 3, 4, 5, 6, 7] } 0).bgCostXYZ
          = some cost ∧
      cost.obs.length = 14 * (7 * 1) :=
  ⟨rfl,
    (adjustBackground_tuples radarEnv
      { radarStart with bgIn := [1, 1, 0, 0, 1, 2, 3, 4, 5, 6, 7] } 0 1 rfl rfl).imp
      (fun _ h => ⟨h.1, h.2.2.1⟩)⟩

/-- C26: on every axis whose configured increment is positive and whose maximum is not
below its minimum, the node count `trunc((max - min)/incr) + 1` that "Define the grid
dimensions" computes is at least 1 and satisfies `min + (dim-1)*incr <= max <
min + dim*incr`; the last node is the maximum exactly when `max - min` is an integer
multiple of the increment. -/
theorem node_count_bracket (q : QtConv α) (d : VarDriverXYZ α) :
    (0 < (defineGrid q d).iincr → (defineGrid q d).imin ≤ (defineGrid q d).imax →
      1 ≤ (defineGrid q d).idim ∧
      (defineGrid q d).imin + (((defineGrid q d).idim : α) - 1) * (defineGrid q d).iincr
        ≤ (defineGrid q d).imax ∧
      (defineGrid q d).imax <
        (defineGrid q d).imin + ((defineGrid q d).idim : α) * (defineGrid q d).iincr ∧
      ((defineGrid q d).imin + (((defineGrid q d).idim : α) - 1) * (defineGrid q d).iincr
          = (defineGrid q d).imax ↔
        ∃ n : Int, (defineGrid q d).imax - (defineGrid q d).imin
          = (n : α) * (defineGrid q d).iincr)) ∧
    (0 < (defineGrid q d).jincr → (defineGrid q d).jmin ≤ (defineGrid q d).jmax →
      1 ≤ (defineGrid q d).jdim ∧
      (defineGrid q d).jmin + (((defineGrid q d).jdim : α) - 1) * (defineGrid q d).jincr
        ≤ (defineGrid q d).jmax ∧
      (defineGrid q d).jmax <
        (defineGrid q d).jmin + ((defineGrid q d).jdim : α) * (defineGrid q d).jincr ∧
      ((defineGrid q d).jmin + (((defineGrid q d).jdim : α) - 1) * (defineGrid q d).jincr
          = (defineGrid q d).jmax ↔
        ∃ n : Int, (defineGrid q d).jmax - (defineGrid q d).jmin
          = (n : α) * (defineGrid q d).jincr)) ∧
    (0 < (defineGrid q d).kincr → (defineGrid q d).kmin ≤ (defineGrid q d).kmax →
      1 ≤ (defineGrid q d).kdim ∧
      (defineGrid q d).kmin + (((defineGrid q d).kdim : α) - 1) * (defineGrid q d).kincr
        ≤ (defineGrid q d).kmax ∧
      (defineGrid q d).kmax <
        (defineGrid q d).kmin + ((defineGrid q d).kdim : α) * (defineGrid q d).kincr ∧
      ((defineGrid q d).kmin + (((defineGrid q d).kdim : α) - 1) * (defineGrid q d).kincr
          = (defineGrid q d).kmax ↔
        ∃ n : Int, (defineGrid q d).kmax - (defineGrid q d).kmin
          = (n : α) * (defineGrid q d).kincr)) := by
  refine ⟨?_, ?_, ?_⟩ <;>
  · intro hincr hle
    simp only [defineGrid] at hincr hle ⊢
    obtain ⟨h0, h1, h2, h3⟩ := truncToInt_bracket _ _ _ hincr hle
    push_cast
    simp only [add_sub_cancel_right]
    exact ⟨by omega, h1, h2, h3⟩

/-- Witness of C26: the x axis of the configuration `demoEntries`, `[0, 3]` with the
increment 1, has four nodes and its last node is the maximum. -/
theorem node_count_bracket_witness :
    0 < (defineGrid demoQt
      { (VarDriverXYZ.new : VarDriverXYZ ℚ) with configHash := configOf demoEntries }).iincr ∧
    1 ≤ (defineGrid demoQt
      { (VarDriverXYZ.new : VarDriverXYZ ℚ) with configHash := configOf demoEntries }).idim :=
  ⟨by decide!,
    ((node_count_bracket demoQt
      { (VarDriverXYZ.new : VarDriverXYZ ℚ) with configHash := configOf demoEntries }).1
      (by decide!) (by decide!)).1⟩

/-- C27: on every axis with the zero boundary condition `R0`, a positive increment and a
maximum not below the minimum, the node count formula `trunc((max - min)/incr) + 1` on
the extended bounds `min - incr`, `max + incr` gives the configured count plus two,
which is the count that "Increase the internal size of the grid" stores; the increment
is unchanged, node `n` of the extended grid is node `n - 1` of the configured grid, and
the two added nodes are `min - incr` and `min + dim*incr`. -/
theorem extended_node_count (q : QtConv α) (d : VarDriverXYZ α) :
    (d.configHash "horizontalbc" = "R0" →
      (0 < (defineGrid q d).iincr → (defineGrid q d).imin ≤ (defineGrid q d).imax →
        (increaseInternalGrid (defineGrid q d)).idim =
          truncToInt (((increaseInternalGrid (defineGrid q d)).imax -
            (increaseInternalGrid (defineGrid q d)).imin) /
            (increaseInternalGrid (defineGrid q d)).iincr) + 1 ∧
        (increaseInternalGrid (defineGrid q d)).idim = (defineGrid q d).idim + 2 ∧
        (increaseInternalGrid (defineGrid q d)).iincr = (defineGrid q d).iincr ∧
        (∀ n : Int, (increaseInternalGrid (defineGrid q d)).imin +
            (n : α) * (increaseInternalGrid (defineGrid q d)).iincr =
          (defineGrid q d).imin + ((n : α) - 1) * (defineGrid q d).iincr) ∧
        (increaseInternalGrid (defineGrid q d)).imin +
            (((increaseInternalGrid (defineGrid q d)).idim : α) - 1) *
              (increaseInternalGrid (defineGrid q d)).iincr =
          (defineGrid q d).imin + ((defineGrid q d).idim : α) * (defineGrid q d).iincr) ∧
      (0 < (defineGrid q d).jincr → (defineGrid q d).jmin ≤ (defineGrid q d).jmax →
        (increaseInternalGrid (defineGrid q d)).jdim =
          truncToInt (((increaseInternalGrid (defineGrid q d)).jmax -
            (increaseInternalGrid (defineGrid q d)).jmin) /
            (increaseInternalGrid (defineGrid q d)).jincr) + 1 ∧
        (increaseInternalGrid (defineGrid q d)).jdim = (defineGrid q d).jdim + 2 ∧
        (increaseInternalGrid (defineGrid q d)).jincr = (defineGrid q d).jincr ∧
        (∀ n : Int, (increaseInternalGrid (defineGrid q d)).jmin +
            (n : α) * (increaseInternalGrid (defineGrid q d)).jincr =
          (defineGrid q d).jmin + ((n : α) - 1) * (defineGrid q d).jincr) ∧
        (increaseInternalGrid (defineGrid q d)).jmin +
            (((increaseInternalGrid (defineGrid q d)).jdim : α) - 1) *
              (increaseInternalGrid (defineGrid q d)).jincr =
          (defineGrid q d).jmin + ((defineGrid q d).jdim : α) * (defineGrid q d).jincr)) ∧
    (d.configHash "verticalbc" = "R0" →
      0 < (defineGrid q d).kincr → (defineGrid q d).kmin ≤ (defineGrid q d).kmax →
        (increaseInternalGrid (defineGrid q d)).kdim =
          truncToInt (((increaseInternalGrid (defineGrid q d)).kmax -
            (increaseInternalGrid (defineGrid q d)).kmin) /
            (increaseInternalGrid (defineGrid q d)).kincr) + 1 ∧
        (increaseInternalGrid (defineGrid q d)).kdim = (defineGrid q d).kdim + 2 ∧
        (increaseInternalGrid (defineGrid q d)).kincr = (defineGrid q d).kincr ∧
        (∀ n : Int, (increaseInternalGrid (defineGrid q d)).kmin +
            (n : α) * (increaseInternalGrid (defineGrid q d)).kincr =
          (defineGrid q d).kmin + ((n : α) - 1) * (defineGrid q d).kincr) ∧
        (increaseInternalGrid (defineGrid q d)).kmin +
            (((increaseInternalGrid (defineGrid q d)).kdim : α) - 1) *
              (increaseInternalGrid (defineGrid q d)).kincr =
          (defineGrid q d).kmin + ((defineGrid q d).kdim : α) * (defineGrid q d).kincr) := by
  refine ⟨fun hh => ⟨?_, ?_⟩, fun hv => ?_⟩
  · intro hincr hle
    by_cases hv : d.configHash "verticalbc" = "R0" <;>
      simp only [increaseInternalGrid, defineGrid, hh, hv, if_true, if_false]
        at hincr hle ⊢ <;>
      refine ⟨?_, trivial, trivial, fun n => by ring, by push_cast; ring⟩ <;>
      rw [truncToInt_extended _ _ _ hincr hle] <;> ring
  · intro hincr hle
    by_cases hv : d.configHash "verticalbc" = "R0" <;>
      simp only [increaseInternalGrid, defineGrid, hh, hv, if_true, if_false]
        at hincr hle ⊢ <;>
      refine ⟨?_, trivial, trivial, fun n => by ring, by push_cast; ring⟩ <;>
      rw [truncToInt_extended _ _ _ hincr hle] <;> ring
  · intro hincr hle
    by_cases hh : d.configHash "horizontalbc" = "R0" <;>
      simp only [increaseInternalGrid, defineGrid, hh, hv, if_true, if_false]
        at hincr hle ⊢ <;>
      refine ⟨?_, trivial, trivial, fun n => by ring, by push_cast; ring⟩ <;>
      rw [truncToInt_extended _ _ _ hincr hle] <;> ring

/-- Witness of C27: the x axis of the configuration `demoEntries`, which has `R0` in the
horizontal, has six nodes on the extended grid. -/
theorem extended_node_count_witness :
    configOf demoEntries "horizontalbc" = "R0" ∧
    (increaseInternalGrid (defineGrid demoQt
      { (VarDriverXYZ.new : VarDriverXYZ ℚ) with configHash := configOf demoEntries })).idim
      = (defineGrid demoQt
      { (VarDriverXYZ.new : VarDriverXYZ ℚ) with configHash := configOf demoEntries }).idim
        + 2 :=
  ⟨by decide,
    (((extended_node_count demoQt
      { (VarDriverXYZ.new : VarDriverXYZ ℚ) with configHash := configOf demoEntries }).1
      (by decide)).1 (by decide!) (by decide!)).2.1⟩

/-- C28 (code on the failing inputs): a radar or lidar record that passes the time and
domain tests adds exactly one tuple. For a radar the error given to it is
`max(1, spectrumWidth + 2*|sin(el)|)` and for a lidar with `db > 0` it is
`max(1, spectrumWidth + ln(50/db))`: at least 1, stored as its inverse in `(0, 1]`. For a
lidar with `db < 0` the error is a NaN, which the test `DopplerError < 1.0` does not
catch, and the tuple holds the NaN; for a lidar with `db = 0` the error is infinite and
the stored inverse is 0. -/
theorem lidar_error_not_clamped (env : Env α) (d : VarDriverXYZ α) (st : ObLoop α)
    (metOb : MetObs α)
    (ht : startTime d.frameVector ≤ metOb.time ∧ metOb.time ≤ endTime d.frameVector ∧
      metOb.time - startTime d.frameVector ≤ (d.frameVector.length : Int))
    (hin : obInDomain d (metObPosition env d metOb).1 (metObPosition env d metOb).2.1
      (metObPosition env d metOb).2.2 = true) :
    (metOb.obType = ObType.radar → dopplerError env metOb = metOb.spectrumWidth +
      2 * |env.libm.sin (metOb.elevation * env.libm.Pi / 180)|) ∧
    (metOb.obType = ObType.lidar → dopplerError env metOb = metOb.spectrumWidth +
      env.libm.log (50 / metOb.reflectivity)) ∧
    ((metOb.obType = ObType.radar ∨
        (metOb.obType = ObType.lidar ∧ 0 < metOb.reflectivity)) →
      ∃ ob, (processMetOb env d st metOb).obVector = st.obVector ++ [ob] ∧
        ob.inverseError = 1 / max 1 (dopplerError env metOb) ∧
        1 ≤ max 1 (dopplerError env metOb) ∧
        0 < ob.inverseError ∧ ob.inverseError ≤ 1) ∧
    (metOb.obType = ObType.lidar → metOb.reflectivity < 0 →
      ∃ ob, (processMetOb env d st metOb).obVector = st.obVector ++ [ob] ∧
        ob.inverseError = env.nanReal) ∧
    (metOb.obType = ObType.lidar → metOb.reflectivity = 0 →
      ∃ ob, (processMetOb env d st metOb).obVector = st.obVector ++ [ob] ∧
        ob.inverseError = 0) := by
  have hmax : ∀ e : α, (if e < 1 then (1 : α) else e) = max 1 e := by
    intro e
    by_cases h : e < 1
    · rw [if_pos h, max_eq_left (le_of_lt h)]
    · rw [if_neg h, max_eq_right (not_lt.mp h)]
  have hpos : ∀ e : α, 0 < 1 / max 1 e ∧ 1 / max 1 e ≤ 1 := by
    intro e
    have h1 : (1 : α) ≤ max 1 e := le_max_left _ _
    exact ⟨by positivity, by rw [div_le_iff₀ (by linarith)]; linarith⟩
  unfold metObPosition at hin
  unfold processMetOb
  dsimp only
  rw [if_neg (by omega), if_neg (by omega), if_neg (by rw [hin]; simp)]
  refine ⟨fun h => by simp only [dopplerError, h]; ring,
    fun h => by simp only [dopplerError, h], ?_, ?_, ?_⟩
  · intro hcase
    rcases hcase with hr | ⟨hl, hdb⟩
    · simp only [hr, radarObs, pushDoppler, dopplerError, hmax]
      exact ⟨_, rfl, rfl, le_max_left _ _, (hpos _).1, (hpos _).2⟩
    · simp only [hl, lidarObs, pushDoppler, dopplerError, hmax,
        if_neg (not_lt.mpr (le_of_lt hdb)), if_neg (ne_of_gt hdb)]
      exact ⟨_, rfl, rfl, le_max_left _ _, (hpos _).1, (hpos _).2⟩
  · intro hl hdb
    simp only [hl, lidarObs, if_pos hdb, pushDopplerUnclamped]
    exact ⟨_, rfl, rfl⟩
  · intro hl hdb
    simp only [hl, lidarObs, hdb, lt_irrefl, if_false, if_true, pushDopplerUnclamped]
    exact ⟨_, rfl, rfl⟩

/-- Witness of C28: the lidar record `negativeDbLidarOb`, with `db = -10`, adds one
tuple, whose inverse error is the NaN. -/
theorem lidar_error_not_clamped_witness :
    negativeDbLidarOb.obType = ObType.lidar ∧ negativeDbLidarOb.reflectivity < 0 ∧
    ∃ ob, (processMetOb radarEnv radarStart emptyObLoop negativeDbLidarOb).obVector = [ob] ∧
      ob.inverseError = radarEnv.nanReal :=
  ⟨rfl, by decide!,
    (lidar_error_not_clamped radarEnv radarStart emptyObLoop negativeDbLidarOb
      ⟨by decide!, by decide!, by decide!⟩ (by decide!)).2.2.2.1 rfl (by decide!)⟩

/-- C24 (code on the failing inputs): a dropsonde, flight-level, QuikSCAT, ASCAT or AMV
record inside the time window and the domain whose u wind is present (with the moist
density, for the first two) adds a tuple with the weight 1 at index 1 whose value is
computed from the v wind of the record, whatever it is: with `v = -999` the tuple holds
`rho*(-999 - Vm)` (or `-999 - Vm`). -/
theorem v_momentum_from_missing_wind (env : Env α) (d : VarDriverXYZ α) (st : ObLoop α)
    (metOb : MetObs α)
    (ht : startTime d.frameVector ≤ metOb.time ∧ metOb.time ≤ endTime d.frameVector ∧
      metOb.time - startTime d.frameVector ≤ (d.frameVector.length : Int))
    (hin : obInDomain d (metObPosition env d metOb).1 (metObPosition env d metOb).2.1
      (metObPosition env d metOb).2.2 = true)
    (hu : metOb.cartesianUwind ≠ -999) (hv : metOb.cartesianVwind = -999) :
    ((metOb.obType = ObType.dropsonde ∨ metOb.obType = ObType.flightlevel) →
      metOb.moistDensity ≠ -999 →
      ∃ ob ∈ (processMetOb env d st metOb).obVector, ob.weight 1 = 1 ∧
        ob.ob = metOb.moistDensity *
          (-999 - (frameAt d.frameVector (metOb.time - startTime d.frameVector)).vmean)) ∧
    ((metOb.obType = ObType.qscat ∨ metOb.obType = ObType.ascat ∨
        metOb.obType = ObType.AMV) →
      ∃ ob ∈ (processMetOb env d st metOb).obVector, ob.weight 1 = 1 ∧
        ob.ob = -999 - (frameAt d.frameVector (metOb.time - startTime d.frameVector)).vmean)
    := by
  unfold metObPosition at hin
  constructor
  · intro hty hrho
    unfold processMetOb
    dsimp only
    rw [if_neg (by omega), if_neg (by omega), if_neg (by rw [hin]; simp)]
    rcases hty with h | h <;> simp only [h] <;> rw [← hv] <;>
      exact sondeObs_v env metOb _ _ _ _ _ _ _ hu hrho
  · intro hty
    unfold processMetOb
    dsimp only
    rw [if_neg (by omega), if_neg (by omega), if_neg (by rw [hin]; simp)]
    rcases hty with h | h | h <;> simp only [h] <;> rw [← hv] <;>
      exact scatObs_v metOb _ _ _ _ hu

/-- Witness of C24: the dropsonde record `missingVSondeOb`, with `u = 5`, `rho = 1` and
a missing v wind, adds a tuple of v momentum with the value `-999`. -/
theorem v_momentum_from_missing_wind_witness :
    missingVSondeOb.cartesianVwind = -999 ∧
    ∃ ob ∈ (processMetOb radarEnv radarStart emptyObLoop missingVSondeOb).obVector,
      ob.weight 1 = 1 ∧ ob.ob = -999 :=
  have h := (v_momentum_from_missing_wind radarEnv radarStart emptyObLoop missingVSondeOb
    ⟨by decide!, by decide!, by decide!⟩ (by decide!) (by decide!) rfl).1 (Or.inl rfl)
    (by decide!)
  ⟨rfl, h.choose, h.choose_spec.1, h.choose_spec.2.1,
    h.choose_spec.2.2.trans (by decide!)⟩

/-- C23 (code at the failing input): with two frames two seconds apart, a record at the
time of the last frame passes both time tests of `preProcessMetObs` and of
`loadBackgroundObs` with the frame index 2, the size of `frameVector`: no time problem
is reported, the dropsonde record adds its six tuples and the background record its
eleven values, both computed with `frameVector[2]`. -/
theorem frame_index_at_size :
    gapStart.frameVector.length = 2 ∧
    startTime gapStart.frameVector ≤ lateSondeOb.time ∧
    lateSondeOb.time ≤ endTime gapStart.frameVector ∧
    lateSondeOb.time - startTime gapStart.frameVector = 2 ∧
    ¬ (lateSondeOb.time - startTime gapStart.frameVector <
      (gapStart.frameVector.length : Int)) ∧
    (processMetOb radarEnv gapStart emptyObLoop lateSondeOb).cout = [] ∧
    (processMetOb radarEnv gapStart emptyObLoop lateSondeOb).obVector.length = 6 ∧
    lateBgRecord.time - startTime gapStart.frameVector = 2 ∧
    (loadBackgroundRecord radarEnv gapStart emptyBgLoad lateBgRecord).2.cout = [] ∧
    (loadBackgroundRecord radarEnv gapStart emptyBgLoad lateBgRecord).2.bgIn.length = 11 :=
  ⟨by decide!, by decide!, by decide!, by decide!, by decide!, by decide!, by decide!,
    by decide!, by decide!, by decide!⟩

/-- C21: with `numVars = 7` and at least two nodes on the x and the y axis (and any
node count in z: below two nodes there is no mish point and no offset), the offset
`bIndex + var` of the mish point `(xi, xmu, yi, ymu, zi, zmu)` and the variable `var < 7`
lies in `[0, uStateSize)`, two such offsets are equal only for the same point and
variable, and every offset of `[0, uStateSize)` is reached: the map is a bijection onto
`[0, uStateSize)`, with `uStateSize = 8*(idim-1)*(jdim-1)*(kdim-1)*7`. -/
theorem mish_offset_bijection (d : VarDriverXYZ α) (hv : d.numVars = 7)
    (hi : 2 ≤ d.idim) (hj : 2 ≤ d.jdim) :
    uStateSize d = 8 * (d.idim - 1) * (d.jdim - 1) * (d.kdim - 1) * 7 ∧
    (∀ xi ∈ cellRange d.idim, ∀ xmu ∈ muValues, ∀ yi ∈ cellRange d.jdim,
      ∀ ymu ∈ muValues, ∀ zi ∈ cellRange d.kdim, ∀ zmu ∈ muValues, ∀ var : Nat, var < 7 →
      0 ≤ bIndex d (mishIndex xi xmu) (mishIndex yi ymu) (mishIndex zi zmu) + (var : Int) ∧
      bIndex d (mishIndex xi xmu) (mishIndex yi ymu) (mishIndex zi zmu) + (var : Int)
        < uStateSize d) ∧
    (∀ xi ∈ cellRange d.idim, ∀ xmu ∈ muValues, ∀ yi ∈ cellRange d.jdim,
      ∀ ymu ∈ muValues, ∀ zi ∈ cellRange d.kdim, ∀ zmu ∈ muValues, ∀ var : Nat, var < 7 →
      ∀ xi' ∈ cellRange d.idim, ∀ xmu' ∈ muValues, ∀ yi' ∈ cellRange d.jdim,
      ∀ ymu' ∈ muValues, ∀ zi' ∈ cellRange d.kdim, ∀ zmu' ∈ muValues, ∀ var' : Nat,
      var' < 7 →
      bIndex d (mishIndex xi xmu) (mishIndex yi ymu) (mishIndex zi zmu) + (var : Int) =
        bIndex d (mishIndex xi' xmu') (mishIndex yi' ymu') (mishIndex zi' zmu')
          + (var' : Int) →
      xi = xi' ∧ xmu = xmu' ∧ yi = yi' ∧ ymu = ymu' ∧ zi = zi' ∧ zmu = zmu' ∧
        var = var') ∧
    (∀ n : Int, 0 ≤ n → n < uStateSize d →
      ∃ xi ∈ cellRange d.idim, ∃ xmu ∈ muValues, ∃ yi ∈ cellRange d.jdim,
      ∃ ymu ∈ muValues, ∃ zi ∈ cellRange d.kdim, ∃ zmu ∈ muValues, ∃ var : Nat, var < 7 ∧
      bIndex d (mishIndex xi xmu) (mishIndex yi ymu) (mishIndex zi zmu) + (var : Int)
        = n) := by
  have hb : ∀ I J K : Int, bIndex d I J K =
      7 * (d.idim - 1) * 2 * (d.jdim - 1) * 2 * K + 7 * (d.idim - 1) * 2 * J + 7 * I := by
    intro I J K
    unfold bIndex
    rw [hv]
  have hu : uStateSize d = 8 * (d.idim - 1) * (d.jdim - 1) * (d.kdim - 1) * 7 := by
    unfold uStateSize
    rw [hv]
  refine ⟨hu, ?_, ?_, ?_⟩
  · intro xi hxi xmu hxmu yi hyi ymu hymu zi hzi zmu hzmu var hvar
    rw [hb, hu]
    exact radix_range _ _ _ _ _ _ _ (by omega) (by omega)
      (mishIndex_range _ _ _ hxi hxmu) (mishIndex_range _ _ _ hyi hymu)
      (mishIndex_range _ _ _ hzi hzmu) ⟨by omega, by omega⟩
  · intro xi hxi xmu hxmu yi hyi ymu hymu zi hzi zmu hzmu var hvar
      xi' hxi' xmu' hxmu' yi' hyi' ymu' hymu' zi' hzi' zmu' hzmu' var' hvar' h
    rw [hb, hb] at h
    obtain ⟨e1, e2, e3, e4⟩ := radix_injective _ _ _ _ _ _ _ _ _ _ (by omega) (by omega)
      (mishIndex_range _ _ _ hxi hxmu) (mishIndex_range _ _ _ hyi hymu)
      ⟨by omega, by omega⟩
      (mishIndex_range _ _ _ hxi' hxmu') (mishIndex_range _ _ _ hyi' hymu')
      ⟨by omega, by omega⟩ h
    obtain ⟨a1, a2⟩ := mishIndex_injective _ _ _ _ hxmu hxmu' e1
    obtain ⟨b1, b2⟩ := mishIndex_injective _ _ _ _ hymu hymu' e2
    obtain ⟨c1, c2⟩ := mishIndex_injective _ _ _ _ hzmu hzmu' e3
    exact ⟨a1, a2, b1, b2, c1, c2, by omega⟩
  · intro n h0 hn
    rw [hu] at hn
    obtain ⟨I, J, K, v, hI, hJ, hK, hv7, e⟩ := radix_surjective _ _ _ n
      (by omega : 1 ≤ d.idim - 1) (by omega : 1 ≤ d.jdim - 1) h0 hn
    obtain ⟨xi, hxi, xmu, hxmu, ex⟩ := mishIndex_surjective d.idim I hI.1 hI.2
    obtain ⟨yi, hyi, ymu, hymu, ey⟩ := mishIndex_surjective d.jdim J hJ.1 hJ.2
    obtain ⟨zi, hzi, zmu, hzmu, ez⟩ := mishIndex_surjective d.kdim K hK.1 hK.2
    refine ⟨xi, hxi, xmu, hxmu, yi, hyi, ymu, hymu, zi, hzi, zmu, hzmu, v.toNat,
      by omega, ?_⟩
    rw [hb, ex, ey, ez, ← e]
    have : ((v.toNat : Nat) : Int) = v := Int.toNat_of_nonneg hv7.1
    rw [this]

/-- Witness of C21: on the 6 x 6 x 4 internal grid of the configuration `demoEntries`
the offsets lie in `[0, uStateSize)`. -/
theorem mish_offset_bijection_witness :
    radarStart.numVars = 7 ∧ 2 ≤ radarStart.idim ∧
    uStateSize radarStart =
      8 * (radarStart.idim - 1) * (radarStart.jdim - 1) * (radarStart.kdim - 1) * 7 :=
  ⟨rfl, by decide!,
    (mish_offset_bijection radarStart rfl (by decide!) (by decide!)).1⟩

/-- C22: when `bgIn` holds `R` records of 11 values and `numVars = 7`, the array `bgObs`
of `adjustBackground` has the length `14*7*R`, the observation count given to the
background cost function is 7 times the number of records inside the domain, the loop
ends with `p = 14*numbgObs` (so `numbgObs` tuples of 14 values were written), and before
every tuple `n < 7` of every record inside the domain the indices `p, ..., p+6` and
`p+7+n` that the tuple writes are within the array. -/
theorem adjustBackground_counts (env : Env α) (d : VarDriverXYZ α) (bStateSize : Int)
    (R : Nat) (hv : d.numVars = 7) (hlen : d.bgIn.length = 11 * R) :
    ∃ cost, (adjustBackground env d bStateSize).bgCostXYZ = some cost ∧
      cost.numObs = (adjustBackgroundPrefix env d R).numbgObs ∧
      cost.obs = (adjustBackgroundPrefix env d R).bgObs ∧
      cost.numObs = 7 * ((bgRecordsInDomain env d).length : Int) ∧
      cost.obs.length = 14 * 7 * R ∧
      (adjustBackgroundPrefix env d R).p = 14 * cost.numObs ∧
      (∀ k, k < R → bgRecordInDomain env d (11 * (k : Int)) = true → ∀ n, n < 7 →
        adjustBackgroundPrefix env d (k + 1) =
          (List.range 7).foldl (writeBgTuple env d (11 * (k : Int)))
            (adjustBackgroundPrefix env d k) ∧
        ((List.range n).foldl (writeBgTuple env d (11 * (k : Int)))
          (adjustBackgroundPrefix env d k)).bgObs.length = 14 * 7 * R ∧
        0 ≤ ((List.range n).foldl (writeBgTuple env d (11 * (k : Int)))
          (adjustBackgroundPrefix env d k)).p ∧
        ((List.range n).foldl (writeBgTuple env d (11 * (k : Int)))
          (adjustBackgroundPrefix env d k)).p + 7 + (n : Int) < 14 * 7 * (R : Int)) := by
  have hR : (recordOffsets d.bgIn.length).length = R := by
    rw [hlen]; exact recordOffsets_length R
  have htake : (recordOffsets d.bgIn.length).take R = recordOffsets d.bgIn.length := by
    rw [← hR]; exact List.take_length _
  have hstart : (adjustBackgroundStart d).bgObs.length = 14 * 7 * R := by
    simp only [adjustBackgroundStart, List.length_replicate, hlen]
    push_cast
    omega
  have hnum0 : (adjustBackgroundStart d).numbgObs = 7 * (R : Int) := by
    simp only [adjustBackgroundStart, hlen]
    push_cast
    omega
  obtain ⟨f1, f2, f3⟩ := adjustBackgroundLoop_step env d hv
    (recordOffsets d.bgIn.length) (adjustBackgroundStart d)
  have hfin : adjustBackgroundPrefix env d R =
      (recordOffsets d.bgIn.length).foldl (adjustBackgroundRecord env d)
        (adjustBackgroundStart d) := by
    unfold adjustBackgroundPrefix
    rw [htake]
  have hnum : (adjustBackgroundPrefix env d R).numbgObs =
      7 * ((bgRecordsInDomain env d).length : Int) := by
    rw [hfin]
    rw [hR, hnum0] at f2
    unfold bgRecordsInDomain
    omega
  refine ⟨_, rfl, ?_, ?_, ?_, ?_, ?_, ?_⟩
  · rw [hfin]
    rfl
  · rw [hfin]
    rfl
  · exact (show _ = (adjustBackgroundPrefix env d R).numbgObs by rw [hfin]; rfl).trans hnum
  · exact (show _ = (adjustBackgroundPrefix env d R).bgObs.length by rw [hfin]; rfl).trans
      (by rw [hfin, f3, hstart])
  · have hp : (adjustBackgroundPrefix env d R).p =
        98 * ((bgRecordsInDomain env d).length : Int) := by
      rw [hfin, f1]
      simp [adjustBackgroundStart, bgRecordsInDomain]
    have hn : ∀ c : CostFunctionXYZ α, c.numObs = (adjustBackgroundPrefix env d R).numbgObs →
        (adjustBackgroundPrefix env d R).p = 14 * c.numObs := by
      intro c hc
      rw [hc, hnum, hp]
      ring
    exact hn _ (by rw [hfin]; rfl)
  · intro k hk hin n hn
    obtain ⟨g1, g2, g3⟩ := adjustBackgroundLoop_step env d hv
      ((recordOffsets d.bgIn.length).take k) (adjustBackgroundStart d)
    obtain ⟨w1, w2, w3⟩ := writeBgTuples_step env d (11 * (k : Int))
      (adjustBackgroundPrefix env d k) n
    have hget : (recordOffsets d.bgIn.length)[k]? = some (11 * (k : Int)) := by
      unfold recordOffsets
      rw [List.getElem?_map, List.getElem?_range (by omega)]
      rfl
    have hsucc : (recordOffsets d.bgIn.length).take (k + 1) =
        (recordOffsets d.bgIn.length).take k ++ [11 * (k : Int)] := by
      rw [List.take_succ, hget]
      rfl
    have hfl : (((recordOffsets d.bgIn.length).take k).filter
        (bgRecordInDomain env d)).length ≤ k := by
      refine le_trans (List.length_filter_le _ _) ?_
      rw [List.length_take]
      exact Nat.min_le_left _ _
    have hpk : (adjustBackgroundPrefix env d k).p =
        98 * ((((recordOffsets d.bgIn.length).take k).filter
          (bgRecordInDomain env d)).length : Int) := by
      unfold adjustBackgroundPrefix
      rw [g1]
      simp [adjustBackgroundStart]
    have hlk : (adjustBackgroundPrefix env d k).bgObs.length = 14 * 7 * R := by
      unfold adjustBackgroundPrefix
      rw [g3, hstart]
    refine ⟨?_, by rw [w3, hlk], by rw [w1, hpk]; omega, by rw [w1, hpk]; omega⟩
    unfold adjustBackgroundPrefix
    rw [hsucc, List.foldl_append]
    simp only [List.foldl_cons, List.foldl_nil]
    exact adjustBackgroundRecord_inside env d _ _ hv hin

/-- Witness of C22: for one record, the array of `adjustBackground` has 98 entries. -/
theorem adjustBackground_counts_witness :
    ({ radarStart with bgIn := [1, 1, 0, 0, 1, 2, 3, 4, 5, 6, 7] } :
        VarDriverXYZ ℚ).numVars = 7 ∧
    ∃ cost, (adjustBackground radarEnv
        { radarStart with bgIn := [1, 1, 0, 0, 1, 2, 3, 4, 5, 6, 7] } 0).bgCostXYZ
          = some cost ∧
      cost.obs.length = 14 * 7 * 1 :=
  ⟨rfl,
    (adjustBackground_counts radarEnv
      { radarStart with bgIn := [1, 1, 0, 0, 1, 2, 3, 4, 5, 6, 7] } 0 1 rfl rfl).imp
      (fun _ h => ⟨h.1, h.2.2.2.2.1⟩)⟩

/-- C29 (counterexample): with the radius of influence `backgroundroi = -1` the pre-test
bound `ROI*sqrt(2)` is negative, so the pre-test discards every mish point, among them
the point `(xi, xmu, yi, ymu) = (2, -1, 2, -1)` next to a record at `x = y = 1.5`, which
the radius test `rSquare < ROI^2 = 1` accepts: the weight of that point stays 0 with the
pre-test and is not 0 without it. -/
theorem pretest_discards_with_negative_radius :
    |mishPos radarEnv.libm radarStart.imin radarStart.iincr 2 (-1) - 3 / 2| >
      -1 * radarEnv.libm.sqrt 2 ∧
    (3 / 2 - mishPos radarEnv.libm radarStart.imin radarStart.iincr 2 (-1)) *
        (3 / 2 - mishPos radarEnv.libm radarStart.imin radarStart.iincr 2 (-1)) +
      (3 / 2 - mishPos radarEnv.libm radarStart.jmin radarStart.jincr 2 (-1)) *
        (3 / 2 - mishPos radarEnv.libm radarStart.jmin radarStart.jincr 2 (-1))
      < (-1 * -1 : ℚ) ∧
    bIndex radarStart (mishIndex 2 (-1)) (mishIndex 2 (-1)) (mishIndex 0 (-1)) = 308 ∧
    readAt negativeRoiInterpolation.bgWeights 308 = 0 ∧
    readAt negativeRoiNoPretest.bgWeights 308 ≠ 0 ∧
    negativeRoiInterpolation ≠ negativeRoiNoPretest := by
  have h1 : negativeRoiInterpolation = radarBuf :=
    interpolateColumn_negative radarEnv radarStart 2 (-1 * radarEnv.libm.sqrt 2) (-1 * -1)
      (3 / 2) (3 / 2) demoColumn radarBuf (by decide!)
  have h2 : readAt radarBuf.bgWeights 308 = 0 := by decide!
  have h3 : readAt negativeRoiNoPretest.bgWeights 308 ≠ 0 := by decide!
  refine ⟨by decide!, by decide!, by decide!, by rw [h1]; exact h2, h3, ?_⟩
  intro h
  rw [← h, h1] at h3
  exact h3 h2

/-- C29 (amended): for a radius of influence `ROI >= 0` and a square root with
`sqrt(2) >= 1`, a mish point that a pre-test `|pos - ob| > ROI*sqrt(2)` discards fails
the radius test `rSquare < ROI^2`, and both interpolation loop nests return the same
`bgU` and `bgWeights` as they do with the pre-tests removed. -/
theorem pretest_redundant (env : Env α) (d : VarDriverXYZ α) (ROI : α) (hROI : 0 ≤ ROI)
    (hs : 1 ≤ env.libm.sqrt 2) :
    (∀ dx dy dz : α, |dx| > ROI * env.libm.sqrt 2 →
      ¬ (dx * dx + dy * dy + dz * dz < ROI * ROI)) ∧
    (∀ (ZZ qr obX obY obZ : α) (b : BgBuf α),
      gridReflectivity env d (ROI * env.libm.sqrt 2) (ROI * ROI) ZZ qr obX obY obZ b =
        gridReflectivityNoPretest env d (ROI * ROI) ZZ qr obX obY obZ b) ∧
    (∀ (wl : Int) (bgX bgY : α) (c : BgColumn α) (b : BgBuf α),
      interpolateColumn env d wl (ROI * env.libm.sqrt 2) (ROI * ROI) bgX bgY c b =
        interpolateColumnNoPretest env d wl (ROI * ROI) bgX bgY c b) := by
  have h0 : 0 ≤ ROI * env.libm.sqrt 2 := mul_nonneg hROI (by linarith)
  have h1 : ROI * ROI ≤ ROI * env.libm.sqrt 2 * (ROI * env.libm.sqrt 2) := by
    have : ROI * ROI * 1 ≤ ROI * ROI * (env.libm.sqrt 2 * env.libm.sqrt 2) :=
      mul_le_mul_of_nonneg_left (by nlinarith) (mul_self_nonneg ROI)
    nlinarith
  refine ⟨?_, ?_, ?_⟩
  · intro dx dy dz hdx
    have := pretest_implies_outside _ _ dx h0 h1 hdx
    nlinarith [mul_self_nonneg dy, mul_self_nonneg dz]
  · intro ZZ qr obX obY obZ b
    exact gridReflectivity_pretest env d _ _ ZZ qr obX obY obZ b h0 h1
  · intro wl bgX bgY c b
    exact interpolateColumn_pretest env d wl _ _ bgX bgY c b h0 h1

/-- Witness of C29: with the radius `1.25` of the configuration `demoEntries` and the
stand-in square root, the interpolation of `demoColumn` is the same without the
pre-tests. -/
theorem pretest_redundant_witness :
    (0 : ℚ) ≤ 5 / 4 ∧ 1 ≤ radarEnv.libm.sqrt 2 ∧
    interpolateColumn radarEnv radarStart 2 (5 / 4 * radarEnv.libm.sqrt 2) (5 / 4 * (5 / 4))
        (3 / 2) (3 / 2) demoColumn radarBuf =
      interpolateColumnNoPretest radarEnv radarStart 2 (5 / 4 * (5 / 4)) (3 / 2) (3 / 2)
        demoColumn radarBuf :=
  ⟨by norm_num, by decide!,
    (pretest_redundant radarEnv radarStart (5 / 4) (by norm_num) (by decide!)).2.2
      2 (3 / 2) (3 / 2) demoColumn radarBuf⟩

/-- C25: for the mish column `(xi, xmu, yi, ymu)` of a grid with `numVars = 7`, a
positive vertical increment and `0 < sqrt(1/3) < 1`, "Finish reflectivity
interpolation" leaves in `bgU[..+6]` of every level of the column the reflectivity
divided by its weight (when that is not zero), and `maxrefHeight` is `-1` when no level
of the column has a positive normalised reflectivity and the height of the highest such
level otherwise. The column appends exactly one pseudo observation, at the position of
the column and the altitude `maxrefHeight`, when `0 < maxrefHeight < kmax` and
`use_dbz_pseudow` is set, and none otherwise; the pseudo observation has the value 0,
the error 1, the weights `(0,0,1,0,0,0,0)` and the reference time. -/
theorem pseudo_w_observation (env : Env α) (d : VarDriverXYZ α) (st : ObLoop α)
    (xi : Nat) (xmu : Int) (yi : Nat) (ymu : Int)
    (hv : d.numVars = 7) (hxi : xi ∈ cellRange d.idim) (hyi : yi ∈ cellRange d.jdim)
    (hk : 0 < d.kincr) (hs0 : 0 < env.libm.sqrt (1 / 3))
    (hs1 : env.libm.sqrt (1 / 3) < 1) :
    (∀ zi ∈ cellRange d.kdim, ∀ zmu ∈ muValues,
      readAt (finishColumn env d st xi xmu yi ymu).buf.bgU
          (bIndex d (mishIndex xi xmu) (mishIndex yi ymu) (mishIndex zi zmu) + 6) =
        normalisedReflectivity d st.buf (mishIndex xi xmu) (mishIndex yi ymu)
          (mishIndex zi zmu)) ∧
    (((∀ zi ∈ cellRange d.kdim, ∀ zmu ∈ muValues,
          ¬ 0 < normalisedReflectivity d st.buf (mishIndex xi xmu) (mishIndex yi ymu)
            (mishIndex zi zmu)) ∧
        (columnReflectivity env d (mishIndex xi xmu) (mishIndex yi ymu) st.buf).2 = -1 ∧
        (finishColumn env d st xi xmu yi ymu).obVector = st.obVector) ∨
      ∃ zi ∈ cellRange d.kdim, ∃ zmu ∈ muValues,
        0 < normalisedReflectivity d st.buf (mishIndex xi xmu) (mishIndex yi ymu)
          (mishIndex zi zmu) ∧
        (columnReflectivity env d (mishIndex xi xmu) (mishIndex yi ymu) st.buf).2 =
          mishPos env.libm d.kmin d.kincr zi zmu ∧
        (∀ zj ∈ cellRange d.kdim, ∀ zn ∈ muValues,
          0 < normalisedReflectivity d st.buf (mishIndex xi xmu) (mishIndex yi ymu)
            (mishIndex zj zn) →
          mishPos env.libm d.kmin d.kincr zj zn ≤ mishPos env.libm d.kmin d.kincr zi zmu) ∧
        ((0 < mishPos env.libm d.kmin d.kincr zi zmu ∧
            mishPos env.libm d.kmin d.kincr zi zmu < d.kmax ∧
            env.qt.toInt (d.configHash "use_dbz_pseudow") ≠ 0) →
          (finishColumn env d st xi xmu yi ymu).obVector = st.obVector ++
            [{ pseudoWOb env d with
                cartesianX := mishPos env.libm d.imin d.iincr xi xmu
                cartesianY := mishPos env.libm d.jmin d.jincr yi ymu
                altitude := mishPos env.libm d.kmin d.kincr zi zmu }]) ∧
        (¬ (0 < mishPos env.libm d.kmin d.kincr zi zmu ∧
            mishPos env.libm d.kmin d.kincr zi zmu < d.kmax ∧
            env.qt.toInt (d.configHash "use_dbz_pseudow") ≠ 0) →
          (finishColumn env d st xi xmu yi ymu).obVector = st.obVector)) ∧
    ((pseudoWOb env d).ob = 0 ∧ (pseudoWOb env d).inverseError = 1 ∧
      (pseudoWOb env d).time = env.qt.toFloat (d.configHash "reftime") ∧
      (pseudoWOb env d).weight 0 = 0 ∧ (pseudoWOb env d).weight 1 = 0 ∧
      (pseudoWOb env d).weight 2 = 1 ∧ (pseudoWOb env d).weight 3 = 0 ∧
      (pseudoWOb env d).weight 4 = 0 ∧ (pseudoWOb env d).weight 5 = 0 ∧
      (pseudoWOb env d).weight 6 = 0) ∧
    finishReflectivity env d st =
      (cellRange d.idim).foldl (fun st xi =>
        muValues.foldl (fun st xmu =>
          (cellRange d.jdim).foldl (fun st yi =>
            muValues.foldl (fun st ymu => finishColumn env d st xi xmu yi ymu) st) st) st)
        st := by
  have hi : 2 ≤ d.idim := by
    have : xi < (d.idim - 1).toNat := by simpa [cellRange] using hxi
    omega
  have hj : 2 ≤ d.jdim := by
    have : yi < (d.jdim - 1).toNat := by simpa [cellRange] using hyi
    omega
  obtain ⟨-, c2, c3⟩ := columnReflectivity_spec env d hv hi hj hk hs0 hs1
    (mishIndex xi xmu) (mishIndex yi ymu) st.buf
  have hbuf : (finishColumn env d st xi xmu yi ymu).buf =
      (columnReflectivity env d (mishIndex xi xmu) (mishIndex yi ymu) st.buf).1 := by
    unfold finishColumn
    dsimp only
    split <;> rfl
  refine ⟨?_, ?_, pseudoWOb_fields env d, finishReflectivity_columns env d st⟩
  · rw [hbuf]
    exact c2
  · rcases c3 with ⟨hnone, hm⟩ | ⟨zi, hzi, zmu, hzmu, hpos, hm, hmax⟩
    · refine Or.inl ⟨hnone, hm, ?_⟩
      unfold finishColumn
      dsimp only
      rw [hm, if_neg (by norm_num)]
    · refine Or.inr ⟨zi, hzi, zmu, hzmu, hpos, hm, hmax, ?_, ?_⟩
      · intro hc
        unfold finishColumn
        dsimp only
        rw [hm, if_pos hc]
      · intro hc
        unfold finishColumn
        dsimp only
        rw [hm, if_neg hc]

/-- Witness of C25: on the gridded reflectivity of the radar gate `demoRadarOb`, the
first mish column leaves the normalised reflectivity in its lowest level. -/
theorem pseudo_w_observation_witness :
    radarStart.numVars = 7 ∧ 0 < radarStart.kincr ∧
    0 < radarEnv.libm.sqrt (1 / 3) ∧ radarEnv.libm.sqrt (1 / 3) < 1 ∧
    readAt (finishColumn radarEnv radarStart ⟨[], radarGridded, []⟩ 0 (-1) 0 (-1)).buf.bgU
        (bIndex radarStart (mishIndex 0 (-1)) (mishIndex 0 (-1)) (mishIndex 0 (-1)) + 6) =
      normalisedReflectivity radarStart radarGridded (mishIndex 0 (-1)) (mishIndex 0 (-1))
        (mishIndex 0 (-1)) :=
  ⟨rfl, by decide!, by decide!, by decide!,
    (pseudo_w_observation radarEnv radarStart ⟨[], radarGridded, []⟩ 0 (-1) 0 (-1) rfl
      (by decide!) (by decide!) (by decide!) (by decide!) (by decide!)).1
      0 (by decide!) (-1) (by decide)⟩

end Claims

end Samurai
